import Mathlib

set_option maxHeartbeats 1000000

/-!
Verification development for the `compiler-v3` front-end (C sources under
`src/`).  The C code is shallowly embedded: pure helpers become Lean
functions, in-place mutation becomes explicit state passing (functions
return the updated nodes / interner states / scopes), arena allocation is
modelled as always succeeding, C `int64_t` values are modelled as `Int`
(the verified claims never exercise wrap-around), and C `double` values are
modelled as `Rat` (the verified claims never depend on rounding).
A NULL byte-slice and a zero-length byte-slice are indistinguishable to the
code (both are rejected by the same guard before any dereference), so both
are modelled as the empty list.
-/

namespace CompilerV3

/-- Source span (`Span` in `include/core/utils.h`): 1-based start/end
line/column coordinates. -/
structure Span where
  start_line : Nat
  start_col : Nat
  end_line : Nat
  end_col : Nat
deriving DecidableEq, Repr

/-- `span_join` from `include/core/utils.h`: start of `a`, end of `b`
(the NULL-argument guard cannot fire in the embedding, where spans are
values). -/
def span_join (a b : Span) : Span :=
  { start_line := a.start_line, start_col := a.start_col,
    end_line := b.end_line, end_col := b.end_col }

/-- Token kinds (`TokenType` in `include/lexing/token.h`), in the same
order as the C enum. -/
inductive TokenType where
  | tFn | tIf | tElse | tWhile | tFor | tReturn | tBreak | tContinue | tConst
  | tI32 | tI64 | tBool | tF32 | tF64 | tString | tChar
  | tPlusPlus | tMinusMinus | tPlusEq | tMinusEq | tStarEq | tSlashEq
  | tPercentEq | tEqEq | tBangEq | tLtEq | tGtEq | tAndAnd | tOrOr | tArrow
  | tAssign | tPlus | tMinus | tStar | tSlash | tPercent | tBang | tAmp
  | tLt | tGt
  | tDot | tLParen | tRParen | tLBrace | tRBrace | tLBracket | tRBracket
  | tComma | tSemicolon | tColon | tPipe
  | tFloatLit | tIntLit | tStringLit | tCharLit | tTrue | tFalse
  | tIdentifier | tComment | tEof | tUnknown
deriving DecidableEq, Repr

/-- Numeric value of a `TokenType`, matching the C enum numbering (used by
`get_base_type`, which compares token kinds numerically). -/
def TokenType.toNat : TokenType → Nat
  | .tFn => 0 | .tIf => 1 | .tElse => 2 | .tWhile => 3 | .tFor => 4
  | .tReturn => 5 | .tBreak => 6 | .tContinue => 7 | .tConst => 8
  | .tI32 => 9 | .tI64 => 10 | .tBool => 11 | .tF32 => 12 | .tF64 => 13
  | .tString => 14 | .tChar => 15
  | .tPlusPlus => 16 | .tMinusMinus => 17 | .tPlusEq => 18 | .tMinusEq => 19
  | .tStarEq => 20 | .tSlashEq => 21 | .tPercentEq => 22 | .tEqEq => 23
  | .tBangEq => 24 | .tLtEq => 25 | .tGtEq => 26 | .tAndAnd => 27
  | .tOrOr => 28 | .tArrow => 29 | .tAssign => 30 | .tPlus => 31
  | .tMinus => 32 | .tStar => 33 | .tSlash => 34 | .tPercent => 35
  | .tBang => 36 | .tAmp => 37 | .tLt => 38 | .tGt => 39
  | .tDot => 40 | .tLParen => 41 | .tRParen => 42 | .tLBrace => 43
  | .tRBrace => 44 | .tLBracket => 45 | .tRBracket => 46 | .tComma => 47
  | .tSemicolon => 48 | .tColon => 49 | .tPipe => 50
  | .tFloatLit => 51 | .tIntLit => 52 | .tStringLit => 53 | .tCharLit => 54
  | .tTrue => 55 | .tFalse => 56
  | .tIdentifier => 57 | .tComment => 58 | .tEof => 59 | .tUnknown => 60

/-! ## Dense arena interner (`src/datastructures/dense_arena_interner.c`)

Keys are byte slices; the canonical copy stored by both provided copy
functions has exactly the bytes of the original key (`string_copy_func`
additionally writes a NUL one past the end, outside the slice length).
The backing hash map is modelled as a scan of the stored records with the
caller-supplied comparison function; this is what `hashmap_get` computes
whenever the caller-supplied hash function is consistent with the
comparison function (true for `slice_hash`/`slice_cmp` and for the type
store's hasher/comparator).  A record is an arena-stable value; "pointer
identity" of records corresponds to value identity here, because each
record carries its unique dense index. -/

/-- `Entry`: per-record payload (`meta`, `dense_index`). -/
structure IEntry (M : Type) where
  meta : M
  dense_index : Nat
deriving DecidableEq, Repr

/-- `InternResult`: the record returned by `intern` — canonical key plus
entry. -/
structure InternResult (M : Type) where
  key : List UInt8
  entry : IEntry M
deriving DecidableEq, Repr

/-- `DenseArenaInterner`: the dense array of records in insertion order,
the running dense-index counter, and the caller-supplied key equality
(`cmp_func` returning 0 is modelled as `eqv` returning `true`). -/
structure DenseArenaInterner (M : Type) where
  eqv : List UInt8 → List UInt8 → Bool
  records : List (InternResult M)
  dense_index_count : Nat

/-- `intern_table_create`: fresh interner with the given comparison. -/
def intern_table_create (M : Type) (eqv : List UInt8 → List UInt8 → Bool) :
    DenseArenaInterner M :=
  { eqv := eqv, records := [], dense_index_count := 0 }

/-- `intern` from `dense_arena_interner.c`: reject NULL/empty keys, return
the existing record on a hit, otherwise canonicalize the key, assign the
next dense index, and append the new record to the dense array. -/
def intern {M : Type} (I : DenseArenaInterner M) (slice : List UInt8)
    (meta : M) : Option (InternResult M) × DenseArenaInterner M :=
  if slice.isEmpty then (none, I)
  else
    match I.records.find? (fun r => I.eqv r.key slice) with
    | some found => (some found, I)
    | none =>
      let res : InternResult M :=
        { key := slice,
          entry := { meta := meta, dense_index := I.dense_index_count } }
      (some res,
       { I with records := I.records ++ [res],
                dense_index_count := I.dense_index_count + 1 })

/-- `intern_peek`: lookup without insertion, with the same NULL/empty
guard. -/
def intern_peek {M : Type} (I : DenseArenaInterner M) (slice : List UInt8) :
    Option (InternResult M) :=
  if slice.isEmpty then none
  else I.records.find? (fun r => I.eqv r.key slice)

/-- `interner_get_result` is declared in `dense_arena_interner.h` but its
definition is not under `src/`.  Modelled from the spec: dense-index access,
"`get_by_index(i) -> IR`", returning the record first interned at dense
index `i` (out-of-range indices give NULL). -/
def interner_get_result {M : Type} (I : DenseArenaInterner M) (idx : Int) :
    Option (InternResult M) :=
  if 0 ≤ idx ∧ idx.toNat < I.records.length then
    I.records.get? idx.toNat
  else none

/-- `interner_foreach`: the callback visits the dense array in order; the
list of visited `(dense_index, key, meta)` triples. -/
def interner_foreach {M : Type} (I : DenseArenaInterner M) :
    List (Nat × List UInt8 × M) :=
  I.records.map (fun r => (r.entry.dense_index, r.key, r.entry.meta))

/-- Interning a list of `(key, meta)` pairs in order (used to state the
"after N distinct first insertions" interner properties). -/
def intern_list {M : Type} (I : DenseArenaInterner M)
    (ks : List (List UInt8 × M)) : DenseArenaInterner M :=
  ks.foldl (fun acc km => (intern acc km.1 km.2).2) I

/-! ## Lexer (`src/lexer.c`) — the pieces the claims are about -/

/-- `slice_cmp` from `utils.h` returns 0 exactly on byte-wise equal slices
of equal length; as a Boolean equality this is list equality. -/
def slice_eqv (a b : List UInt8) : Bool := a == b

/-- Byte sequence of a string literal (all keys used here are ASCII, so
the per-character codes are the UTF-8 bytes). -/
def strBytes (s : String) : List UInt8 :=
  s.data.map (fun c => UInt8.ofNat c.toNat)

/-- Record carried on a token (`Token.record`, a `void*` in C): either an
interner record, or — for char literals — the decoded codepoint stored as
an integer-cast pointer. -/
inductive TokenRecord where
  | ir (r : InternResult (Option TokenType))
  | code (c : UInt32)
deriving DecidableEq, Repr

/-- A lexer token (`Token` in `include/lexing/token.h`). -/
structure Token where
  type : TokenType
  slice : List UInt8
  span : Span
  record : Option TokenRecord
deriving DecidableEq, Repr

/-- Keyword metadata as stored by `lexer_create`:
`(void*)(uintptr_t)KEYWORDS[i].type`.  `TOK_FN` is 0, so the keyword `fn`
is stored with a NULL meta pointer; NULL is `none`. -/
def kwMeta (t : TokenType) : Option TokenType :=
  if t = .tFn then none else some t

/-- Reading a token kind back out of a meta pointer:
`(TokenType)(uintptr_t)meta`; NULL reads back as 0 = `TOK_FN`. -/
def metaToTokenType (m : Option TokenType) : TokenType := m.getD .tFn

/-- The `KEYWORDS` table of `lexer.c`, in order. -/
def keywordTable : List (List UInt8 × Option TokenType) :=
  [ (strBytes "fn", kwMeta .tFn), (strBytes "if", kwMeta .tIf),
    (strBytes "else", kwMeta .tElse), (strBytes "while", kwMeta .tWhile),
    (strBytes "for", kwMeta .tFor), (strBytes "return", kwMeta .tReturn),
    (strBytes "break", kwMeta .tBreak),
    (strBytes "continue", kwMeta .tContinue),
    (strBytes "const", kwMeta .tConst), (strBytes "i32", kwMeta .tI32),
    (strBytes "i64", kwMeta .tI64), (strBytes "bool", kwMeta .tBool),
    (strBytes "f32", kwMeta .tF32), (strBytes "f64", kwMeta .tF64),
    (strBytes "str", kwMeta .tString), (strBytes "char", kwMeta .tChar),
    (strBytes "true", kwMeta .tTrue), (strBytes "false", kwMeta .tFalse) ]

/-- The keyword interner as `lexer_create` leaves it. -/
def lexerKeywords : DenseArenaInterner (Option TokenType) :=
  intern_list (intern_table_create _ slice_eqv) keywordTable

/-- `is_alpha` from `lexer.c`: underscore or an ASCII letter. -/
def is_alpha_b (c : UInt8) : Bool :=
  c = 95 || (65 ≤ c && c ≤ 90) || (97 ≤ c && c ≤ 122)

/-- `is_digit` from `lexer.c`. -/
def is_digit_b (c : UInt8) : Bool := 48 ≤ c && c ≤ 57

/-- Output of `lexer_lex_identifier` together with the (possibly updated)
interner states. -/
structure LexIdentOut where
  tok_type : TokenType
  record : Option TokenRecord
  keywords : DenseArenaInterner (Option TokenType)
  identifiers : DenseArenaInterner (Option TokenType)

/-- `lexer_lex_identifier` from `lexer.c`: look the lexeme up in the
keyword interner with `intern_peek` (no insertion); a hit becomes the
keyword's stored token kind with the keyword record; a miss is interned in
the identifier interner and tagged `TOK_IDENTIFIER` (a failed intern gives
`TOK_UNKNOWN` and a NULL record). -/
def lexer_lex_identifier
    (keywords identifiers : DenseArenaInterner (Option TokenType))
    (slice : List UInt8) : LexIdentOut :=
  match intern_peek keywords slice with
  | some kwres =>
    { tok_type := metaToTokenType kwres.entry.meta,
      record := some (.ir kwres), keywords := keywords,
      identifiers := identifiers }
  | none =>
    match intern identifiers slice none with
    | (some idres, ids2) =>
      { tok_type := .tIdentifier, record := some (.ir idres),
        keywords := keywords, identifiers := ids2 }
    | (none, ids2) =>
      { tok_type := .tUnknown, record := none, keywords := keywords,
        identifiers := ids2 }

/-- The string-scanning loop of `lexer_lex_string`, starting just after the
opening quote: returns the raw content bytes before the closing quote,
whether a closing quote was found, and the rest of the input after it. -/
def lex_string_scan : List UInt8 → (List UInt8 × Bool × List UInt8)
  | [] => ([], false, [])
  | c :: rest =>
    if c = 34 then ([], true, rest)
    else if c = 92 then
      match rest with
      | [] => ([c], false, [])
      | d :: rest2 =>
        let r := lex_string_scan rest2
        (c :: d :: r.1, r.2.1, r.2.2)
    else
      let r := lex_string_scan rest
      (c :: r.1, r.2.1, r.2.2)

/-- Escape decoding shared by `unescape_string_into_arena` (the byte after
a backslash; unknown escapes fall through to the escaped byte). -/
def escByte (d : UInt8) : UInt8 :=
  if d = 110 then 10 else if d = 116 then 9 else if d = 114 then 13
  else if d = 92 then 92 else if d = 34 then 34 else if d = 39 then 39
  else if d = 48 then 0 else d

/-- The copy loop of `unescape_string_into_arena` (a backslash at the very
end is dropped, matching the `r >= end` break). -/
def unescape_bytes : List UInt8 → List UInt8
  | [] => []
  | c :: rest =>
    if c = 92 then
      match rest with
      | [] => []
      | d :: rest2 => escByte d :: unescape_bytes rest2
    else c :: unescape_bytes rest

/-- `unescape_string_into_arena`: a zero-length raw slice yields a NULL
slice (`none`); otherwise the unescaped bytes. -/
def unescape_string_into_arena (raw : List UInt8) : Option (List UInt8) :=
  if raw.isEmpty then none else some (unescape_bytes raw)

/-- Output of the string-literal branch of `lexer_next_token`. -/
structure StringTokenOut where
  tok_type : TokenType
  record : Option TokenRecord
  strings : DenseArenaInterner (Option TokenType)

/-- The `c == '"'` branch of `lexer_next_token`: scan to the closing quote
(unterminated gives `TOK_UNKNOWN`), unescape the raw content, and intern
the unescaped bytes in the strings interner; a NULL unescaped slice (the
empty string literal) leaves the record NULL. -/
def lex_string_token (strings : DenseArenaInterner (Option TokenType))
    (afterQuote : List UInt8) : StringTokenOut :=
  let scanRes := lex_string_scan afterQuote
  if scanRes.2.1 then
    match unescape_string_into_arena scanRes.1 with
    | some unescaped =>
      if 0 < unescaped.length then
        let r := intern strings unescaped none
        { tok_type := .tStringLit, record := r.1.map TokenRecord.ir,
          strings := r.2 }
      else
        let r := intern strings unescaped none
        { tok_type := .tStringLit, record := r.1.map TokenRecord.ir,
          strings := r.2 }
    | none => { tok_type := .tStringLit, record := none, strings := strings }
  else { tok_type := .tUnknown, record := none, strings := strings }

/-! ## Literal values, operators, semantic types -/

/-- `LiteralType` from `ast.h`. -/
inductive LiteralType where
  | intL | floatL | boolL | stringL | charL | unknownL
deriving DecidableEq, Repr

/-- The literal/constant value union.  C `double`s are modelled as exact
rationals; C `int64_t` as `Int` (no verified claim exercises wrap-around or
rounding).  `zeroV` is the all-zero union of a freshly `arena_calloc`ed
node. -/
inductive LitVal where
  | intV (i : Int)
  | floatV (q : Rat)
  | boolV (b : Bool)
  | charV (c : UInt8)
  | stringV (r : Option TokenRecord)
  | zeroV
deriving DecidableEq, Repr

/-- Union member read `value.int_val` (reading a member other than the one
last written is union reinterpretation; it is never observed on any
verified path, and is modelled as 0). -/
def LitVal.int_val : LitVal → Int
  | .intV i => i
  | _ => 0

/-- Union member read `value.float_val` (same caveat as `int_val`). -/
def LitVal.float_val : LitVal → Rat
  | .floatV q => q
  | _ => 0

/-- Union member read `value.bool_val` (same caveat as `int_val`). -/
def LitVal.bool_val : LitVal → Bool
  | .boolV b => b
  | _ => false

/-- `ConstValue` as used by the semantic analyzer: a literal-kind tag and
the value union. -/
structure ConstValue where
  type : LiteralType
  value : LitVal
deriving DecidableEq, Repr

/-- The all-zero `ConstValue` of a freshly created node. -/
def ConstValue.zero : ConstValue := { type := .intL, value := .zeroV }

/-- `OpKind` from `ast.h`. -/
inductive OpKind where
  | opNull
  | opAdd | opSub | opMul | opDiv | opMod
  | opEq | opNeq | opLt | opGt | opLe | opGe
  | opAnd | opOr | opNot
  | opAssign | opPlusEq | opMinusEq | opMulEq | opDivEq | opModEq
  | opDeref | opAdress
  | opPostInc | opPostDec | opPreInc | opPreDec
deriving DecidableEq, Repr

/-- `PrimitiveKind` from `include/sema/type.h`. -/
inductive PrimKind where
  | pI32 | pI64 | pF32 | pF64 | pBool | pChar | pVoid | pStr
deriving DecidableEq, Repr

/-- Semantic types (`Type` in `include/sema/type.h`).  Types are interned
by the type store, whose comparator makes canonical-pointer equality
coincide with this structural equality (`TYPE_VOID`, `TYPE_STRUCT` and
`TYPE_ENUM` are never constructed by the code; the comparator's disregard
of `size_known` can only identify a size-0 sized array with an unsized
one, a pair no verified claim touches). -/
inductive Ty where
  | prim (p : PrimKind)
  | ptr (base : Ty)
  | array (base : Ty) (size : Int) (size_known : Bool)
  | func (return_type : Ty) (params : List Ty)
deriving Repr

mutual

/-- Decidable structural equality on `Ty` (standing in for canonical
pointer comparison). -/
def Ty.decEq : (a b : Ty) → Decidable (a = b)
  | .prim p, .prim q =>
    if h : p = q then isTrue (by rw [h])
    else isFalse (fun hh => h (by injection hh))
  | .ptr a, .ptr b =>
    match Ty.decEq a b with
    | isTrue h => isTrue (by rw [h])
    | isFalse h => isFalse (fun hh => h (by injection hh))
  | .array a n k, .array b m l =>
    match Ty.decEq a b with
    | isFalse h1 => isFalse (fun hh => h1 (by injection hh))
    | isTrue h1 =>
      if h2 : n = m then
        if h3 : k = l then isTrue (by rw [h1, h2, h3])
        else isFalse (fun hh => h3 (by injection hh))
      else isFalse (fun hh => h2 (by injection hh))
  | .func r ps, .func s qs =>
    match Ty.decEq r s, Ty.decEqList ps qs with
    | isTrue h1, isTrue h2 => isTrue (by rw [h1, h2])
    | isFalse h1, _ => isFalse (fun hh => h1 (by injection hh))
    | _, isFalse h2 => isFalse (fun hh => h2 (by injection hh))
  | .prim _, .ptr _ => isFalse (fun h => Ty.noConfusion h)
  | .prim _, .array _ _ _ => isFalse (fun h => Ty.noConfusion h)
  | .prim _, .func _ _ => isFalse (fun h => Ty.noConfusion h)
  | .ptr _, .prim _ => isFalse (fun h => Ty.noConfusion h)
  | .ptr _, .array _ _ _ => isFalse (fun h => Ty.noConfusion h)
  | .ptr _, .func _ _ => isFalse (fun h => Ty.noConfusion h)
  | .array _ _ _, .prim _ => isFalse (fun h => Ty.noConfusion h)
  | .array _ _ _, .ptr _ => isFalse (fun h => Ty.noConfusion h)
  | .array _ _ _, .func _ _ => isFalse (fun h => Ty.noConfusion h)
  | .func _ _, .prim _ => isFalse (fun h => Ty.noConfusion h)
  | .func _ _, .ptr _ => isFalse (fun h => Ty.noConfusion h)
  | .func _ _, .array _ _ _ => isFalse (fun h => Ty.noConfusion h)

/-- Decidable equality of semantic-type lists (function parameter lists). -/
def Ty.decEqList : (a b : List Ty) → Decidable (a = b)
  | [], [] => isTrue rfl
  | [], _ :: _ => isFalse (fun h => List.noConfusion h)
  | _ :: _, [] => isFalse (fun h => List.noConfusion h)
  | a :: as, b :: bs =>
    match Ty.decEq a b, Ty.decEqList as bs with
    | isTrue h1, isTrue h2 => isTrue (by rw [h1, h2])
    | isFalse h1, _ => isFalse (fun hh => h1 (by injection hh))
    | _, isFalse h2 => isFalse (fun hh => h2 (by injection hh))

end

instance : DecidableEq Ty := Ty.decEq

/-- The canonical primitive singletons of the type store. -/
def t_i32 : Ty := .prim .pI32

/-- Canonical `i64`. -/
def t_i64 : Ty := .prim .pI64

/-- Canonical `f32`. -/
def t_f32 : Ty := .prim .pF32

/-- Canonical `f64`. -/
def t_f64 : Ty := .prim .pF64

/-- Canonical `bool`. -/
def t_bool : Ty := .prim .pBool

/-- Canonical `char`. -/
def t_char : Ty := .prim .pChar

/-- Canonical `str`. -/
def t_str : Ty := .prim .pStr

/-- Canonical `void` (`create_primitive(ts, PRIM_VOID)`). -/
def t_void : Ty := .prim .pVoid

/-! ## AST (`include/ast.h`)

An `AstNode` carries its span, the semantic annotations filled in by sema
(`type`, here `sem_type`; `is_const_expr`; `const_value`), and the
kind-tagged payload.  The C `node_type` tag is the constructor of
`AstData`.  The parser's `ConstValue`-shaped literal payload and the
analyzer's bare-union literal payload are the same storage; it is modelled
once as `(LiteralType, LitVal)`. -/

mutual

/-- AST payloads, one constructor per `AstNodeType`/`AstTypeKind` actually
constructed by the code (`AST_CAST` is the synthetic cast wrapper of the
analyzer in `typecheck_expr.c`). -/
inductive AstData where
  | program (decls : List AstNode)
  | variableDeclaration (type_node : Option AstNode)
      (name_rec : Option TokenRecord) (is_const : Bool)
      (initializer : Option AstNode)
  | functionDeclaration (return_type : Option AstNode)
      (name_rec : Option TokenRecord) (params : List AstNode)
      (body : Option AstNode)
  | param (name_idx : Int) (type_node : Option AstNode)
  | block (statements : List AstNode)
  | ifStatement (condition : AstNode) (then_branch : AstNode)
      (else_branch : Option AstNode)
  | whileStatement (condition : AstNode) (body : AstNode)
  | forStatement (init : Option AstNode) (condition : Option AstNode)
      (post : Option AstNode) (body : Option AstNode)
  | returnStatement (expression : Option AstNode)
  | breakStatement
  | continueStatement
  | literal (ltype : LiteralType) (value : LitVal)
  | identifier (name_rec : Option TokenRecord)
  | binaryExpr (left : AstNode) (right : AstNode) (op : OpKind)
  | unaryExpr (op : OpKind) (expr : AstNode)
  | postfixExpr (expr : AstNode) (op : OpKind)
  | assignmentExpr (lvalue : AstNode) (rvalue : AstNode) (op : OpKind)
  | callExpr (callee : AstNode) (args : List AstNode)
  | subscriptExpr (target : AstNode) (index : AstNode)
  | typeName (tspan : Span) (name_rec : Option TokenRecord)
  | typePtr (tspan : Span) (target : AstNode)
  | typeArray (tspan : Span) (elem : AstNode) (size_expr : Option AstNode)
  | typeFunc (tspan : Span) (param_types : List AstNode)
      (return_type : Option AstNode)
  | initializerList (elements : List AstNode)
  | castExpr (expr : AstNode) (target_type : Ty)

/-- An AST node: span, semantic annotations, payload. -/
inductive AstNode where
  | mk (span : Span) (sem_type : Option Ty) (is_const_expr : Bool)
      (const_value : ConstValue) (data : AstData)

end

/-- Span accessor. -/
def AstNode.span : AstNode → Span
  | .mk s _ _ _ _ => s

/-- Semantic type accessor (`node->type`; `none` is NULL / unresolved). -/
def AstNode.sem_type : AstNode → Option Ty
  | .mk _ t _ _ _ => t

/-- `node->is_const_expr`. -/
def AstNode.is_const_expr : AstNode → Bool
  | .mk _ _ c _ _ => c

/-- `node->const_value`. -/
def AstNode.const_value : AstNode → ConstValue
  | .mk _ _ _ v _ => v

/-- Payload accessor. -/
def AstNode.data : AstNode → AstData
  | .mk _ _ _ _ d => d

/-- Functional update of the span. -/
def AstNode.withSpan (n : AstNode) (s : Span) : AstNode :=
  match n with
  | .mk _ t c v d => .mk s t c v d

/-- Functional update of the semantic type (`node->type = ...`). -/
def AstNode.withType (n : AstNode) (t : Option Ty) : AstNode :=
  match n with
  | .mk s _ c v d => .mk s t c v d

/-- Functional update of the const-expr flag and value. -/
def AstNode.withConst (n : AstNode) (c : Bool) (v : ConstValue) : AstNode :=
  match n with
  | .mk s t _ _ d => .mk s t c v d

/-- Functional update of the payload. -/
def AstNode.withData (n : AstNode) (d : AstData) : AstNode :=
  match n with
  | .mk s t c v _ => .mk s t c v d

/-- The all-zero span of a freshly `arena_calloc`ed node. -/
def Span.zero : Span := { start_line := 0, start_col := 0, end_line := 0, end_col := 0 }

/-- `ast_create_node`: a fresh node with the given payload tag and all
other fields zeroed (the payload fields themselves are filled by the
caller before the node is used; the embedding assembles the finished
payload directly). -/
def mkNode (span : Span) (d : AstData) : AstNode :=
  .mk span none false ConstValue.zero d

/-- `is_lvalue_node` from `parsing/ast.c`: identifier, subscript, or prefix
dereference (postfix increment/decrement nodes are rvalues). -/
def is_lvalue_node : AstNode → Bool
  | .mk _ _ _ _ (.identifier _) => true
  | .mk _ _ _ _ (.subscriptExpr _ _) => true
  | .mk _ _ _ _ (.unaryExpr op _) => op = .opDeref
  | .mk _ _ _ _ (.postfixExpr _ _) => false
  | _ => false

/-- `is_assignment_op` from `parsing/ast.c`. -/
def is_assignment_op (t : TokenType) : Bool :=
  match t with
  | .tAssign | .tPlusEq | .tMinusEq | .tStarEq | .tSlashEq | .tPercentEq =>
    true
  | _ => false

/-- The `data.ast_type.span` field of a type node (type payloads carry
their own span, distinct from the node span, exactly as `AstType` does). -/
def AstNode.ast_type_span (n : AstNode) : Span :=
  match n.data with
  | .typeName sp _ => sp
  | .typePtr sp _ => sp
  | .typeArray sp _ _ => sp
  | .typeFunc sp _ _ => sp
  | _ => Span.zero

/-! ## Type predicates and the implicit-cast policy
(`src/sema/type_utils.c`) -/

/-- `type_is_integer` (non-NULL argument; the NULL guard returns false and
is handled at `Option Ty` call sites by `type_is_integer?`). -/
def type_is_integer_t : Ty → Bool
  | .prim .pI32 => true
  | .prim .pI64 => true
  | _ => false

/-- `type_is_integer` including the NULL guard. -/
def type_is_integer? : Option Ty → Bool
  | none => false
  | some t => type_is_integer_t t

/-- `type_is_float` (non-NULL argument). -/
def type_is_float_t : Ty → Bool
  | .prim .pF32 => true
  | .prim .pF64 => true
  | _ => false

/-- `type_is_float` including the NULL guard. -/
def type_is_float? : Option Ty → Bool
  | none => false
  | some t => type_is_float_t t

/-- `type_is_bool` (non-NULL argument). -/
def type_is_bool_t : Ty → Bool
  | .prim .pBool => true
  | _ => false

/-- `type_is_char` (non-NULL argument). -/
def type_is_char_t : Ty → Bool
  | .prim .pChar => true
  | _ => false

/-- `type_is_numeric`: integer or float. -/
def type_is_numeric_t (t : Ty) : Bool :=
  type_is_integer_t t || type_is_float_t t

/-- `type_is_numeric` including the NULL guard. -/
def type_is_numeric? : Option Ty → Bool
  | none => false
  | some t => type_is_numeric_t t

/-- `type_can_implicit_cast(target, source)` from `type_utils.c` (both
arguments non-NULL; the NULL guard returns false at every call site that
could pass NULL).  Canonical-pointer comparisons are structural equality
here. -/
def type_can_implicit_cast (target source : Ty) : Bool :=
  if target = source then true
  else if type_is_integer_t source && type_is_integer_t target
          && (source = t_i32 && target = t_i64) then true
  else if type_is_float_t source && type_is_float_t target
          && (source = t_f32 && target = t_f64) then true
  else if type_is_integer_t source && type_is_float_t target then true
  else
    match target, source with
    | .array tb ts tk, .array sb ss sk =>
      if !tk || (sk && ts = ss) then type_can_implicit_cast tb sb
      else false
    | _, _ => false

/-- The implicit-cast relation exactly as the claim states it (five rules;
rule 5 requires the target array to be the size-forgetting unsized form at
every level).  This follows the claim/spec wording, for comparison against
`type_can_implicit_cast`. -/
def claimed_implicit_cast (target source : Ty) : Bool :=
  (target = source)
  || (source = t_i32 && target = t_i64)
  || (source = t_f32 && target = t_f64)
  || (type_is_integer_t source && type_is_float_t target)
  || (match target, source with
      | .array tb _ tk, .array sb _ _ => !tk && claimed_implicit_cast tb sb
      | _, _ => false)

/-- The implicit-cast relation as amended: rule 5 additionally allows a
sized target array whose size is known to equal the source's size (this is
the only change the counterexample forces). -/
def amended_implicit_cast (target source : Ty) : Bool :=
  (target = source)
  || (source = t_i32 && target = t_i64)
  || (source = t_f32 && target = t_f64)
  || (type_is_integer_t source && type_is_float_t target)
  || (match target, source with
      | .array tb ts tk, .array sb ss sk =>
        (!tk || (sk && ts = ss)) && amended_implicit_cast tb sb
      | _, _ => false)

/-! ## Scope and symbols (`src/datastructures/scope.c`, `scope.h`) -/

/-- `SymbolValue` from `scope.h`. -/
inductive SymbolValue where
  | sValueInt | sValueFloat | sValueBool | sValueFunction | sValueType
  | sVariable
deriving DecidableEq, Repr

/-- Symbol flag bits from `scope.h`:
`CONST = 1`, `COMPUTED_VALUE = 2`, `USED = 4`, `INITIALIZED = 8`. -/
def SYMBOL_FLAG_CONST : Nat := 1

/-- `SYMBOL_FLAG_COMPUTED_VALUE`. -/
def SYMBOL_FLAG_COMPUTED_VALUE : Nat := 2

/-- A symbol (the `value` union holds an int64, a double, or a bool;
`zeroV` is the `arena_calloc` zero state). -/
structure Symbol where
  name_rec : InternResult (Option TokenType)
  type : Ty
  span : Span
  kind : SymbolValue
  flags : Nat
  value : LitVal
deriving DecidableEq, Repr

/-- One scope: the dense-index-addressed slot array (length = capacity),
the scope kind (0 = identifiers, 1 = keywords), and the nesting depth. -/
structure ScopeFrame where
  symbols : List (Option Symbol)
  kind : Nat
  depth : Nat
deriving Repr

/-- A scope chain, innermost frame first (the C `Scope*` plus its parent
pointers).  The empty list is the NULL scope. -/
def Scope := List ScopeFrame

/-- `scope_create`: push a fresh zeroed frame of the given capacity in
front of the parent chain. -/
def scope_create (parent : Scope) (identifier_count : Nat) (kind : Nat) :
    Scope :=
  ({ symbols := List.replicate identifier_count none, kind := kind,
     depth := parent.length } : ScopeFrame) :: parent

/-- `scope_lookup_symbol_local` on one frame: the slot at the record's
dense index, NULL when out of capacity. -/
def scope_lookup_symbol_local (f : ScopeFrame)
    (rec : InternResult (Option TokenType)) : Option Symbol :=
  if rec.entry.dense_index < f.symbols.length then
    f.symbols.getD rec.entry.dense_index none
  else none

/-- `scope_define_symbol`: returns the new symbol and the updated scope, or
NULL (and the unchanged scope) when the index is out of capacity or the
slot is already occupied.  The C writes into the scope it is handed, which
in the analyzer is always the innermost frame. -/
def scope_define_symbol (sc : Scope)
    (rec : Option (InternResult (Option TokenType))) (ty : Option Ty)
    (kind : SymbolValue) : Option Symbol × Scope :=
  match sc, rec, ty with
  | f :: rest, some r, some t =>
    if f.symbols.length ≤ r.entry.dense_index then (none, f :: rest)
    else if (scope_lookup_symbol_local f r).isSome then (none, f :: rest)
    else
      let sym : Symbol :=
        { name_rec := r, type := t, span := Span.zero, kind := kind,
          flags := 0, value := .zeroV }
      (some sym,
       { f with symbols := f.symbols.set r.entry.dense_index (some sym) }
         :: rest)
  | sc, _, _ => (none, sc)

/-- `scope_lookup_symbol`: walk the chain; a frame is consulted only when
its kind matches the key's kind (keyword keys are those whose meta pointer
is non-NULL). -/
def scope_lookup_symbol (sc : Scope)
    (rec : Option (InternResult (Option TokenType))) : Option Symbol :=
  match rec with
  | none => none
  | some r =>
    let is_keyword_key := r.entry.meta.isSome
    let look : List ScopeFrame → Option Symbol := fun frames =>
      frames.findSome? (fun f =>
        if (f.kind == 1) == is_keyword_key then scope_lookup_symbol_local f r
        else none)
    look sc

/-- The interner record behind a token record (`void*` reinterpretation;
a char-literal codepoint is never dereferenced as a record on any verified
path). -/
def TokenRecord.asIR : TokenRecord → Option (InternResult (Option TokenType))
  | .ir r => some r
  | .code _ => none

/-! ## Semantic diagnostics (`include/sema/type_report.h`) -/

/-- Semantic diagnostic kinds. -/
inductive TypeErrorKind where
  | teUnknownType | teRedeclaration | teUndeclared | teArgCountMismatch
  | teTypeMismatch | teReturnMismatch | teVariableTypeResolutionFailed
  | teDimensionMismatch | teArraySizeMismatch | teExpectedArray
  | teUnexpectedList | teBinopMismatch | teUnopMismatch | teNotCallable
  | teNotIndexable | teFieldAccess | teConstAssign | teNotConst
  | teNotLvalue
deriving DecidableEq, Repr

/-- A semantic diagnostic: kind and span (the kind-specific payload and
filename are not observed by any claim and are omitted). -/
structure TypeError where
  kind : TypeErrorKind
  span : Span
deriving DecidableEq, Repr

/-! ## Expression checking (`src/sema/typecheck_expr.c`)

`intern_type` returns the canonical pointer for a structural prototype;
since canonical identity is structural equality in this embedding, it is
the identity on `Ty`. -/

/-- `intern_type` (`src/sema/type.c`): canonicalization of a structural
prototype; the canonical type is the structural value itself. -/
def intern_type (t : Ty) : Ty := t

/-- `unite_numeric_types`.  The C compares `Type*` pointers, so NULL
arguments flow through the comparisons; the `Option Ty` arguments model
that. -/
def unite_numeric_types (a b : Option Ty) : Option Ty :=
  if a = b then a
  else if a = some t_f64 || b = some t_f64 then some t_f64
  else if a = some t_f32 || b = some t_f32 then some t_f32
  else if a = some t_i64 || b = some t_i64 then some t_i64
  else if a = some t_i32 || b = some t_i32 then some t_i32
  else none

/-- Truncation of a C `double` toward zero (the `(int64_t)` cast), on the
rational model. -/
def ratTrunc (q : Rat) : Int := if 0 ≤ q then ⌊q⌋ else ⌈q⌉

/-- `fmod` on the rational model of doubles (truncated remainder). -/
def ratFmod (a b : Rat) : Rat := a - (ratTrunc (a / b) : Rat) * b

/-- `fold_unary_op`: fold `!` on bool constants and `-` on numeric
constants into `node` (returned updated). -/
def fold_unary_op (node : AstNode) (op : OpKind) (operand : AstNode) :
    AstNode :=
  if !operand.is_const_expr then node
  else
    let ty := operand.const_value.type
    if op = .opNot && ty = .boolL then
      node.withConst true
        { type := .boolL,
          value := .boolV (!operand.const_value.value.bool_val) }
    else if op = .opSub then
      if ty = .intL then
        node.withConst true
          { type := ty, value := .intV (-(operand.const_value.value.int_val)) }
      else if ty = .floatL then
        node.withConst true
          { type := ty,
            value := .floatV (-(operand.const_value.value.float_val)) }
      else
        node.withConst true { type := ty, value := node.const_value.value }
    else node

/-- `fold_binary_op`: fold a binary operation over two constant operands
into `node` (returned updated).  Division or modulo whose right constant is
zero returns with `node` untouched (the `if (v2 == 0) return;` guards);
the same holds for operators outside the handled set and for operand kinds
outside int/float. -/
def fold_binary_op (node : AstNode) (op : OpKind) (l r : AstNode) :
    AstNode :=
  if !l.is_const_expr || !r.is_const_expr then node
  else
    let ltype := l.const_value.type
    let rtype := r.const_value.type
    let setF := fun (res : Rat) =>
      node.withConst true { type := .floatL, value := .floatV res }
    let setI := fun (res : Int) =>
      node.withConst true { type := .intL, value := .intV res }
    let setB := fun (res : Bool) =>
      node.withConst true { type := .boolL, value := .boolV res }
    if ltype = .floatL || rtype = .floatL then
      let v1 : Rat := if ltype = .floatL then l.const_value.value.float_val
                      else (l.const_value.value.int_val : Rat)
      let v2 : Rat := if rtype = .floatL then r.const_value.value.float_val
                      else (r.const_value.value.int_val : Rat)
      match op with
      | .opAdd => setF (v1 + v2)
      | .opSub => setF (v1 - v2)
      | .opMul => setF (v1 * v2)
      | .opDiv => if v2 = 0 then node else setF (v1 / v2)
      | .opMod => if v2 = 0 then node else setF (ratFmod v1 v2)
      | .opEq => setB (v1 = v2)
      | .opNeq => setB (v1 ≠ v2)
      | .opLt => setB (v1 < v2)
      | .opGt => setB (v2 < v1)
      | .opLe => setB (v1 ≤ v2)
      | .opGe => setB (v2 ≤ v1)
      | _ => node
    else if ltype = .intL && rtype = .intL then
      let v1 := l.const_value.value.int_val
      let v2 := r.const_value.value.int_val
      match op with
      | .opAdd => setI (v1 + v2)
      | .opSub => setI (v1 - v2)
      | .opMul => setI (v1 * v2)
      | .opDiv => if v2 = 0 then node else setI (Int.tdiv v1 v2)
      | .opMod => if v2 = 0 then node else setI (Int.tmod v1 v2)
      | .opEq => setB (v1 = v2)
      | .opNeq => setB (v1 ≠ v2)
      | .opLt => setB (v1 < v2)
      | .opGt => setB (v2 < v1)
      | .opLe => setB (v1 ≤ v2)
      | .opGe => setB (v2 ≤ v1)
      | .opAnd => setB (v1 ≠ 0 && v2 ≠ 0)
      | .opOr => setB (v1 ≠ 0 || v2 ≠ 0)
      | _ => node
    else node

/-- `resolve_literal_type` from `typecheck_expr.c`: the type of a literal
under an optional expected type. -/
def resolve_literal_type (lit_kind : LiteralType) (expected : Option Ty) :
    Option Ty :=
  match lit_kind with
  | .intL =>
    match expected with
    | some e =>
      if type_is_float_t e then some e
      else if type_is_integer_t e then some e
      else some t_i64
    | none => some t_i64
  | .floatL =>
    match expected with
    | some e => if type_is_float_t e then some e else some t_f64
    | none => some t_f64
  | .boolL => some t_bool
  | .charL => some t_char
  | .stringL => some t_str
  | .unknownL => none

/-- `check_literal` from `typecheck_expr.c`: resolve the literal type,
convert the stored numeric value to float when an int literal meets a
float type, mark the node constant, and annotate it.  (Dispatch guarantees
a literal payload; other payloads pass through untouched.) -/
def check_literal (expr : AstNode) (expected : Option Ty) :
    AstNode × Option Ty :=
  match expr.data with
  | .literal lt lv =>
    let ty := resolve_literal_type lt expected
    let conv :=
      lt = .intL && (match ty with
                     | some u => type_is_float_t u
                     | none => false)
    let lt2 := if conv then .floatL else lt
    let lv2 := if conv then LitVal.floatV (lv.int_val : Rat) else lv
    let e2 := ((expr.withData (.literal lt2 lv2)).withConst true
      { type := lt2, value := lv2 }).withType ty
    (e2, ty)
  | _ => (expr, none)

/-- `insert_cast` from `typecheck_expr.c`: replace `node` in place by a
cast wrapper around a copy of the original unless its type already equals
the target.  Constant children make the cast constant, with the value
folded int-to-float, float-to-int (truncating), or passed through
int-to-int. -/
def insert_cast (node : AstNode) (to_type : Ty) : AstNode :=
  if node.sem_type = some to_type then node
  else
    let original := node
    let cv :=
      if original.is_const_expr then
        if type_is_integer? original.sem_type && type_is_float_t to_type then
          { type := .floatL,
            value := .floatV (original.const_value.value.int_val : Rat) }
        else if type_is_float? original.sem_type
                && type_is_integer_t to_type then
          { type := .intL,
            value := .intV (ratTrunc original.const_value.value.float_val) }
        else if type_is_integer? original.sem_type
                && type_is_integer_t to_type then
          { type := LiteralType.intL, value := original.const_value.value }
        else original.const_value
      else node.const_value
    AstNode.mk original.span (some to_type) original.is_const_expr cv
      (.castExpr original to_type)

/-- `get_type_rank`: number of array levels of a type. -/
def get_type_rank : Ty → Int
  | .array b _ _ => 1 + get_type_rank b
  | _ => 0

/-- `get_initializer_rank`: nesting depth along first elements of an
initializer list (fuel-indexed for reducibility; the fuel passed always
exceeds the nesting depth). -/
def get_initializer_rank : Nat → AstNode → Int
  | 0, _ => 0
  | fuel + 1, n =>
    match n.data with
    | .initializerList elems =>
      match elems with
      | [] => 1
      | first :: _ => 1 + get_initializer_rank fuel first
    | _ => 0

/-- Whether a node's tag is `AST_LITERAL`. -/
def AstNode.isLiteralNode (n : AstNode) : Bool :=
  match n.data with
  | .literal _ _ => true
  | _ => false

/-- Arithmetic operator group of `check_binary`. -/
def isArithOp (op : OpKind) : Bool :=
  op = .opAdd || op = .opSub || op = .opMul || op = .opDiv || op = .opMod

/-- Comparison operator group of `check_binary`. -/
def isCmpOp (op : OpKind) : Bool :=
  op = .opEq || op = .opNeq || op = .opLt || op = .opGt || op = .opLe
    || op = .opGe

/-- The tail of `check_binary`: rebuild the node with its (possibly
cast-wrapped) operands, fold when both operands are constant, and convert
an int-kind folded const value to float when the result type is float. -/
def check_binary_finish (expr left right : AstNode) (op : OpKind)
    (result_type : Option Ty) (errs : List TypeError) :
    AstNode × Option Ty × List TypeError :=
  let e1 := expr.withData (.binaryExpr left right op)
  let e2 :=
    if left.is_const_expr && right.is_const_expr then
      let f := fold_binary_op e1 op left right
      if type_is_float? result_type && f.const_value.type = .intL then
        f.withConst f.is_const_expr
          { type := .floatL,
            value := .floatV (f.const_value.value.int_val : Rat) }
      else f
    else e1
  (e2, result_type, errs)

/-- `check_expression` from `typecheck_expr.c`, with the bodies of the
sub-checkers it dispatches to (`check_identifier`, `check_call_expr`,
`check_subscript`, `check_assignment`, `check_initializer_list`,
`check_unary`, `check_binary`) inlined at their dispatch arms so that the
whole family is a single function structurally recursive on a fuel bound
(the fuel always exceeds the AST depth in every use below; exhaustion
returns the node unchanged with no type).  Statement order, error pushes,
early returns, and in-place child rewrites follow the C. -/
def check_expression_x :
    Nat → Scope → AstNode → Option Ty →
    AstNode × Option Ty × List TypeError
  | 0, _, expr, _ => (expr, none, [])
  | fuel + 1, scope, expr0, expected =>
    let expr := expr0.withConst false expr0.const_value
    let out : AstNode × Option Ty × List TypeError :=
      match expr.data with
      | .literal _ _ =>
        let r := check_literal expr expected
        (r.1, r.2, [])
      | .identifier nr =>
        match scope_lookup_symbol scope (nr.bind TokenRecord.asIR) with
        | none => (expr, none, [⟨.teUndeclared, expr.span⟩])
        | some sym =>
          let e1 := expr.withType (some sym.type)
          let e2 :=
            if sym.flags.land SYMBOL_FLAG_CONST ≠ 0
               ∧ sym.flags.land SYMBOL_FLAG_COMPUTED_VALUE ≠ 0 then
              if type_is_integer_t sym.type then
                e1.withConst true ⟨.intL, .intV sym.value.int_val⟩
              else if type_is_float_t sym.type then
                e1.withConst true ⟨.floatL, .floatV sym.value.float_val⟩
              else if type_is_bool_t sym.type then
                e1.withConst true ⟨.boolL, .boolV sym.value.bool_val⟩
              else if type_is_char_t sym.type then
                e1.withConst true
                  ⟨.charL, .charV (sym.value.int_val.emod 256).toNat.toUInt8⟩
              else e1.withConst true e1.const_value
            else e1.withConst false e1.const_value
          (e2, some sym.type, [])
      | .callExpr callee args =>
        let rc := check_expression_x fuel scope callee none
        let callee1 := rc.1
        let e1 := expr.withData (.callExpr callee1 args)
        match rc.2.1 with
        | none => (e1, none, rc.2.2)
        | some ct =>
          match ct with
          | .func ret ps =>
            if args.length ≠ ps.length then
              (e1, none, rc.2.2 ++ [⟨.teArgCountMismatch, expr.span⟩])
            else
              let step := fun (acc : List AstNode × List TypeError)
                  (pair : AstNode × Ty) =>
                let ra := check_expression_x fuel scope pair.1 (some pair.2)
                let arg1 := ra.1
                match ra.2.1 with
                | some aty =>
                  if aty ≠ pair.2 then
                    if type_can_implicit_cast pair.2 aty then
                      (acc.1 ++ [insert_cast arg1 pair.2], acc.2 ++ ra.2.2)
                    else
                      (acc.1 ++ [arg1],
                       acc.2 ++ ra.2.2 ++ [⟨.teTypeMismatch, arg1.span⟩])
                  else (acc.1 ++ [arg1], acc.2 ++ ra.2.2)
                | none => (acc.1 ++ [arg1], acc.2 ++ ra.2.2)
              let lres := (args.zip ps).foldl step ([], [])
              (expr.withData (.callExpr callee1 lres.1), some ret,
               rc.2.2 ++ lres.2)
          | _ => (e1, none, rc.2.2 ++ [⟨.teNotCallable, callee1.span⟩])
      | .subscriptExpr target idx =>
        let rt := check_expression_x fuel scope target none
        let target1 := rt.1
        let e1 := expr.withData (.subscriptExpr target1 idx)
        match rt.2.1 with
        | none => (e1, none, rt.2.2)
        | some bt =>
          let indexable :=
            match bt with
            | .array _ _ _ => true
            | .ptr _ => true
            | _ => false
          if !indexable then
            (e1, none, rt.2.2 ++ [⟨.teNotIndexable, target1.span⟩])
          else
            let ri := check_expression_x fuel scope idx (some t_i64)
            let idx1 := ri.1
            let e2 := expr.withData (.subscriptExpr target1 idx1)
            if ¬ type_is_integer? ri.2.1 then
              (e2, none, rt.2.2 ++ ri.2.2 ++ [⟨.teTypeMismatch, idx1.span⟩])
            else
              let elemt :=
                match bt with
                | .array b _ _ => b
                | .ptr b => b
                | _ => bt
              (e2, some elemt, rt.2.2 ++ ri.2.2)
      | .binaryExpr left right op =>
        let lhs_hint : Option Ty :=
          match expected with
          | some e =>
            if type_is_numeric_t e && isArithOp op then some e else none
          | none => none
        let rl := check_expression_x fuel scope left lhs_hint
        let left1 := rl.1
        let lhs0 := rl.2.1
        let rhs_hint : Option Ty :=
          if type_is_numeric? lhs0 then lhs0
          else
            match expected with
            | some e =>
              if type_is_numeric_t e && lhs_hint.isSome then some e else none
            | none => none
        let rr := check_expression_x fuel scope right rhs_hint
        let right1 := rr.1
        let rhs := rr.2.1
        let errs0 := rl.2.2 ++ rr.2.2
        if lhs0 = none ∨ rhs = none then
          (expr.withData (.binaryExpr left1 right1 op), none, errs0)
        else
          let rel :=
            if left1.isLiteralNode && decide (lhs0 ≠ rhs) then
              if type_is_integer? lhs0 && type_is_integer? rhs then
                check_expression_x fuel scope left1 rhs
              else if type_is_float? lhs0 && type_is_float? rhs then
                check_expression_x fuel scope left1 rhs
              else (left1, lhs0, [])
            else (left1, lhs0, [])
          let left2 := rel.1
          let lhs := rel.2.1
          let errs1 := errs0 ++ rel.2.2
          if isArithOp op then
            if ¬ (type_is_numeric? lhs && type_is_numeric? rhs) then
              (expr.withData (.binaryExpr left2 right1 op), none, errs1)
            else
              match unite_numeric_types lhs rhs with
              | none =>
                (expr.withData (.binaryExpr left2 right1 op), none, errs1)
              | some result_type =>
                let left3 := if lhs ≠ some result_type then
                    insert_cast left2 result_type else left2
                let right3 := if rhs ≠ some result_type then
                    insert_cast right1 result_type else right1
                check_binary_finish expr left3 right3 op (some result_type)
                  errs1
          else if isCmpOp op then
            let common0 := unite_numeric_types lhs rhs
            let common :=
              if common0 = none ∧ (op = .opEq ∨ op = .opNeq) then
                if lhs = rhs ∧ (match lhs with
                                | some (.ptr _) => true
                                | _ => false) = true then lhs
                else none
              else common0
            match common with
            | none =>
              (expr.withData (.binaryExpr left2 right1 op), none, errs1)
            | some c =>
              let left3 := if lhs ≠ some c then insert_cast left2 c else left2
              let right3 := if rhs ≠ some c then insert_cast right1 c
                  else right1
              check_binary_finish expr left3 right3 op (some t_bool) errs1
          else if op = .opAnd ∨ op = .opOr then
            if lhs ≠ some t_bool ∨ rhs ≠ some t_bool then
              (expr.withData (.binaryExpr left2 right1 op), none, errs1)
            else check_binary_finish expr left2 right1 op (some t_bool) errs1
          else check_binary_finish expr left2 right1 op none errs1
      | .unaryExpr uop operand =>
        let hint0 : Option Ty :=
          match expected with
          | some e =>
            if type_is_numeric_t e && (uop = .opSub || uop = .opAdd) then
              some e
            else none
          | none => none
        let hint :=
          if uop = .opNot ∧ expected = some t_bool then expected else hint0
        let ro := check_expression_x fuel scope operand hint
        let operand1 := ro.1
        let e1 := expr.withData (.unaryExpr uop operand1)
        match ro.2.1 with
        | none => (e1, none, ro.2.2)
        | some ot =>
          match uop with
          | .opNot =>
            if ot ≠ t_bool then (e1, none, ro.2.2)
            else
              let e2 := if operand1.is_const_expr then
                  fold_unary_op e1 uop operand1 else e1
              (e2, some t_bool, ro.2.2)
          | .opSub =>
            if ¬ type_is_numeric_t ot then (e1, none, ro.2.2)
            else
              let e2 := if operand1.is_const_expr then
                  fold_unary_op e1 uop operand1 else e1
              (e2, some ot, ro.2.2)
          | .opAdress =>
            if ¬ is_lvalue_node operand1 then (e1, none, ro.2.2)
            else (e1, some (intern_type (.ptr ot)), ro.2.2)
          | .opDeref =>
            match ot with
            | .ptr b => (e1, some b, ro.2.2)
            | _ => (e1, none, ro.2.2)
          | _ => (e1, none, ro.2.2)
      | .assignmentExpr lv rv aop =>
        if ¬ is_lvalue_node lv then
          (expr, none, [⟨.teNotLvalue, lv.span⟩])
        else
          let rl := check_expression_x fuel scope lv none
          let lv1 := rl.1
          let rr := check_expression_x fuel scope rv rl.2.1
          let rv1 := rr.1
          let e1 := expr.withData (.assignmentExpr lv1 rv1 aop)
          let errs := rl.2.2 ++ rr.2.2
          match rl.2.1, rr.2.1 with
          | some lt, some rt =>
            if lt ≠ rt then
              if type_can_implicit_cast lt rt then
                let rv2 := insert_cast rv1 lt
                (expr.withData (.assignmentExpr lv1 rv2 aop), some lt, errs)
              else (e1, none, errs ++ [⟨.teTypeMismatch, rv1.span⟩])
            else (e1, some lt, errs)
          | _, _ => (e1, none, errs)
      | .initializerList elements =>
        match expected with
        | none => (expr, none, [])
        | some et =>
          match et with
          | .array _ _ _ =>
            let type_rank := get_type_rank et
            let init_rank := get_initializer_rank (fuel + 1) expr
            if type_rank ≠ init_rank then
              (expr, none, [⟨.teDimensionMismatch, expr.span⟩])
            else
              let elem_count := elements.length
              let size_bad :=
                match et with
                | .array _ sz known => known && decide ((elem_count : Int) ≠ sz)
                | _ => false
              if size_bad then
                (expr, none, [⟨.teArraySizeMismatch, expr.span⟩])
              else
                let base_expected :=
                  match et with
                  | .array b _ _ => b
                  | _ => et
                let step := fun
                    (st : List AstNode × List TypeError × Bool × Bool)
                    (el : AstNode) =>
                  if st.2.2.1 then (st.1 ++ [el], st.2.1, true, st.2.2.2)
                  else
                    let re := check_expression_x fuel scope el
                        (some base_expected)
                    let el1 := re.1
                    let errsE := st.2.1 ++ re.2.2
                    match re.2.1 with
                    | none => (st.1 ++ [el1], errsE, false, true)
                    | some actual =>
                      let isArrB :=
                        match base_expected with
                        | .array _ _ _ => true
                        | _ => false
                      let isArrA :=
                        match actual with
                        | .array _ _ _ => true
                        | _ => false
                      if isArrB && !isArrA then
                        (st.1 ++ [el1],
                         errsE ++ [⟨.teExpectedArray, el1.span⟩], true,
                         st.2.2.2)
                      else if !isArrB && isArrA then
                        (st.1 ++ [el1],
                         errsE ++ [⟨.teTypeMismatch, el1.span⟩], true,
                         st.2.2.2)
                      else if actual ≠ base_expected then
                        if type_can_implicit_cast base_expected actual then
                          (st.1 ++ [insert_cast el1 base_expected], errsE,
                           false, st.2.2.2)
                        else
                          (st.1 ++ [el1],
                           errsE ++ [⟨.teTypeMismatch, el1.span⟩], true,
                           st.2.2.2)
                      else (st.1 ++ [el1], errsE, false, st.2.2.2)
                let lres := elements.foldl step ([], [], false, false)
                let e1 := expr.withData (.initializerList lres.1)
                if lres.2.2.1 then (e1, none, lres.2.1)
                else if lres.2.2.2 then (e1, none, lres.2.1)
                else
                  let concrete := intern_type
                    (.array base_expected (elements.length : Int) true)
                  (e1, some concrete, lres.2.1)
          | _ => (expr, none, [⟨.teUnexpectedList, expr.span⟩])
      | .castExpr _ tt => (expr, some tt, [])
      | _ => (expr, none, [])
    (out.1.withType out.2.1, out.2.1, out.2.2)

/-! ## The compiled semantic pass (`src/sema/typecheck.c`)

`typecheck.c` contains its own static, reduced `check_expression` (it
handles only literal, identifier, call and subscript nodes; everything
else falls through its `default` arm untyped and silently), and its
`check_function_body` is an empty stub.  The type store reduces to the
primitive registry plus structural canonicalization. -/

/-- Context for the compiled pass: the identifier interner (for
`interner_get_result` on parameter name indices) and the primitive
registry built by `typestore_create`. -/
structure TypeCheckContext where
  identifiers : DenseArenaInterner (Option TokenType)
  registry : List (InternResult (Option TokenType) × Ty)

/-- `register_prim` for the seven registered primitive names, applied to a
keyword interner as `typestore_create` does (NULL meta on a fresh insert,
as `intern(ids, &s, NULL)` would store).  Returns the registry and the
(possibly grown) keyword interner. -/
def build_primitive_registry
    (kw : DenseArenaInterner (Option TokenType)) :
    List (InternResult (Option TokenType) × Ty)
      × DenseArenaInterner (Option TokenType) :=
  [(strBytes "i32", t_i32), (strBytes "i64", t_i64),
   (strBytes "f32", t_f32), (strBytes "f64", t_f64),
   (strBytes "bool", t_bool), (strBytes "char", t_char),
   (strBytes "str", t_str)].foldl
    (fun acc nameTy =>
      let r := intern acc.2 nameTy.1 none
      match r.1 with
      | some record => (acc.1 ++ [(record, nameTy.2)], r.2)
      | none => (acc.1, r.2))
    ([], kw)

/-- `hashmap_get(primitive_registry, name_res->key, ptr_hash, ptr_cmp)`:
pointer identity of the canonical key, i.e. record identity. -/
def registry_lookup (reg : List (InternResult (Option TokenType) × Ty))
    (r : InternResult (Option TokenType)) : Option Ty :=
  (reg.find? (fun e => e.1 = r)).map (·.2)

/-- Union read of `node->data.literal.type` on an arbitrary node (only
performed by `resolve_ast_type` behind an `is_const_expr` test that can
never be set at resolution time, so the non-literal value is never
observed). -/
def AstNode.literal_type_u (n : AstNode) : LiteralType :=
  match n.data with
  | .literal lt _ => lt
  | _ => .unknownL

/-- Union read of `node->data.literal.value.int_val` (same caveat). -/
def AstNode.literal_int_u (n : AstNode) : Int :=
  match n.data with
  | .literal _ v => v.int_val
  | _ => 0

/-- `resolve_ast_type` from `typecheck.c`: named types through the
primitive registry, then the scope (as `SYMBOL_VALUE_TYPE`); pointer,
array (sizes from integer literals only) and function type expressions
recursively, interned structurally. -/
def resolve_ast_type :
    Nat → TypeCheckContext → Scope → Option AstNode → Option Ty
  | 0, _, _, _ => none
  | fuel + 1, ctx, scope, node? =>
    match node? with
    | none => none
    | some node =>
      match node.data with
      | .typeName _ nr =>
        match nr.bind TokenRecord.asIR with
        | some r =>
          match registry_lookup ctx.registry r with
          | some prim => some prim
          | none =>
            match scope_lookup_symbol scope (some r) with
            | some sym =>
              if sym.kind = .sValueType then some sym.type else none
            | none => none
        | none => none
      | .typePtr _ target =>
        match resolve_ast_type fuel ctx scope (some target) with
        | some t => some (intern_type (.ptr t))
        | none => none
      | .typeArray _ elem szE =>
        match resolve_ast_type fuel ctx scope (some elem) with
        | none => none
        | some e =>
          match szE with
          | none => some (intern_type (.array e 0 false))
          | some sz =>
            if sz.isLiteralNode && sz.literal_type_u = .intL then
              some (intern_type (.array e sz.literal_int_u true))
            else if sz.is_const_expr && sz.literal_type_u = .intL then
              some (intern_type (.array e sz.literal_int_u true))
            else none
      | .typeFunc _ ptypes ret =>
        match resolve_ast_type fuel ctx scope ret with
        | none => none
        | some r =>
          let resolved := ptypes.map
            (fun p => resolve_ast_type fuel ctx scope (some p))
          if resolved.any (·.isNone) then none
          else
            some (intern_type
              (.func r (resolved.map (fun o => o.getD t_void))))
      | _ => none

/-- `define_symbol_or_error`: define, or push one `TE_REDECLARATION` when
`scope_define_symbol` refuses (a NULL name defines nothing silently). -/
def define_symbol_or_error (scope : Scope)
    (name : Option (InternResult (Option TokenType))) (ty : Option Ty)
    (kind : SymbolValue) (span : Span) : Scope × List TypeError :=
  match name with
  | none => (scope, [])
  | some n =>
    let r := scope_define_symbol scope (some n) ty kind
    if r.1.isNone then (r.2, [⟨.teRedeclaration, span⟩]) else (r.2, [])

/-- `resolve_function_decl`: resolve the return type (default `void`) and
each parameter's type (default `void`), annotate the parameter nodes,
intern the function type, and annotate the function node with it. -/
def resolve_function_decl (fuel : Nat) (ctx : TypeCheckContext)
    (scope : Scope) (func_node : AstNode) : AstNode :=
  match func_node.data with
  | .functionDeclaration ret_ast nr params body =>
    let ret := (resolve_ast_type fuel ctx scope ret_ast).getD t_void
    let resolvedParams := params.map (fun p =>
      match p.data with
      | .param _ tyn =>
        let pt := (resolve_ast_type fuel ctx scope tyn).getD t_void
        (p.withType (some pt), pt)
      | _ => (p, t_void))
    let fty := intern_type (.func ret (resolvedParams.map (·.2)))
    (func_node.withData
      (.functionDeclaration ret_ast nr (resolvedParams.map (·.1)) body)
      ).withType (some fty)
  | _ => func_node

/-- The static reduced `check_expression` of `typecheck.c`: literal (int
defaults to `i32`, adopting only an expected `i64`; float defaults to
`f64`, adopting only an expected `f32`), identifier, call (no implicit
casts), subscript (index checked without hint), and nothing else — every
other node kind falls to the `default` arm, which annotates it with NULL
and emits no diagnostic. -/
def check_expression_s :
    Nat → TypeCheckContext → Scope → AstNode → Option Ty →
    AstNode × Option Ty × List TypeError
  | 0, _, _, e, _ => (e, none, [])
  | fuel + 1, ctx, scope, expr, expected =>
    match expr.data with
    | .literal lt _ =>
      let result : Option Ty :=
        if lt = .intL then
          if expected = some t_i64 then some t_i64 else some t_i32
        else if lt = .floatL then
          if expected = some t_f32 then some t_f32 else some t_f64
        else if lt = .boolL then some t_bool
        else if lt = .charL then some t_char
        else if lt = .stringL then some t_str
        else none
      (expr.withType result, result, [])
    | .identifier nr =>
      match scope_lookup_symbol scope (nr.bind TokenRecord.asIR) with
      | none => (expr, none, [⟨.teUndeclared, expr.span⟩])
      | some sym => (expr.withType (some sym.type), some sym.type, [])
    | .callExpr callee args =>
      let rc := check_expression_s fuel ctx scope callee none
      let callee1 := rc.1
      let e1 := expr.withData (.callExpr callee1 args)
      match rc.2.1 with
      | none => (e1, none, rc.2.2)
      | some ct =>
        match ct with
        | .func ret ps =>
          if args.length ≠ ps.length then
            (e1, none, rc.2.2 ++ [⟨.teArgCountMismatch, expr.span⟩])
          else
            let step := fun (acc : List AstNode × List TypeError)
                (pair : AstNode × Ty) =>
              let ra := check_expression_s fuel ctx scope pair.1
                  (some pair.2)
              match ra.2.1 with
              | some aty =>
                if aty ≠ pair.2 then
                  (acc.1 ++ [ra.1],
                   acc.2 ++ ra.2.2 ++ [⟨.teTypeMismatch, ra.1.span⟩])
                else (acc.1 ++ [ra.1], acc.2 ++ ra.2.2)
              | none => (acc.1 ++ [ra.1], acc.2 ++ ra.2.2)
            let lres := (args.zip ps).foldl step ([], [])
            ((expr.withData (.callExpr callee1 lres.1)).withType (some ret),
             some ret, rc.2.2 ++ lres.2)
        | _ => (e1, none, rc.2.2 ++ [⟨.teNotCallable, callee1.span⟩])
    | .subscriptExpr target idx =>
      let rt := check_expression_s fuel ctx scope target none
      let ri := check_expression_s fuel ctx scope idx none
      let e1 := expr.withData (.subscriptExpr rt.1 ri.1)
      let errs := rt.2.2 ++ ri.2.2
      match rt.2.1 with
      | none => (e1, none, errs)
      | some bt =>
        match bt with
        | .array b _ _ => (e1.withType (some b), some b, errs)
        | .ptr b => (e1.withType (some b), some b, errs)
        | _ => (e1, none, errs ++ [⟨.teNotIndexable, rt.1.span⟩])
    | _ => (expr.withType none, none, [])

/-- `check_initializer` from `typecheck.c`: check the initializer with the
variable's type as expected type; a non-NULL result differing from the
variable's type is one `TE_TYPE_MISMATCH`.  (A NULL result — e.g. any
binary expression under the reduced checker — raises nothing.) -/
def check_initializer (fuel : Nat) (ctx : TypeCheckContext) (scope : Scope)
    (ini : AstNode) (var_type : Ty) : AstNode × List TypeError :=
  let rc := check_expression_s fuel ctx scope ini (some var_type)
  if rc.2.1.isSome ∧ rc.2.1 ≠ some var_type then
    (rc.1, rc.2.2 ++ [⟨.teTypeMismatch, ini.span⟩])
  else (rc.1, rc.2.2)

/-- `check_variable_declaration` from `typecheck.c`: resolve the declared
type (failure: one `TE_VARIABLE_TYPE_RESOLUTION_FAILED`), annotate the
node, define the symbol, check the initializer.  It performs no constant
folding and never touches symbol flags or the stored constant value. -/
def check_variable_declaration (fuel : Nat) (ctx : TypeCheckContext)
    (scope : Scope) (var_node : AstNode) :
    AstNode × Scope × List TypeError :=
  match var_node.data with
  | .variableDeclaration tyn nr isc initz =>
    match resolve_ast_type fuel ctx scope tyn with
    | none =>
      (var_node, scope, [⟨.teVariableTypeResolutionFailed, var_node.span⟩])
    | some var_type =>
      let v1 := var_node.withType (some var_type)
      let de :=
        if (nr.bind TokenRecord.asIR).isSome then
          define_symbol_or_error scope (nr.bind TokenRecord.asIR)
            (some var_type) .sVariable var_node.span
        else (scope, [])
      match initz with
      | none => (v1, de.1, de.2)
      | some ini =>
        let ric := check_initializer fuel ctx de.1 ini var_type
        (v1.withData (.variableDeclaration tyn nr isc (some ric.1)),
         de.1, de.2 ++ ric.2)
  | _ => (var_node, scope, [])

/-- `check_function_body` from `typecheck.c` — the body of this function
is empty: it reads the block out of the node and checks nothing, so the
function body's statements and expressions are returned untouched. -/
def check_function_body (body_node : AstNode)
    (expected_return_type : Option Ty) : AstNode :=
  body_node

/-- `check_function` from `typecheck.c`: a fresh 32-slot function scope,
the named parameters defined in it, and the (stubbed) body check.  Only
the diagnostics escape; the node is not modified. -/
def check_function (ctx : TypeCheckContext) (parent_scope : Scope)
    (func_node : AstNode) : List TypeError :=
  match func_node.data with
  | .functionDeclaration _ _ params body =>
    let fn_scope0 := scope_create parent_scope 32 0
    let dres := params.foldl
      (fun (acc : Scope × List TypeError) p =>
        match p.data with
        | .param name_idx _ =>
          if name_idx ≠ -1 then
            let nrec := interner_get_result ctx.identifiers name_idx
            let de := define_symbol_or_error acc.1 nrec p.sem_type
                .sVariable p.span
            (de.1, acc.2 ++ de.2)
          else acc
        | _ => acc)
      (fn_scope0, [])
    let ret := match func_node.sem_type with
      | some (.func r _) => some r
      | _ => none
    let _checked := (body.map (fun b => check_function_body b ret))
    dres.2
  | _ => []

/-- The result of `typecheck_program`: the annotated program, the global
scope (in-place symbol mutation made explicit), and the diagnostics in
push order. -/
structure TypecheckOut where
  program : AstNode
  global_scope : Scope
  errors : List TypeError

/-- `typecheck_program` from `typecheck.c`: create the global scope
(identifier count + 64 slots), run pass 1 (`resolve_program_functions`:
function signatures and function symbols only), then pass 2 in source
order (global variables through `check_variable_declaration`, function
bodies through `check_function`, whose body checker is a stub). -/
def typecheck_program (fuel : Nat) (ctx : TypeCheckContext)
    (program : AstNode) : TypecheckOut :=
  match program.data with
  | .program decls =>
    let global0 := scope_create []
      (ctx.identifiers.dense_index_count + 64) 0
    let p1 := decls.foldl
      (fun (acc : List AstNode × Scope × List TypeError) decl =>
        match decl.data with
        | .functionDeclaration _ nr _ _ =>
          let d1 := resolve_function_decl fuel ctx acc.2.1 decl
          if (nr.bind TokenRecord.asIR).isSome ∧ d1.sem_type.isSome then
            let de := define_symbol_or_error acc.2.1
                (nr.bind TokenRecord.asIR) d1.sem_type .sValueFunction
                decl.span
            (acc.1 ++ [d1], de.1, acc.2.2 ++ de.2)
          else (acc.1 ++ [d1], acc.2.1, acc.2.2)
        | _ => (acc.1 ++ [decl], acc.2.1, acc.2.2))
      ([], global0, [])
    let p2 := p1.1.foldl
      (fun (acc : List AstNode × Scope × List TypeError) decl =>
        match decl.data with
        | .variableDeclaration _ _ _ _ =>
          let r := check_variable_declaration fuel ctx acc.2.1 decl
          (acc.1 ++ [r.1], r.2.1, acc.2.2 ++ r.2.2)
        | .functionDeclaration _ _ _ _ =>
          let errs := check_function ctx acc.2.1 decl
          (acc.1 ++ [decl], acc.2.1, acc.2.2 ++ errs)
        | _ => (acc.1 ++ [decl], acc.2.1, acc.2.2))
      ([], p1.2.1, p1.2.2)
    { program := program.withData (.program p2.1),
      global_scope := p2.2.1, errors := p2.2.2 }
  | _ => { program := program, global_scope := [], errors := [] }

/-! ## Parser (`src/parsing/parser.c`, `src/parsing/parse_statements.c`)

The token array is a fixed list; the parser state is the cursor plus the
diagnostic record.  The C keeps a single `ParseError` slot that
`create_parse_error` overwrites; it is modelled as a list to which `cpe`
appends, so that any overwrite of an existing diagnostic would be visible
as a list of length exceeding one.  Arena allocation of nodes and arrays
always succeeds, so the C's out-of-memory error paths are dead here. -/

/-- A parse diagnostic (`ParseError`): message and offending token. -/
structure PErr where
  message : String
  tok : Option Token
deriving Repr

/-- Parser state: cursor and diagnostics (plus the `use_prev_token`
display flag). -/
structure PSt where
  cur : Nat
  errs : List PErr
  use_prev : Bool
deriving Repr

/-- `create_parse_error`: record a diagnostic. -/
def cpe (st : PSt) (msg : String) (tok : Option Token) : PSt :=
  { st with errs := st.errs ++ [{ message := msg, tok := tok }] }

/-- `err->use_prev_token = true`. -/
def setPrev (st : PSt) : PSt := { st with use_prev := true }

/-- `current_token`. -/
def cur_tok (tokens : List Token) (st : PSt) : Option Token :=
  tokens.get? st.cur

/-- `peek(p, 1)`. -/
def peek1 (tokens : List Token) (st : PSt) : Option Token :=
  tokens.get? (st.cur + 1)

/-- `consume(p, expected)`: advance over the current token exactly when it
has the expected kind. -/
def consumeT (tokens : List Token) (st : PSt) (expected : TokenType) :
    Option Token × PSt :=
  match tokens.get? st.cur with
  | some tok =>
    if tok.type = expected then (some tok, { st with cur := st.cur + 1 })
    else (none, st)
  | none => (none, st)

/-- `parser_match`. -/
def match_t (tokens : List Token) (st : PSt) (expected : TokenType) :
    Bool × PSt :=
  match tokens.get? st.cur with
  | some tok =>
    if tok.type = expected then (true, { st with cur := st.cur + 1 })
    else (false, st)
  | none => (false, st)

/-- `ULLONG_MAX` on the 64-bit platform the code targets. -/
def ULLONG_MAX : Nat := 2 ^ 64 - 1

/-- `LLONG_MAX`. -/
def LLONG_MAX : Nat := 2 ^ 63 - 1

/-- `parse_int_lit` from `parse_statements.c`: decimal digits with the
overflow guards (`> (ULLONG_MAX - d)/10` per step, `> LLONG_MAX` at the
end). -/
def parse_int_lit (s : List UInt8) : Option Int :=
  let step : Option Nat → UInt8 → Option Nat := fun acc c =>
    match acc with
    | none => none
    | some val =>
      if is_digit_b c then
        let d := c.toNat - 48
        if (ULLONG_MAX - d) / 10 < val then none else some (val * 10 + d)
      else none
  match s.foldl step (some 0) with
  | none => none
  | some val => if LLONG_MAX < val then none else some (val : Int)

/-- Value of a digit run. -/
def digitsVal (ds : List UInt8) : Nat :=
  ds.foldl (fun a c => a * 10 + (c.toNat - 48)) 0

/-- `parse_float_lit` from `parse_statements.c` on the rational model of
doubles: integer part, optional fraction, optional exponent; any leftover
byte makes it invalid. -/
def parse_float_lit (s : List UInt8) : Option Rat :=
  let ip := s.takeWhile is_digit_b
  let val0 : Rat := (digitsVal ip : Nat)
  let r1 := s.drop ip.length
  let fr :=
    match r1 with
    | c :: rest =>
      if c = 46 then
        let fd := rest.takeWhile is_digit_b
        (val0 + (digitsVal fd : Rat) / ((10 : Rat) ^ fd.length),
         rest.drop fd.length)
      else (val0, r1)
    | [] => (val0, r1)
  match fr.2 with
  | c :: rest =>
    if c = 101 ∨ c = 69 then
      let se :=
        match rest with
        | d :: rest2 =>
          if d = 43 then ((1 : Int), rest2)
          else if d = 45 then (-1, rest2)
          else (1, rest)
        | [] => (1, rest)
      let ed := se.2.takeWhile is_digit_b
      let r4 := se.2.drop ed.length
      if r4.isEmpty then
        let e := digitsVal ed
        some (if se.1 = 1 then fr.1 * (10 : Rat) ^ e
              else fr.1 / (10 : Rat) ^ e)
      else none
    else none
  | [] => some fr.1

/-- The per-level operator mapping of the binary-expression chain
(level 0 = logical-or … level 5 = multiplicative), combining
`map_logical_or_op` … `map_multiplicative_op`. -/
def map_binary_op (lvl : Nat) (t : TokenType) : OpKind :=
  match lvl with
  | 0 => if t = .tOrOr then .opOr else .opNull
  | 1 => if t = .tAndAnd then .opAnd else .opNull
  | 2 =>
    match t with
    | .tEqEq => .opEq
    | .tBangEq => .opNeq
    | _ => .opNull
  | 3 =>
    match t with
    | .tLt => .opLt
    | .tGt => .opGt
    | .tLtEq => .opLe
    | .tGtEq => .opGe
    | _ => .opNull
  | 4 =>
    match t with
    | .tPlus => .opAdd
    | .tMinus => .opSub
    | _ => .opNull
  | _ =>
    match t with
    | .tStar => .opMul
    | .tSlash => .opDiv
    | .tPercent => .opMod
    | _ => .opNull

/-- `map_assignment_op`. -/
def map_assignment_op (t : TokenType) : OpKind :=
  match t with
  | .tAssign => .opAssign
  | .tPlusEq => .opPlusEq
  | .tMinusEq => .opMinusEq
  | .tStarEq => .opMulEq
  | .tSlashEq => .opDivEq
  | .tPercentEq => .opModEq
  | _ => .opNull

/-- `map_unary_op`. -/
def map_unary_op (t : TokenType) : OpKind :=
  match t with
  | .tPlus => .opAdd
  | .tMinus => .opSub
  | .tBang => .opNot
  | .tStar => .opDeref
  | .tAmp => .opAdress
  | .tPlusPlus => .opPreInc
  | .tMinusMinus => .opPreDec
  | _ => .opNull

/-- `get_literal_type`. -/
def get_literal_type (t : TokenType) : LiteralType :=
  match t with
  | .tIntLit => .intL
  | .tFloatLit => .floatL
  | .tTrue => .boolL
  | .tFalse => .boolL
  | .tStringLit => .stringL
  | .tCharLit => .charL
  | _ => .unknownL

/-- The prefix-operator token set of `parse_unary`. -/
def isPrefixOpTok (t : TokenType) : Bool :=
  t = .tPlus || t = .tMinus || t = .tBang || t = .tStar || t = .tAmp
    || t = .tPlusPlus || t = .tMinusMinus

/-- `(char)(uintptr_t)token->record` for char literals (truncating the
codepoint; a genuine pointer is never truncated on any verified path). -/
def recordToChar : Option TokenRecord → UInt8
  | some (.code c) => c.toUInt8
  | _ => 0

/-- Values a production can return besides failure: an AST node, a node
list (parameter/argument collection), or an interner record
(`get_base_type`). -/
inductive PVal where
  | node (n : AstNode)
  | nodes (l : List AstNode)
  | irec (r : TokenRecord)

/-- Production outcome: a value, the C's NULL return, or fuel exhaustion
(no C counterpart; runs considered by the theorems never exhaust fuel). -/
inductive PRes where
  | ok (v : PVal)
  | fail
  | fuelOut

/-- A result of the wrong shape (e.g. a node where a node list belongs)
cannot arise — each production's shape is fixed — and is mapped to the
out-of-fuel outcome, about which no theorem claims anything. -/
def shapeErr (st : PSt) : PRes × PSt := (.fuelOut, st)

/-- Sequencing on node-shaped results (`if (!x) return NULL;` then use
`x`). -/
def pbindN (x : PRes × PSt) (k : AstNode → PSt → PRes × PSt) :
    PRes × PSt :=
  match x with
  | (.ok (.node n), st) => k n st
  | (.ok _, st) => shapeErr st
  | (.fail, st) => (.fail, st)
  | (.fuelOut, st) => (.fuelOut, st)

/-- Sequencing on list-shaped results. -/
def pbindL (x : PRes × PSt) (k : List AstNode → PSt → PRes × PSt) :
    PRes × PSt :=
  match x with
  | (.ok (.nodes l), st) => k l st
  | (.ok _, st) => shapeErr st
  | (.fail, st) => (.fail, st)
  | (.fuelOut, st) => (.fuelOut, st)

/-- The parser's productions, one constructor per C production or
production-internal loop (loops carry their accumulated state). -/
inductive PJob where
  | decl
  | declStmt
  | varDecl
  | funcDecl
  | paramList
  | paramLoop (acc : List AstNode)
  | typeJ
  | typePre (base : AstNode)
  | typeArr (base : AstNode)
  | typeSuf (base : AstNode)
  | typeAtom
  | baseTypeJ
  | funcType
  | funcTypeParams (acc : List AstNode)
  | exprJ
  | binLevel (lvl : Nat)
  | binLoop (lvl : Nat) (lhs : AstNode)
  | assignJ (lhs : AstNode)
  | unaryJ
  | postfixJ
  | postfixLoop (primary : AstNode)
  | primaryJ
  | argList
  | argLoop (acc : List AstNode)
  | initList
  | initLoop (acc : List AstNode) (startSpan : Span)
  | blockJ
  | blockLoop (acc : List AstNode) (startSpan : Span)
  | stmtJ
  | ifStmt
  | whileStmt
  | forStmt
  | returnStmt
  | breakStmt
  | continueStmt
  | exprStmt

/-- The recursive-descent parser: one structurally fuel-recursive function
dispatching on the production (`PJob`), translated production by
production from `parse_statements.c`.  Every recursive production call
spends one fuel unit; the loop constructors re-enter with their
accumulated state.  `fail` is the C's NULL return. -/
def prun (tokens : List Token) : Nat → PJob → PSt → PRes × PSt
  | 0, _, st => (.fuelOut, st)
  | fuel + 1, job, st =>
    match job with
    | .decl =>
      match cur_tok tokens st with
      | none => (.fail, cpe st "Unexpected end of input" none)
      | some cur =>
        if cur.type = .tEof then
          let c := consumeT tokens st .tEof
          (.fail, c.2)
        else if cur.type = .tFn then prun tokens fuel .funcDecl st
        else if cur.type = .tConst ∨ cur.type = .tIdentifier then
          prun tokens fuel .declStmt st
        else
          (.fail,
           cpe st "expected function or variable declaration" (some cur))
    | .declStmt =>
      pbindN (prun tokens fuel .varDecl st) (fun d st1 =>
        let c := consumeT tokens st1 .tSemicolon
        match c.1 with
        | none =>
          let st2 := setPrev c.2
          (.fail, cpe st2 "expected semicolon after variable declaration"
            (cur_tok tokens st2))
        | some semi =>
          (.ok (.node (d.withSpan (span_join d.span semi.span))), c.2))
    | .varDecl =>
      match cur_tok tokens st with
      | none =>
        (.fail, cpe st "unexpected end of input in variable declaration"
          none)
      | some tok =>
        let step1 : Span × Bool × PSt :=
          if tok.type = .tConst then
            let c := consumeT tokens st .tConst
            (match c.1 with
             | some ct => ct.span
             | none => Span.zero, true, c.2)
          else (Span.zero, false, st)
        let cN := consumeT tokens step1.2.2 .tIdentifier
        match cN.1 with
        | none =>
          (.fail, cpe cN.2 "expected identifier in variable declaration"
            (cur_tok tokens cN.2))
        | some name_tok =>
          let sp1 := if step1.1.start_line = 0 then name_tok.span
                     else span_join step1.1 name_tok.span
          let cC := consumeT tokens cN.2 .tColon
          match cC.1 with
          | none =>
            (.fail, cpe cC.2 "expected colon after variable name"
              (cur_tok tokens cC.2))
          | some _ =>
            pbindN (prun tokens fuel .typeJ cC.2) (fun tyN st2 =>
              let m := match_t tokens st2 .tAssign
              if m.1 then
                let c2 := consumeT tokens m.2 .tAssign
                let isBrace : Bool :=
                  match cur_tok tokens c2.2 with
                  | some t => t.type == .tLBrace
                  | none => false
                pbindN
                  (if isBrace then prun tokens fuel .initList c2.2
                   else prun tokens fuel .exprJ c2.2)
                  (fun ini st4 =>
                    (.ok (.node (mkNode (span_join sp1 ini.span)
                      (.variableDeclaration (some tyN) name_tok.record
                        step1.2.1 (some ini)))), st4))
              else
                (.ok (.node (mkNode (span_join sp1 tyN.span)
                  (.variableDeclaration (some tyN) name_tok.record
                    step1.2.1 none))), m.2))
    | .funcDecl =>
      let cF := consumeT tokens st .tFn
      match cF.1 with
      | none =>
        (.fail,
         cpe cF.2 "expected fn keyword at start of function declaration"
           (cur_tok tokens cF.2))
      | some fn_tok =>
        let cN := consumeT tokens cF.2 .tIdentifier
        match cN.1 with
        | none =>
          (.fail, cpe cN.2 "expected function name" (cur_tok tokens cN.2))
        | some name_tok =>
          let cL := consumeT tokens cN.2 .tLParen
          match cL.1 with
          | none =>
            (.fail, cpe cL.2 "expected opening paren after function name"
              (cur_tok tokens cL.2))
          | some _ =>
            pbindL (prun tokens fuel .paramList cL.2) (fun params st2 =>
              let cR := consumeT tokens st2 .tRParen
              match cR.1 with
              | none =>
                (.fail,
                 cpe cR.2 "expected closing paren after function parameters"
                   (cur_tok tokens cR.2))
              | some _ =>
                let finishBody := fun (ret : Option AstNode) (stB : PSt) =>
                  pbindN (prun tokens fuel .blockJ stB) (fun body st4 =>
                    (.ok (.node (mkNode
                      (span_join fn_tok.span body.span)
                      (.functionDeclaration ret name_tok.record params
                        (some body)))), st4))
                let hasArrow : Bool :=
                  match cur_tok tokens cR.2 with
                  | some t => t.type == .tArrow
                  | none => false
                if hasArrow then
                  let cA := consumeT tokens cR.2 .tArrow
                  pbindN (prun tokens fuel .typeJ cA.2) (fun rt st3 =>
                    finishBody (some rt) st3)
                else finishBody none cR.2)
    | .paramList =>
      match cur_tok tokens st with
      | none =>
        (.fail, cpe st "unexpected end of input in parameter list" none)
      | some tok =>
        if tok.type = .tRParen then (.ok (.nodes []), st)
        else prun tokens fuel (.paramLoop []) st
    | .paramLoop acc =>
      match cur_tok tokens st with
      | none =>
        (.fail, cpe st "unexpected end of input in parameter list" none)
      | some tok =>
        if tok.type ≠ .tIdentifier then
          (.fail, cpe st "expected identifier for parameter name" none)
        else
          let name_idx : Int :=
            match tok.record with
            | some (.ir r) => (r.entry.dense_index : Int)
            | _ => -1
          let c1 := consumeT tokens st .tIdentifier
          let cC := consumeT tokens c1.2 .tColon
          match cC.1 with
          | none =>
            (.fail, cpe cC.2 "expected colon after parameter name"
              (cur_tok tokens cC.2))
          | some _ =>
            pbindN (prun tokens fuel .typeJ cC.2) (fun ty st2 =>
              let param := mkNode (span_join tok.span ty.ast_type_span)
                (.param name_idx (some ty))
              let acc2 := acc ++ [param]
              match cur_tok tokens st2 with
              | none =>
                (.fail,
                 cpe st2 "unexpected end of input in parameter list" none)
              | some tok2 =>
                if tok2.type = .tRParen then (.ok (.nodes acc2), st2)
                else
                  let cM := consumeT tokens st2 .tComma
                  match cM.1 with
                  | none =>
                    (.fail, cpe cM.2 "expected comma or rparen after parameter"
                      (some tok2))
                  | some _ => prun tokens fuel (.paramLoop acc2) cM.2)
    | .typeJ =>
      pbindN (prun tokens fuel .typeAtom st) (fun base st1 =>
        prun tokens fuel (.typePre base) st1)
    | .typePre base =>
      match cur_tok tokens st with
      | some t =>
        if t.type = .tStar then
          let c := consumeT tokens st .tStar
          match c.1 with
          | none =>
            (.fail, cpe c.2 "expected star for pointer suffix"
              (cur_tok tokens c.2))
          | some star =>
            let ptr_type := mkNode Span.zero
              (.typePtr (span_join base.span star.span) base)
            prun tokens fuel (.typePre ptr_type) c.2
        else prun tokens fuel (.typeArr base) st
      | none => prun tokens fuel (.typeArr base) st
    | .typeArr base =>
      match cur_tok tokens st with
      | some t =>
        if t.type = .tLBracket then
          let cL := consumeT tokens st .tLBracket
          match cL.1 with
          | none =>
            (.fail, cpe cL.2 "expected lbracket for array suffix"
              (cur_tok tokens cL.2))
          | some _ =>
            let needExpr : Bool :=
              match cur_tok tokens cL.2 with
              | some pk => pk.type != .tRBracket
              | none => false
            let sub : Option AstNode × PSt × Bool :=
              (none, cL.2, false)
            let afterSize : (Option AstNode × PSt) ⊕ (PRes × PSt) :=
              if needExpr then
                match prun tokens fuel .exprJ cL.2 with
                | (.ok (.node se), stE) => .inl (some se, stE)
                | (.ok _, stE) => .inr (shapeErr stE)
                | (.fail, stE) =>
                  if !stE.errs.isEmpty then .inr (.fail, stE)
                  else .inl (none, stE)
                | (.fuelOut, stE) => .inr (.fuelOut, stE)
              else .inl (none, cL.2)
            match afterSize with
            | .inr r => r
            | .inl se =>
              let cR := consumeT tokens se.2 .tRBracket
              match cR.1 with
              | none =>
                let st3 := setPrev cR.2
                (.fail,
                 cpe st3 "expected rbracket after array size expression"
                   (cur_tok tokens st3))
              | some rbr =>
                let array_type := mkNode Span.zero
                  (.typeArray (span_join base.span rbr.span) base se.1)
                prun tokens fuel (.typeArr array_type) cR.2
        else prun tokens fuel (.typeSuf base) st
      | none => prun tokens fuel (.typeSuf base) st
    | .typeSuf base =>
      match cur_tok tokens st with
      | some t =>
        if t.type = .tStar then
          let c := consumeT tokens st .tStar
          match c.1 with
          | none =>
            (.fail, cpe c.2 "expected star for pointer suffix"
              (cur_tok tokens c.2))
          | some star =>
            let ptr_type := mkNode Span.zero
              (.typePtr (span_join base.span star.span) base)
            prun tokens fuel (.typeSuf ptr_type) c.2
        else (.ok (.node base), st)
      | none => (.ok (.node base), st)
    | .typeAtom =>
      match cur_tok tokens st with
      | none => (.fail, cpe st "unexpected end of input in type" none)
      | some tok =>
        if tok.type = .tLParen then
          let cL := consumeT tokens st .tLParen
          match cL.1 with
          | some lpar =>
            pbindN (prun tokens fuel .typeJ cL.2) (fun inner st2 =>
              let cR := consumeT tokens st2 .tRParen
              match cR.1 with
              | none =>
                (.fail, cpe cR.2 "expected rparen after type"
                  (cur_tok tokens cR.2))
              | some rparen =>
                (.ok (.node (inner.withSpan
                  (span_join lpar.span rparen.span))), cR.2))
          | none => shapeErr cL.2
        else if tok.type = .tFn then prun tokens fuel .funcType st
        else
          match prun tokens fuel .baseTypeJ st with
          | (.ok (.irec base_type), st2) =>
            (.ok (.node (mkNode Span.zero
              (.typeName tok.span (some base_type)))), st2)
          | (.ok _, st2) => shapeErr st2
          | (.fail, st2) => (.fail, st2)
          | (.fuelOut, st2) => (.fuelOut, st2)
    | .baseTypeJ =>
      match cur_tok tokens st with
      | none =>
        (.fail,
         cpe st "unexpected end of input while looking for base type" none)
      | some tok =>
        if tok.type.toNat < TokenType.tI32.toNat
            ∨ TokenType.tChar.toNat < tok.type.toNat then
          (.fail, cpe st "expected base type" (some tok))
        else
          let c := consumeT tokens st tok.type
          match tok.record with
          | some r => (.ok (.irec r), c.2)
          | none => (.fail, c.2)
    | .funcType =>
      let cF := consumeT tokens st .tFn
      match cF.1 with
      | none =>
        (.fail, cpe cF.2 "expected fn keyword" (cur_tok tokens cF.2))
      | some fn_tok =>
        let cL := consumeT tokens cF.2 .tLParen
        match cL.1 with
        | none =>
          (.fail, cpe cL.2 "expected lparen after fn type"
            (cur_tok tokens cL.2))
        | some _ =>
          let finishArrow := fun (ptypes : List AstNode) (spanSoFar : Span)
              (stA : PSt) =>
            let hasArrow : Bool :=
              match cur_tok tokens stA with
              | some t => t.type == .tArrow
              | none => false
            if hasArrow then
              let cA := consumeT tokens stA .tArrow
              pbindN (prun tokens fuel .typeJ cA.2) (fun ret st4 =>
                (.ok (.node (mkNode Span.zero
                  (.typeFunc (span_join spanSoFar ret.span) ptypes
                    (some ret)))), st4))
            else
              (.ok (.node (mkNode Span.zero
                (.typeFunc spanSoFar ptypes none))), stA)
          let emptyParams : Bool :=
            match cur_tok tokens cL.2 with
            | some t => t.type == .tRParen
            | none => false
          if emptyParams then
            let cR := consumeT tokens cL.2 .tRParen
            match cR.1 with
            | some r =>
              finishArrow [] (span_join fn_tok.span r.span) cR.2
            | none => shapeErr cR.2
          else
            pbindN (prun tokens fuel .typeJ cL.2) (fun p1 st2 =>
              pbindL (prun tokens fuel (.funcTypeParams [p1]) st2)
                (fun params st3 =>
                  let cR := consumeT tokens st3 .tRParen
                  match cR.1 with
                  | none =>
                    (.fail,
                     cpe cR.2 "expected rparen after function parameter types"
                       (cur_tok tokens cR.2))
                  | some rparen =>
                    finishArrow params (span_join fn_tok.span rparen.span)
                      cR.2))
    | .funcTypeParams acc =>
      match cur_tok tokens st with
      | some sep =>
        if sep.type = .tComma then
          let cM := consumeT tokens st .tComma
          pbindN (prun tokens fuel .typeJ cM.2) (fun p st2 =>
            prun tokens fuel (.funcTypeParams (acc ++ [p])) st2)
        else (.ok (.nodes acc), st)
      | none => (.ok (.nodes acc), st)
    | .exprJ =>
      pbindN (prun tokens fuel (.binLevel 0) st) (fun lhs st1 =>
        let isAssign : Bool :=
          match cur_tok tokens st1 with
          | some t => is_assignment_op t.type
          | none => false
        if isAssign then prun tokens fuel (.assignJ lhs) st1
        else (.ok (.node lhs), st1))
    | .binLevel lvl =>
      let operand := if lvl < 5 then PJob.binLevel (lvl + 1) else PJob.unaryJ
      pbindN (prun tokens fuel operand st) (fun lhs st1 =>
        prun tokens fuel (.binLoop lvl lhs) st1)
    | .binLoop lvl lhs =>
      match cur_tok tokens st with
      | some token =>
        let op := map_binary_op lvl token.type
        if op = .opNull then (.ok (.node lhs), st)
        else
          let c := consumeT tokens st token.type
          let operand := if lvl < 5 then PJob.binLevel (lvl + 1)
                         else PJob.unaryJ
          pbindN (prun tokens fuel operand c.2) (fun rhs st2 =>
            let bin := mkNode (span_join lhs.span rhs.span)
              (.binaryExpr lhs rhs op)
            prun tokens fuel (.binLoop lvl bin) st2)
      | none => (.ok (.node lhs), st)
    | .assignJ lhs =>
      if !is_lvalue_node lhs then
        (.fail,
         cpe st "left-hand side of assignment must be an lvalue" none)
      else
        match cur_tok tokens st with
        | none =>
          (.fail, cpe st "expected assignment operator"
            (cur_tok tokens st))
        | some op_tok =>
          if !is_assignment_op op_tok.type then
            (.fail, cpe st "expected assignment operator"
              (cur_tok tokens st))
          else
            let c := consumeT tokens st op_tok.type
            pbindN (prun tokens fuel .exprJ c.2) (fun rhs st2 =>
              (.ok (.node (mkNode (span_join lhs.span rhs.span)
                (.assignmentExpr lhs rhs (map_assignment_op op_tok.type)))),
               st2))
    | .unaryJ =>
      match cur_tok tokens st with
      | some token =>
        if isPrefixOpTok token.type then
          let c := consumeT tokens st token.type
          match c.1 with
          | none =>
            (.fail, cpe c.2 "failed to consume prefix operator"
              (some token))
          | some op_token =>
            pbindN (prun tokens fuel .unaryJ c.2) (fun operand st2 =>
              (.ok (.node (mkNode (span_join op_token.span operand.span)
                (.unaryExpr (map_unary_op op_token.type) operand))), st2))
        else prun tokens fuel .postfixJ st
      | none => prun tokens fuel .postfixJ st
    | .postfixJ =>
      pbindN (prun tokens fuel .primaryJ st) (fun primary st1 =>
        prun tokens fuel (.postfixLoop primary) st1)
    | .postfixLoop primary =>
      match cur_tok tokens st with
      | none => (.ok (.node primary), st)
      | some token =>
        if token.type = .tPlusPlus ∨ token.type = .tMinusMinus then
          let op := if token.type = .tPlusPlus then OpKind.opPostInc
                    else OpKind.opPostDec
          let postfix_node := mkNode (span_join primary.span token.span)
            (.unaryExpr op primary)
          let c := consumeT tokens st token.type
          prun tokens fuel (.postfixLoop postfix_node) c.2
        else if token.type = .tLBracket then
          let cL := consumeT tokens st .tLBracket
          pbindN (prun tokens fuel .exprJ cL.2) (fun index st2 =>
            let cR := consumeT tokens st2 .tRBracket
            match cR.1 with
            | none =>
              (.fail, cpe cR.2 "expected rbracket after array index expression"
                (some token))
            | some rbr =>
              let arr := mkNode (span_join primary.span rbr.span)
                (.subscriptExpr primary index)
              prun tokens fuel (.postfixLoop arr) cR.2)
        else if token.type = .tLParen then
          let cL := consumeT tokens st .tLParen
          pbindL (prun tokens fuel .argList cL.2) (fun args st2 =>
            let cR := consumeT tokens st2 .tRParen
            match cR.1 with
            | none =>
              (.fail,
               cpe cR.2 "expected rparen after function call arguments"
                 (some token))
            | some rparen =>
              let call := mkNode (span_join primary.span rparen.span)
                (.callExpr primary args)
              prun tokens fuel (.postfixLoop call) cR.2)
        else (.ok (.node primary), st)
    | .primaryJ =>
      match cur_tok tokens st with
      | none =>
        (.fail,
         cpe st "unexpected end of input, expected primary expression" none)
      | some token =>
        match token.type with
        | .tIntLit =>
          match parse_int_lit token.slice with
          | some v =>
            let c := consumeT tokens st token.type
            (.ok (.node (mkNode token.span (.literal .intL (.intV v)))),
             c.2)
          | none =>
            (.fail, cpe st "invalid integer literal or overflow"
              (some token))
        | .tFloatLit =>
          match parse_float_lit token.slice with
          | some v =>
            let c := consumeT tokens st token.type
            (.ok (.node (mkNode token.span (.literal .floatL (.floatV v)))),
             c.2)
          | none =>
            (.fail, cpe st "invalid float literal or overflow" (some token))
        | .tTrue =>
          let c := consumeT tokens st token.type
          (.ok (.node (mkNode token.span (.literal .boolL (.boolV true)))),
           c.2)
        | .tFalse =>
          let c := consumeT tokens st token.type
          (.ok (.node (mkNode token.span (.literal .boolL (.boolV false)))),
           c.2)
        | .tCharLit =>
          let c := consumeT tokens st token.type
          (.ok (.node (mkNode token.span
            (.literal .charL (.charV (recordToChar token.record))))), c.2)
        | .tStringLit =>
          let c := consumeT tokens st token.type
          (.ok (.node (mkNode token.span
            (.literal .stringL (.stringV token.record)))), c.2)
        | .tIdentifier =>
          let c := consumeT tokens st .tIdentifier
          (.ok (.node (mkNode token.span (.identifier token.record))), c.2)
        | .tLParen =>
          let cL := consumeT tokens st .tLParen
          match cL.1 with
          | some lpar =>
            pbindN (prun tokens fuel .exprJ cL.2) (fun e st2 =>
              let cR := consumeT tokens st2 .tRParen
              match cR.1 with
              | none =>
                let st3 := setPrev cR.2
                (.fail, cpe st3 "expected rparen after expression"
                  (cur_tok tokens st3))
              | some r =>
                (.ok (.node (e.withSpan (span_join lpar.span r.span))),
                 cR.2))
          | none => shapeErr cL.2
        | _ =>
          let st2 := setPrev st
          (.fail,
           cpe st2
             "expected primary expression telling literal identifier or parenthesized expression"
             (cur_tok tokens st2))
    | .argList =>
      match cur_tok tokens st with
      | none =>
        (.fail, cpe st "unexpected end of input in argument list" none)
      | some tok =>
        if tok.type = .tRParen then (.ok (.nodes []), st)
        else prun tokens fuel (.argLoop []) st
    | .argLoop acc =>
      match cur_tok tokens st with
      | none =>
        (.fail, cpe st "unexpected end of input in argument list" none)
      | some tok =>
        pbindN
          (if tok.type = .tLBrace then prun tokens fuel .initList st
           else prun tokens fuel .exprJ st)
          (fun arg st2 =>
            let acc2 := acc ++ [arg]
            match cur_tok tokens st2 with
            | none =>
              (.fail,
               cpe st2 "unexpected end of input in argument list" none)
            | some tok2 =>
              if tok2.type = .tRParen then (.ok (.nodes acc2), st2)
              else
                let cM := consumeT tokens st2 .tComma
                match cM.1 with
                | none =>
                  (.fail, cpe cM.2 "expected a comma or rparen" (some tok2))
                | some _ => prun tokens fuel (.argLoop acc2) cM.2)
    | .initList =>
      let cB := consumeT tokens st .tLBrace
      match cB.1 with
      | none =>
        (.fail, cpe cB.2 "expected lbrace to start initializer list"
          (cur_tok tokens cB.2))
      | some start_tok =>
        match cur_tok tokens cB.2 with
        | none =>
          (.fail,
           cpe cB.2 "unexpected end of input in initializer list" none)
        | some tok =>
          if tok.type = .tRBrace then
            let cR := consumeT tokens cB.2 .tRBrace
            match cR.1 with
            | some rbrace =>
              (.ok (.node (mkNode (span_join start_tok.span rbrace.span)
                (.initializerList []))), cR.2)
            | none => shapeErr cR.2
          else prun tokens fuel (.initLoop [] start_tok.span) cB.2
    | .initLoop acc startSpan =>
      match cur_tok tokens st with
      | none =>
        (.fail, cpe st "unexpected end of input in initializer list" none)
      | some tok =>
        pbindN
          (if tok.type = .tLBrace then prun tokens fuel .initList st
           else prun tokens fuel .exprJ st)
          (fun element st2 =>
            let acc2 := acc ++ [element]
            match cur_tok tokens st2 with
            | none =>
              (.fail,
               cpe st2 "unexpected end of input in initializer list" none)
            | some tok2 =>
              if tok2.type = .tComma then
                let cM := consumeT tokens st2 .tComma
                match cur_tok tokens cM.2 with
                | none =>
                  (.fail,
                   cpe cM.2
                     "unexpected end of input after comma in initializer list"
                     none)
                | some tok3 =>
                  if tok3.type = .tRBrace then
                    let st3 := setPrev cM.2
                    (.fail,
                     cpe st3 "trailing comma not allowed in initializer list"
                       (some tok3))
                  else prun tokens fuel (.initLoop acc2 startSpan) cM.2
              else if tok2.type = .tRBrace then
                let cR := consumeT tokens st2 .tRBrace
                match cR.1 with
                | some rbrace =>
                  (.ok (.node (mkNode (span_join startSpan rbrace.span)
                    (.initializerList acc2))), cR.2)
                | none => shapeErr cR.2
              else
                let st3 := setPrev st2
                (.fail,
                 cpe st3 "expected comma or rbrace in initializer list"
                   (some tok2)))
    | .blockJ =>
      let cB := consumeT tokens st .tLBrace
      match cB.1 with
      | none =>
        (.fail, cpe cB.2 "expected lbrace at start of block"
          (cur_tok tokens cB.2))
      | some lbrace =>
        prun tokens fuel (.blockLoop [] lbrace.span) cB.2
    | .blockLoop acc startSpan =>
      match cur_tok tokens st with
      | none =>
        let st2 := setPrev st
        (.fail,
         cpe st2 "unexpected end of input in block telling expected rbrace"
           none)
      | some current =>
        if current.type = .tEof then
          (.fail,
           cpe st "unexpected end of input in block telling expected rbrace"
             (some current))
        else if current.type = .tRBrace then
          let cR := consumeT tokens st .tRBrace
          match cR.1 with
          | some rbrace =>
            (.ok (.node (mkNode (span_join startSpan rbrace.span)
              (.block acc))), cR.2)
          | none => shapeErr cR.2
        else
          pbindN (prun tokens fuel .stmtJ st) (fun stmt st2 =>
            prun tokens fuel (.blockLoop (acc ++ [stmt]) startSpan) st2)
    | .stmtJ =>
      match cur_tok tokens st with
      | none =>
        (.fail, cpe st "unexpected end of input in statement" none)
      | some tok =>
        match tok.type with
        | .tIf => prun tokens fuel .ifStmt st
        | .tWhile => prun tokens fuel .whileStmt st
        | .tFor => prun tokens fuel .forStmt st
        | .tReturn => prun tokens fuel .returnStmt st
        | .tBreak => prun tokens fuel .breakStmt st
        | .tContinue => prun tokens fuel .continueStmt st
        | .tLBrace => prun tokens fuel .blockJ st
        | .tFn =>
          (.fail,
           cpe st
             "function declarations are not allowed inside statements or blocks"
             (some tok))
        | .tIdentifier =>
          match peek1 tokens st with
          | none =>
            (.fail, cpe st "unexpected end of input after identifier"
              (some tok))
          | some next =>
            if next.type = .tColon then prun tokens fuel .declStmt st
            else prun tokens fuel .exprStmt st
        | _ => prun tokens fuel .exprStmt st
    | .ifStmt =>
      let cI := consumeT tokens st .tIf
      match cI.1 with
      | none =>
        (.fail, cpe cI.2 "expected if keyword" (cur_tok tokens cI.2))
      | some if_tok =>
        pbindN (prun tokens fuel .exprJ cI.2) (fun cond st1 =>
          pbindN (prun tokens fuel .blockJ st1) (fun thenB st2 =>
            let cE := consumeT tokens st2 .tElse
            match cE.1 with
            | none =>
              (.ok (.node (mkNode (span_join if_tok.span thenB.span)
                (.ifStatement cond thenB none))), cE.2)
            | some _ =>
              match cur_tok tokens cE.2 with
              | none =>
                (.fail, cpe cE.2 "unexpected end after else"
                  (cur_tok tokens cE.2))
              | some next =>
                if next.type = .tIf then
                  pbindN (prun tokens fuel .ifStmt cE.2) (fun elseIf st3 =>
                    (.ok (.node (mkNode (span_join if_tok.span elseIf.span)
                      (.ifStatement cond thenB (some elseIf)))), st3))
                else
                  pbindN (prun tokens fuel .blockJ cE.2) (fun elseB st3 =>
                    (.ok (.node (mkNode (span_join if_tok.span elseB.span)
                      (.ifStatement cond thenB (some elseB)))), st3))))
    | .whileStmt =>
      let cW := consumeT tokens st .tWhile
      match cW.1 with
      | none =>
        (.fail, cpe cW.2 "expected while keyword" (cur_tok tokens cW.2))
      | some while_tok =>
        pbindN (prun tokens fuel .exprJ cW.2) (fun cond st1 =>
          pbindN (prun tokens fuel .blockJ st1) (fun body st2 =>
            (.ok (.node (mkNode (span_join while_tok.span body.span)
              (.whileStatement cond body))), st2)))
    | .forStmt =>
      (.fail, cpe st "parse_for_statement not yet implemented" none)
    | .returnStmt =>
      let cR := consumeT tokens st .tReturn
      match cR.1 with
      | none =>
        (.fail, cpe cR.2 "expected return keyword" (cur_tok tokens cR.2))
      | some return_tok =>
        let isSemi : Bool :=
          match cur_tok tokens cR.2 with
          | some t => t.type == .tSemicolon
          | none => false
        let finishSemi := fun (e : Option AstNode) (sp : Span)
            (stA : PSt) =>
          let cS := consumeT tokens stA .tSemicolon
          match cS.1 with
          | none =>
            (.fail, cpe cS.2 "expected semicolon after return statement"
              (cur_tok tokens cS.2))
          | some semi =>
            (.ok (.node (mkNode (span_join sp semi.span)
              (.returnStatement e))), cS.2)
        if isSemi then finishSemi none return_tok.span cR.2
        else
          pbindN (prun tokens fuel .exprJ cR.2) (fun e st2 =>
            finishSemi (some e) (span_join return_tok.span e.span) st2)
    | .breakStmt =>
      let cB := consumeT tokens st .tBreak
      match cB.1 with
      | none =>
        (.fail, cpe cB.2 "expected break keyword" (cur_tok tokens cB.2))
      | some break_tok =>
        let cS := consumeT tokens cB.2 .tSemicolon
        match cS.1 with
        | none =>
          (.fail, cpe cS.2 "expected semicolon after break statement"
            (cur_tok tokens cS.2))
        | some semi =>
          (.ok (.node (mkNode (span_join break_tok.span semi.span)
            .breakStatement)), cS.2)
    | .continueStmt =>
      let cC := consumeT tokens st .tContinue
      match cC.1 with
      | none =>
        (.fail, cpe cC.2 "expected continue keyword" (cur_tok tokens cC.2))
      | some cont_tok =>
        let cS := consumeT tokens cC.2 .tSemicolon
        match cS.1 with
        | none =>
          (.fail, cpe cS.2 "expected semicolon after continue statement"
            (cur_tok tokens cS.2))
        | some semi =>
          (.ok (.node (mkNode (span_join cont_tok.span semi.span)
            .continueStatement)), cS.2)
    | .exprStmt =>
      pbindN (prun tokens fuel .exprJ st) (fun e st1 =>
        let cS := consumeT tokens st1 .tSemicolon
        match cS.1 with
        | none =>
          let st2 := setPrev cS.2
          (.fail, cpe st2 "expected semicolon at end of expression statement"
            (cur_tok tokens st2))
        | some _ => (.ok (.node e), cS.2))

/-- Outcome of the declaration loop inside `parse_program`. -/
inductive ProgLoopRes where
  | done (decls : List AstNode) (spans : Option (Span × Span))
  | stopped
  | fuelOut

/-- The declaration loop of `parse_program`: stop when a diagnostic is
already recorded, push declarations until `parse_declaration` returns
NULL, tracking the first and last declaration spans. -/
def parse_program_loop (tokens : List Token) :
    Nat → PSt → List AstNode → Option (Span × Span) → ProgLoopRes × PSt
  | 0, st, _, _ => (.fuelOut, st)
  | fuel + 1, st, acc, spans =>
    if !st.errs.isEmpty then (.stopped, st)
    else
      match prun tokens fuel .decl st with
      | (.ok (.node d), st1) =>
        let spans2 :=
          match spans with
          | none => some (d.span, d.span)
          | some fl => some (fl.1, d.span)
        parse_program_loop tokens fuel st1 (acc ++ [d]) spans2
      | (.ok _, st1) => (.fuelOut, st1)
      | (.fail, st1) => (.done acc spans, st1)
      | (.fuelOut, st1) => (.fuelOut, st1)

/-- `parse_program`: run the declaration loop from a fresh state, then the
trailing-token check (which creates a diagnostic only when none is
recorded yet), and assemble the program node and its span. -/
def parse_program_x (tokens : List Token) (fuel : Nat) : PRes × PSt :=
  let st0 : PSt := { cur := 0, errs := [], use_prev := false }
  match parse_program_loop tokens fuel st0 [] none with
  | (.fuelOut, st) => (.fuelOut, st)
  | (.stopped, st) => (.fail, st)
  | (.done decls spans, st) =>
    if st.cur < tokens.length then
      let st2 :=
        if st.errs.isEmpty then
          cpe st "trailing tokens after program end" (cur_tok tokens st)
        else st
      (.fail, st2)
    else
      let sp :=
        match spans with
        | some fl => span_join fl.1 fl.2
        | none =>
          match tokens.get? 0 with
          | some first => first.span
          | none => Span.zero
      (.ok (.node (mkNode sp (.program decls))), st)

/-! ## Concrete inputs for the evaluation theorems -/

/-- Left operand of a binary node. -/
def AstNode.binary_left : AstNode → Option AstNode := fun n =>
  match n.data with
  | .binaryExpr l _ _ => some l
  | _ => none

/-- Wrapped child of a cast node. -/
def AstNode.cast_child : AstNode → Option AstNode := fun n =>
  match n.data with
  | .castExpr e _ => some e
  | _ => none

/-- Target type of a cast node. -/
def AstNode.cast_target : AstNode → Option Ty := fun n =>
  match n.data with
  | .castExpr _ t => some t
  | _ => none

/-- `is_alnum` from `lexer.c`. -/
def is_alnum_b (c : UInt8) : Bool := is_alpha_b c || is_digit_b c

/-- One-character span on line 1 at the given column (the lexer's spans
for the concrete test tokens; their exact values are irrelevant to the
properties evaluated). -/
def colSpan (c : Nat) : Span :=
  { start_line := 1, start_col := c, end_line := 1, end_col := c + 1 }

/-- The keyword record the pre-populated keyword interner holds for a
keyword (key bytes, meta cast from the token kind, dense index from the
`KEYWORDS` table order). -/
def kwRec (s : String) (t : TokenType) (i : Nat) :
    InternResult (Option TokenType) :=
  { key := strBytes s, entry := { meta := kwMeta t, dense_index := i } }

/-- An identifier record (NULL meta) at a dense index. -/
def identRec (s : String) (i : Nat) : InternResult (Option TokenType) :=
  { key := strBytes s, entry := { meta := none, dense_index := i } }

/-- A concrete token. -/
def mkTok (t : TokenType) (s : String) (c : Nat)
    (r : Option TokenRecord) : Token :=
  { type := t, slice := strBytes s, span := colSpan c, record := r }

/-- The token sequence the lexer produces for
`const k: i32 = 1 + 2 * 3;`. -/
def toksConstK : List Token :=
  [ mkTok .tConst "const" 1 (some (.ir (kwRec "const" .tConst 8))),
    mkTok .tIdentifier "k" 7 (some (.ir (identRec "k" 0))),
    mkTok .tColon ":" 8 none,
    mkTok .tI32 "i32" 10 (some (.ir (kwRec "i32" .tI32 9))),
    mkTok .tAssign "=" 14 none,
    mkTok .tIntLit "1" 16 none,
    mkTok .tPlus "+" 18 none,
    mkTok .tIntLit "2" 20 none,
    mkTok .tStar "*" 22 none,
    mkTok .tIntLit "3" 24 none,
    mkTok .tSemicolon ";" 25 none,
    mkTok .tEof "" 26 none ]

/-- The identifier interner after lexing `const k: i32 = 1 + 2 * 3;`
(one identifier, `k`). -/
def idsConstK : DenseArenaInterner (Option TokenType) :=
  intern_list (intern_table_create _ slice_eqv) [(strBytes "k", none)]

/-- The analysis context for the `const k` compilation. -/
def ctxConstK : TypeCheckContext :=
  { identifiers := idsConstK,
    registry := (build_primitive_registry lexerKeywords).1 }

/-- Parse and typecheck `const k: i32 = 1 + 2 * 3;` end to end. -/
def constKOut : Option TypecheckOut :=
  match parse_program_x toksConstK 64 with
  | (.ok (.node p), _) => some (typecheck_program 32 ctxConstK p)
  | _ => none

/-- The annotated initializer node of `k` after analysis. -/
def constKInit : Option AstNode :=
  match constKOut with
  | some o =>
    match o.program.data with
    | .program [d] =>
      match d.data with
      | .variableDeclaration _ _ _ ini => ini
      | _ => none
    | _ => none
  | none => none

/-- The symbol `k` in the global scope after analysis. -/
def constKSym : Option Symbol :=
  match constKOut with
  | some o => scope_lookup_symbol o.global_scope (some (identRec "k" 0))
  | none => none

/-- The token sequence for `fn f() -> i32 { return 0; }`. -/
def toksFnF : List Token :=
  [ mkTok .tFn "fn" 1 (some (.ir (kwRec "fn" .tFn 0))),
    mkTok .tIdentifier "f" 4 (some (.ir (identRec "f" 0))),
    mkTok .tLParen "(" 5 none,
    mkTok .tRParen ")" 6 none,
    mkTok .tArrow "->" 8 none,
    mkTok .tI32 "i32" 11 (some (.ir (kwRec "i32" .tI32 9))),
    mkTok .tLBrace "\x7b" 15 none,
    mkTok .tReturn "return" 17 (some (.ir (kwRec "return" .tReturn 5))),
    mkTok .tIntLit "0" 24 none,
    mkTok .tSemicolon ";" 25 none,
    mkTok .tRBrace "\x7d" 27 none,
    mkTok .tEof "" 28 none ]

/-- The identifier interner after lexing `fn f() -> i32 { return 0; }`. -/
def idsFnF : DenseArenaInterner (Option TokenType) :=
  intern_list (intern_table_create _ slice_eqv) [(strBytes "f", none)]

/-- The analysis context for the `fn f` compilation. -/
def ctxFnF : TypeCheckContext :=
  { identifiers := idsFnF,
    registry := (build_primitive_registry lexerKeywords).1 }

/-- Parse and typecheck `fn f() -> i32 { return 0; }` end to end. -/
def fnFOut : Option TypecheckOut :=
  match parse_program_x toksFnF 64 with
  | (.ok (.node p), _) => some (typecheck_program 32 ctxFnF p)
  | _ => none

/-- The `0` literal inside the function body after analysis. -/
def fnFRetExpr : Option AstNode :=
  match fnFOut with
  | some o =>
    match o.program.data with
    | .program [d] =>
      match d.data with
      | .functionDeclaration _ _ _ (some body) =>
        match body.data with
        | .block [s] =>
          match s.data with
          | .returnStatement e => e
          | _ => none
        | _ => none
      | _ => none
    | _ => none
  | none => none

/-- The annotated, checked literal `true` (as `check_expression` leaves
it). -/
def c5TrueLit : AstNode :=
  mkNode (colSpan 1) (.literal .boolL (.boolV true))

/-- The literal `1.0`. -/
def c5FloatLit : AstNode :=
  mkNode (colSpan 9) (.literal .floatL (.floatV 1))

/-- The binary expression `true == 1.0` as parsed. -/
def c5Expr : AstNode :=
  mkNode (colSpan 1) (.binaryExpr c5TrueLit c5FloatLit .opEq)

/-- Checking `true == 1.0` with `check_expression` of
`typecheck_expr.c`. -/
def c5Out : AstNode × Option Ty × List TypeError :=
  check_expression_x 8 [] c5Expr none

/-- The records a run of first insertions appends, with dense indices
starting at `start`. -/
def recordsFrom {M : Type} :
    List (List UInt8 × M) → Nat → List (InternResult M)
  | [], _ => []
  | (k, m) :: t, s =>
    { key := k, entry := { meta := m, dense_index := s } }
      :: recordsFrom t (s + 1)

/-! ## Invariant infrastructure for the parser theorem -/

/-- No token in the half-open index range `[a, b)` is the EOF token. -/
def NoEofRange (tokens : List Token) (a b : Nat) : Prop :=
  ∀ j, a ≤ j → j < b → ∀ t, tokens.get? j = some t → t.type ≠ .tEof

/-- Postcondition of one production run started in state `st` with no
diagnostics: success leaves no diagnostics and consumes no EOF; the NULL
return leaves at most one diagnostic and consumes no EOF.  (Out-of-fuel
outcomes carry no guarantee; the theorems exclude them.  The top-level
`parse_declaration`, which deliberately consumes the EOF token on its
silent stop path, gets its own postcondition `DeclStep`.) -/
def PStep (tokens : List Token) (st : PSt) : PRes × PSt → Prop
  | (.fuelOut, _) => True
  | (.ok _, st') =>
    st'.errs = [] ∧ st.cur ≤ st'.cur ∧ st'.cur ≤ tokens.length ∧
      NoEofRange tokens st.cur st'.cur
  | (.fail, st') =>
    st'.errs.length ≤ 1 ∧ st.cur ≤ st'.cur ∧ st'.cur ≤ tokens.length ∧
      NoEofRange tokens st.cur st'.cur

/-- Postcondition of one `parse_declaration` run started with no
diagnostics: like `PStep`, except that the NULL return may alternatively
carry no diagnostic at all (the silent stop on EOF, which consumes one
token). -/
def DeclStep (tokens : List Token) (st : PSt) : PRes × PSt → Prop
  | (.fuelOut, _) => True
  | (.ok _, st') =>
    st'.errs = [] ∧ st.cur ≤ st'.cur ∧ st'.cur ≤ tokens.length ∧
      NoEofRange tokens st.cur st'.cur
  | (.fail, st') =>
    st.cur ≤ st'.cur ∧ st'.cur ≤ tokens.length ∧
      (st'.errs = []
       ∨ (st'.errs.length = 1 ∧ NoEofRange tokens st.cur st'.cur))

/-- Array-nesting depth of a type (induction measure for the implicit-cast
proof). -/
def tyArrayDepth : Ty → Nat
  | .array b _ _ => tyArrayDepth b + 1
  | _ => 0


/-- An identifier-shaped lexeme: `[A-Za-z_][A-Za-z0-9_]*` (what the
identifier branch of `lexer_next_token` collects). -/
def is_ident_shaped (s : List UInt8) : Bool :=
  match s with
  | [] => false
  | c :: rest => is_alpha_b c && rest.all is_alnum_b


/-- A token stream whose first token can start no declaration, followed by
the EOF token (concrete failing input for the parse-diagnostic theorem). -/
def c6Toks : List Token :=
  [ mkTok .tPlus "+" 1 none, mkTok .tEof "" 2 none ]

/-! # Theorems -/

/-- C4 (counterexample): the claim's five rules are not equivalent to
`type_can_implicit_cast` — casting `i32[2]` to `i64[2]` is accepted by the
code although the target is a sized array, so none of the five claimed
rules applies. -/
theorem c4_implicit_cast_sized_array_counterexample :
    type_can_implicit_cast (.array t_i64 2 true) (.array t_i32 2 true)
      = true
    ∧ claimed_implicit_cast (.array t_i64 2 true) (.array t_i32 2 true)
      = false := by
  constructor <;> decide

/-- C4 (amended): `type_can_implicit_cast(target, source)` returns true if
and only if one of the five rules applies, with rule 5 amended to: both
are array types and either the target is unsized or both sizes are known
and equal, with the element types themselves implicitly castable
(recursively). -/
theorem c4_implicit_cast_amended :
    ∀ (target source : Ty),
      type_can_implicit_cast target source
        = amended_implicit_cast target source := by
  suffices h : ∀ (d : Nat) (target source : Ty), tyArrayDepth target < d →
      type_can_implicit_cast target source
        = amended_implicit_cast target source by
    intro t s
    exact h (tyArrayDepth t + 1) t s (Nat.lt_succ_self _)
  intro d
  induction d with
  | zero => intro target source hd; exact absurd hd (Nat.not_lt_zero _)
  | succ n ih =>
    intro target source hd
    cases target with
    | array tb ts tk =>
      cases source with
      | array sb ss sk =>
        have hb : tyArrayDepth tb < n := by
          have h2 : tyArrayDepth tb + 1 < n + 1 := by
            simpa [tyArrayDepth] using hd
          omega
        have hrec := ih tb sb hb
        simp only [type_can_implicit_cast, amended_implicit_cast,
          type_is_integer_t, type_is_float_t, t_i32, t_i64, t_f32, t_f64,
          Bool.false_and, Bool.and_false, if_false]
        by_cases heq : Ty.array tb ts tk = Ty.array sb ss sk
        · simp [heq]
        · simp [heq, hrec]
      | prim q =>
        simp [type_can_implicit_cast, amended_implicit_cast,
          type_is_integer_t, type_is_float_t, t_i32, t_i64, t_f32, t_f64]
      | ptr b =>
        simp [type_can_implicit_cast, amended_implicit_cast,
          type_is_integer_t, type_is_float_t, t_i32, t_i64, t_f32, t_f64]
      | func r ps =>
        simp [type_can_implicit_cast, amended_implicit_cast,
          type_is_integer_t, type_is_float_t, t_i32, t_i64, t_f32, t_f64]
    | prim p =>
      cases source with
      | prim q => cases p <;> cases q <;> decide
      | ptr b =>
        simp [type_can_implicit_cast, amended_implicit_cast,
          type_is_integer_t, type_is_float_t, t_i32, t_i64, t_f32, t_f64]
      | array sb ss sk =>
        simp [type_can_implicit_cast, amended_implicit_cast,
          type_is_integer_t, type_is_float_t, t_i32, t_i64, t_f32, t_f64]
      | func r ps =>
        simp [type_can_implicit_cast, amended_implicit_cast,
          type_is_integer_t, type_is_float_t, t_i32, t_i64, t_f32, t_f64]
    | ptr b =>
      cases source <;>
        simp [type_can_implicit_cast, amended_implicit_cast,
          type_is_integer_t, type_is_float_t, t_i32, t_i64, t_f32, t_f64]
    | func r ps =>
      cases source <;>
        simp [type_can_implicit_cast, amended_implicit_cast,
          type_is_integer_t, type_is_float_t, t_i32, t_i64, t_f32, t_f64]


/-- C2 (counterexample): an integer literal resolved with no expected type
yields `t_i64`, not `t_i32` as the claim states. -/
theorem c2_int_literal_default_counterexample :
    resolve_literal_type .intL none = some t_i64 ∧ t_i64 ≠ t_i32 := by
  constructor <;> decide

/-- C2 (amended): literal resolution defaults integer literals to `i64`;
with an expected integer or float type the literal adopts that type; and
when a float type is expected for an integer literal, `check_literal`
rewrites the stored constant to an equivalent float literal. Expecting an
integer type leaves the stored integer value unchanged. -/
theorem c2_literal_resolution_amended :
    (resolve_literal_type .intL none = some t_i64)
    ∧ (∀ t : Ty, (type_is_integer_t t || type_is_float_t t) = true →
        resolve_literal_type .intL (some t) = some t)
    ∧ (∀ (sp : Span) (v : Int) (t : Ty), type_is_float_t t = true →
        (check_literal (mkNode sp (.literal .intL (.intV v))) (some t)).2
            = some t
        ∧ (check_literal (mkNode sp (.literal .intL (.intV v)))
            (some t)).1.sem_type = some t
        ∧ (check_literal (mkNode sp (.literal .intL (.intV v)))
            (some t)).1.is_const_expr = true
        ∧ (check_literal (mkNode sp (.literal .intL (.intV v)))
            (some t)).1.data = .literal .floatL (.floatV (v : Rat))
        ∧ (check_literal (mkNode sp (.literal .intL (.intV v)))
            (some t)).1.const_value
            = { type := .floatL, value := .floatV (v : Rat) })
    ∧ (∀ (sp : Span) (v : Int) (t : Ty), type_is_integer_t t = true →
        (check_literal (mkNode sp (.literal .intL (.intV v))) (some t)).2
            = some t
        ∧ (check_literal (mkNode sp (.literal .intL (.intV v)))
            (some t)).1.data = .literal .intL (.intV v)) := by
  refine ⟨by decide, ?_, ?_, ?_⟩
  · intro t ht
    cases t with
    | prim p => cases p <;> simp_all [resolve_literal_type, type_is_integer_t, type_is_float_t]
    | ptr b => simp_all [type_is_integer_t, type_is_float_t]
    | array b s k => simp_all [type_is_integer_t, type_is_float_t]
    | func r ps => simp_all [type_is_integer_t, type_is_float_t]
  · intro sp v t ht
    cases t with
    | prim p =>
      cases p <;>
        simp_all [check_literal, resolve_literal_type, mkNode,
          AstNode.data, AstNode.sem_type, AstNode.is_const_expr,
          AstNode.const_value, AstNode.withData, AstNode.withConst,
          AstNode.withType, type_is_integer_t, type_is_float_t,
          LitVal.int_val]
    | ptr b => simp_all [type_is_float_t]
    | array b s k => simp_all [type_is_float_t]
    | func r ps => simp_all [type_is_float_t]
  · intro sp v t ht
    cases t with
    | prim p =>
      cases p <;>
        simp_all [check_literal, resolve_literal_type, mkNode,
          AstNode.data, AstNode.sem_type, AstNode.is_const_expr,
          AstNode.const_value, AstNode.withData, AstNode.withConst,
          AstNode.withType, type_is_integer_t, type_is_float_t]
    | ptr b => simp_all [type_is_integer_t]
    | array b s k => simp_all [type_is_integer_t]
    | func r ps => simp_all [type_is_integer_t]

/-- C2 (witness): the amended theorem instantiated at `t_i64` for
adoption and at the integer literal 3 expected as `f32` for conversion. -/
theorem c2_literal_resolution_amended_witness :
    (type_is_integer_t t_i64 || type_is_float_t t_i64) = true
    ∧ resolve_literal_type .intL (some t_i64) = some t_i64
    ∧ type_is_float_t t_f32 = true
    ∧ (check_literal (mkNode Span.zero (.literal .intL (.intV 3)))
        (some t_f32)).1.data = .literal .floatL (.floatV (3 : Rat)) :=
  ⟨by decide, c2_literal_resolution_amended.2.1 t_i64 (by decide), by decide,
   (c2_literal_resolution_amended.2.2.1 Span.zero 3 t_f32
      (by decide)).2.2.2.1⟩

/-- C9: when both operands are constant, the operator is division or
modulo, and the right constant is integer zero or float zero,
`fold_binary_op` returns the node unchanged (no folded constant). -/
theorem c9_fold_div_mod_zero_skipped :
    ∀ (node l r : AstNode) (op : OpKind),
      l.is_const_expr = true → r.is_const_expr = true →
      (op = .opDiv ∨ op = .opMod) →
      ((r.const_value.type = .intL ∧ r.const_value.value.int_val = 0) ∨
       (r.const_value.type = .floatL ∧ r.const_value.value.float_val = 0)) →
      fold_binary_op node op l r = node := by
  intro node l r op hl hr hop hz
  rcases hop with h | h <;> subst h <;>
    rcases hz with ⟨hty, hv⟩ | ⟨hty, hv⟩ <;>
    cases hlt : l.const_value.type <;>
    simp_all [fold_binary_op, LitVal.int_val, LitVal.float_val]

/-- C9 (witness): folding `7 / 0` with constant integer operands leaves
the binary node untouched. -/
theorem c9_fold_div_mod_zero_skipped_witness :
    ((mkNode Span.zero (.literal .intL (.intV 0))).withConst true
        { type := .intL, value := .intV 0 }).is_const_expr = true
    ∧ fold_binary_op (mkNode Span.zero (.binaryExpr
        ((mkNode Span.zero (.literal .intL (.intV 7))).withConst true
          { type := .intL, value := .intV 7 })
        ((mkNode Span.zero (.literal .intL (.intV 0))).withConst true
          { type := .intL, value := .intV 0 }) .opDiv)) .opDiv
        ((mkNode Span.zero (.literal .intL (.intV 7))).withConst true
          { type := .intL, value := .intV 7 })
        ((mkNode Span.zero (.literal .intL (.intV 0))).withConst true
          { type := .intL, value := .intV 0 })
      = (mkNode Span.zero (.binaryExpr
        ((mkNode Span.zero (.literal .intL (.intV 7))).withConst true
          { type := .intL, value := .intV 7 })
        ((mkNode Span.zero (.literal .intL (.intV 0))).withConst true
          { type := .intL, value := .intV 0 }) .opDiv)) :=
  ⟨by rfl,
   c9_fold_div_mod_zero_skipped _ _ _ _ (by rfl) (by rfl) (Or.inl rfl)
     (Or.inl ⟨by rfl, by rfl⟩)⟩

/-- C10: empty keys are never interned. `intern` on an empty key returns
no record and leaves the interner unchanged, `intern_peek` on an empty
key finds nothing, and lexing the empty string literal (the closing quote
immediately after the opening one) produces a string token with a null
record and an untouched strings interner. -/
theorem c10_empty_key_never_interned :
    (∀ (M : Type) (I : DenseArenaInterner M) (m : M),
        intern I [] m = (none, I) ∧ intern_peek I [] = none)
    ∧ (∀ strings : DenseArenaInterner (Option TokenType),
        lex_string_token strings [34] =
          { tok_type := .tStringLit, record := none,
            strings := strings }) := by
  constructor
  · intro M I m; exact ⟨rfl, rfl⟩
  · intro strings; rfl


/-- C1 (code_bug evaluation): compiling `fn f() -> i32 { return 0; }`
produces zero semantic diagnostics, yet the `0` expression inside the
function body is left with a null resolved type, because
`check_function_body` is a stub that never visits the body. -/
theorem c1_untyped_expression_in_clean_compilation :
    (fnFOut.map (fun o => o.errors.length) = some 0)
    ∧ (fnFRetExpr.map (fun n => n.sem_type) = some none) := ⟨rfl, rfl⟩

/-- C3 (code_bug evaluation): compiling `const k: i32 = 1 + 2 * 3;`
produces zero diagnostics, but the initializer is neither marked constant
nor typed, and the symbol `k` has flags 0 (neither `Const` nor
`HasComputedValue`) and stored value 0, because the reduced
`check_expression` of `typecheck.c` ignores binary expressions and
`check_variable_declaration` never folds or sets flags. -/
theorem c3_const_declaration_not_folded :
    (constKOut.map (fun o => o.errors.length) = some 0)
    ∧ (constKInit.map (fun n => (n.is_const_expr, n.sem_type))
        = some (false, none))
    ∧ (constKSym.map (fun s => (s.flags, s.value.int_val))
        = some (0, 0)) := ⟨rfl, rfl, rfl⟩

/-- C5 (code_bug evaluation): checking `true == 1.0` succeeds with no
diagnostics and inserts a cast node with target `f64` around the `bool`
operand, although `type_can_implicit_cast f64 bool` is false — the
comparison arm of `check_binary` unifies operand types without checking
that they are numeric. -/
theorem c5_inserted_cast_not_implicitly_castable :
    (c5Out.2.2 = [])
    ∧ (c5Out.1.binary_left.map (fun l =>
        (l.cast_target, l.cast_child.map (fun e => e.sem_type)))
        = some (some t_f64, some (some t_bool)))
    ∧ type_can_implicit_cast t_f64 t_bool = false := ⟨rfl, rfl, by decide⟩


/-- C8: lexing an identifier-shaped lexeme peeks the keyword interner
without inserting (the keyword interner is returned unchanged); a hit
yields the keyword kind read from the stored meta with the keyword
record and an untouched identifier interner; a miss interns the lexeme
into the identifier interner and tags the token `TOK_IDENTIFIER`; and
against the real lexer keyword table a keyword hit never produces an
`Identifier`-tagged token. -/
theorem c8_identifier_lexing :
    ∀ (K I : DenseArenaInterner (Option TokenType)) (s : List UInt8),
      is_ident_shaped s = true →
      ((lexer_lex_identifier K I s).keywords = K)
      ∧ (∀ r, intern_peek K s = some r →
          lexer_lex_identifier K I s =
            { tok_type := metaToTokenType r.entry.meta,
              record := some (.ir r), keywords := K, identifiers := I })
      ∧ (intern_peek K s = none →
          (lexer_lex_identifier K I s).tok_type = .tIdentifier
          ∧ (lexer_lex_identifier K I s).record
              = (intern I s none).1.map TokenRecord.ir
          ∧ (lexer_lex_identifier K I s).identifiers = (intern I s none).2)
      ∧ (∀ r, intern_peek lexerKeywords s = some r →
          (lexer_lex_identifier lexerKeywords I s).tok_type
            ≠ .tIdentifier) := by
  intro K I s hs
  have hne : s.isEmpty = false := by
    cases s with
    | nil => simp [is_ident_shaped] at hs
    | cons c cs => rfl
  refine ⟨?_, ?_, ?_, ?_⟩
  · cases hpk : intern_peek K s with
    | some r => simp [lexer_lex_identifier, hpk]
    | none =>
      cases hint : intern I s none with
      | mk o I2 =>
        cases o <;> simp [lexer_lex_identifier, hpk, hint]
  · intro r hr
    simp [lexer_lex_identifier, hr]
  · intro hmiss
    simp only [lexer_lex_identifier, hmiss]
    cases hfind : I.records.find? (fun r => I.eqv r.key s) with
    | some found => simp [intern, hne, hfind]
    | none => simp [intern, hne, hfind]
  · intro r hr
    have hfind := hr
    simp only [intern_peek, hne, Bool.false_eq_true, if_false] at hfind
    have hmem := List.mem_of_find?_eq_some hfind
    have hall : lexerKeywords.records.all
        (fun x => metaToTokenType x.entry.meta != TokenType.tIdentifier)
          = true := rfl
    have hkw := List.all_eq_true.mp hall r hmem
    simp only [lexer_lex_identifier, hr]
    simpa using hkw

/-- C8 (witness): the lexeme `foo` is identifier-shaped; lexing it
against the real keyword interner leaves that interner unchanged. -/
theorem c8_identifier_lexing_witness :
    is_ident_shaped (strBytes "foo") = true
    ∧ (lexer_lex_identifier lexerKeywords
        (intern_table_create _ slice_eqv) (strBytes "foo")).keywords
        = lexerKeywords :=
  ⟨by decide,
   (c8_identifier_lexing lexerKeywords (intern_table_create _ slice_eqv)
      (strBytes "foo") (by decide)).1⟩

/-- Indexing into `recordsFrom`: position `i` holds the `i`-th key with
dense index `s + i`. -/
theorem recordsFrom_get? {M : Type} :
    ∀ (ks : List (List UInt8 × M)) (s i : Nat),
      (recordsFrom ks s).get? i
        = (ks.get? i).map (fun p =>
            { key := p.1, entry := { meta := p.2,
                                     dense_index := s + i } }) := by
  intro ks
  induction ks with
  | nil => intro s i; cases i <;> rfl
  | cons p t ih =>
    obtain ⟨k, m⟩ := p
    intro s i
    cases i with
    | zero => rfl
    | succ j =>
      show (recordsFrom t (s + 1)).get? j = _
      rw [ih (s + 1) j]
      have h : s + 1 + j = s + (j + 1) := by omega
      rw [h]
      rfl

/-- The dense indices along `recordsFrom ks s` are `s, s+1, ...`. -/
theorem recordsFrom_dense {M : Type} :
    ∀ (ks : List (List UInt8 × M)) (s : Nat),
      (recordsFrom ks s).map (fun r => r.entry.dense_index)
        = List.range' s ks.length := by
  intro ks
  induction ks with
  | nil => intro s; rfl
  | cons p t ih =>
    obtain ⟨k, m⟩ := p
    intro s
    simp [recordsFrom, ih (s + 1), List.range']

/-- `recordsFrom` has one record per key. -/
theorem recordsFrom_length {M : Type} :
    ∀ (ks : List (List UInt8 × M)) (s : Nat),
      (recordsFrom ks s).length = ks.length := by
  intro ks
  induction ks with
  | nil => intro s; rfl
  | cons p t ih => obtain ⟨k, m⟩ := p; intro s; simp [recordsFrom, ih]

/-- Interning a list of nonempty, pairwise-inequivalent keys that are all
fresh for the current interner appends exactly one record per key, with
consecutive dense indices. -/
theorem intern_list_fresh_spec {M : Type}
    (eqv : List UInt8 → List UInt8 → Bool) :
    ∀ (ks : List (List UInt8 × M)) (I : DenseArenaInterner M),
      I.eqv = eqv →
      (∀ p ∈ ks, p.1 ≠ [] ∧ ∀ r ∈ I.records, eqv r.key p.1 = false) →
      List.Pairwise (fun a b => eqv a.1 b.1 = false) ks →
      intern_list I ks =
        { eqv := eqv,
          records := I.records ++ recordsFrom ks I.dense_index_count,
          dense_index_count := I.dense_index_count + ks.length } := by
  intro ks
  induction ks with
  | nil =>
    intro I hIe hfresh hpw
    obtain ⟨e, rs, c⟩ := I
    simp_all [intern_list, recordsFrom]
  | cons p t ih =>
    intro I hIe hfresh hpw
    obtain ⟨k, m⟩ := p
    have hk : k.isEmpty = false := by
      have := (hfresh (k, m) (by simp)).1
      cases k with
      | nil => exact absurd rfl this
      | cons a b => rfl
    have hnone : I.records.find? (fun r => I.eqv r.key k) = none := by
      apply List.find?_eq_none.mpr
      intro r hr
      have := (hfresh (k, m) (by simp)).2 r hr
      simp [hIe, this]
    have hstep : intern_list I ((k, m) :: t)
        = intern_list { I with
            records := I.records ++
              [⟨k, ⟨m, I.dense_index_count⟩⟩],
            dense_index_count := I.dense_index_count + 1 } t := by
      show intern_list (intern I k m).2 t = _
      rw [intern]
      simp [hk, hnone]
    rw [hstep]
    cases hpw with
    | cons hh ht =>
      rw [ih { eqv := I.eqv,
               records := I.records ++ [⟨k, ⟨m, I.dense_index_count⟩⟩],
               dense_index_count := I.dense_index_count + 1 } hIe ?_ ht]
      · simp [recordsFrom, List.append_assoc]
        omega
      · intro q hq
        refine ⟨(hfresh q (by simp [hq])).1, ?_⟩
        intro r hr
        simp only [List.mem_append, List.mem_singleton] at hr
        rcases hr with hr | hr
        · exact (hfresh q (by simp [hq])).2 r hr
        · subst hr
          exact hh q hq

/-- C7: (1) for an interner whose equality is symmetric and transitive,
re-interning a key equal to an already-interned key returns the identical
record and leaves the interner unchanged; (2) after N distinct first
insertions into a fresh interner, the dense array is exactly the keys in
insertion order, the dense indices visited by `interner_foreach` are
exactly `0..N-1`, and `interner_get_result i` recovers the `i`-th inserted
key, meta and dense index, so dense-index access inverts `intern`. -/
theorem c7_interner_guarantees :
    (∀ (M : Type) (I : DenseArenaInterner M) (k k2 : List UInt8)
        (m m2 : M) (r : InternResult M) (I2 : DenseArenaInterner M),
      (∀ a b, I.eqv a b = I.eqv b a) →
      (∀ a b c, I.eqv a b = true → I.eqv b c = true →
          I.eqv a c = true) →
      I.eqv k k2 = true → k2 ≠ [] →
      intern I k m = (some r, I2) →
      intern I2 k2 m2 = (some r, I2))
    ∧ (∀ (M : Type) (eqv : List UInt8 → List UInt8 → Bool)
        (ks : List (List UInt8 × M)),
      (∀ p ∈ ks, p.1 ≠ []) →
      List.Pairwise (fun a b => eqv a.1 b.1 = false) ks →
      (intern_list (intern_table_create M eqv) ks).records
          = recordsFrom ks 0
      ∧ (interner_foreach
          (intern_list (intern_table_create M eqv) ks)).map
            (fun x => x.1) = List.range ks.length
      ∧ (∀ i : Nat, i < ks.length →
          (interner_get_result
              (intern_list (intern_table_create M eqv) ks)
              (Int.ofNat i)).map
            (fun x => (x.key, x.entry.meta, x.entry.dense_index))
          = (ks.get? i).map (fun p => (p.1, p.2, i)))) := by
  constructor
  · intro M I k k2 m m2 r I2 hsymm htrans hkk2 hk2ne hint
    have hk2 : k2.isEmpty = false := by
      cases k2 with
      | nil => exact absurd rfl hk2ne
      | cons a b => rfl
    have hk2k : I.eqv k2 k = true := by rw [hsymm]; exact hkk2
    have hpt : ∀ x, I.eqv x k2 = I.eqv x k := by
      intro x
      by_cases hx : I.eqv x k2 = true
      · rw [hx, htrans x k2 k hx hk2k]
      · by_cases hy : I.eqv x k = true
        · exact absurd (htrans x k k2 hy hkk2) hx
        · rw [Bool.not_eq_true] at hx hy; rw [hx, hy]
    have hk : k.isEmpty = false := by
      cases hke : k.isEmpty with
      | false => rfl
      | true => simp [intern, hke] at hint
    rw [intern] at hint
    simp only [hk, Bool.false_eq_true, if_false] at hint
    have hfun : (fun x : InternResult M => I.eqv x.key k2)
        = (fun x => I.eqv x.key k) := funext fun x => hpt x.key
    cases hfind : I.records.find? (fun x => I.eqv x.key k) with
    | some found =>
      rw [hfind] at hint
      have hr : r = found := by
        have h := congrArg Prod.fst hint
        simpa using h.symm
      have hI : I2 = I := (congrArg Prod.snd hint).symm
      subst hr; subst hI
      rw [intern]
      simp only [hk2, Bool.false_eq_true, if_false]
      rw [hfun, hfind]
    | none =>
      rw [hfind] at hint
      have hr : r = ⟨k, ⟨m, I.dense_index_count⟩⟩ := by
        have h := congrArg Prod.fst hint
        simpa using h.symm
      have hI : I2 = { I with
          records := I.records ++ [⟨k, ⟨m, I.dense_index_count⟩⟩],
          dense_index_count := I.dense_index_count + 1 } :=
        (congrArg Prod.snd hint).symm
      subst hr; subst hI
      have hkk : I.eqv k k = true := htrans k k2 k hkk2 hk2k
      rw [intern]
      simp only [hk2, Bool.false_eq_true, if_false]
      have h2 : (I.records
            ++ [(⟨k, ⟨m, I.dense_index_count⟩⟩ : InternResult M)]).find?
            (fun x => I.eqv x.key k2)
          = some ⟨k, ⟨m, I.dense_index_count⟩⟩ := by
        rw [hfun, List.find?_append, hfind]
        simp [List.find?, hkk]
      rw [h2]
  · intro M eqv ks hne hpw
    have hfresh : ∀ p ∈ ks, p.1 ≠ []
        ∧ ∀ r ∈ (intern_table_create M eqv).records,
            eqv r.key p.1 = false := by
      intro p hp
      exact ⟨hne p hp, by intro r hr; simp [intern_table_create] at hr⟩
    have hmain := intern_list_fresh_spec eqv ks
      (intern_table_create M eqv) rfl hfresh hpw
    have hrec : (intern_list (intern_table_create M eqv) ks).records
        = recordsFrom ks 0 := by
      rw [hmain]; rfl
    refine ⟨hrec, ?_, ?_⟩
    · show ((intern_list (intern_table_create M eqv) ks).records.map
          (fun x => (x.entry.dense_index, x.key, x.entry.meta))).map
            (fun x => x.1) = _
      rw [hrec, List.map_map]
      rw [show ((fun x : Nat × List UInt8 × M => x.1)
            ∘ fun x : InternResult M =>
              (x.entry.dense_index, x.key, x.entry.meta))
          = fun x : InternResult M => x.entry.dense_index from rfl]
      rw [recordsFrom_dense ks 0, List.range_eq_range']
    · intro i hi
      have hlen : (recordsFrom ks 0).length = ks.length :=
        recordsFrom_length ks 0
      rw [interner_get_result]
      simp only [hrec]
      rw [if_pos]
      · rw [show (Int.ofNat i).toNat = i from rfl]
        rw [recordsFrom_get? ks 0 i]
        cases hg : ks.get? i with
        | none => rfl
        | some p => simp
      · constructor
        · exact Int.ofNat_nonneg i
        · rw [show (Int.ofNat i).toNat = i from rfl, hlen]
          exact hi

/-- C7 (witness): re-interning `x` into the interner that already holds
`x` returns the original record and state; interning `a`, `ab` first-time
gives the two records in order. -/
theorem c7_interner_guarantees_witness :
    intern ((intern (intern_table_create Nat slice_eqv)
        (strBytes "x") 0).2) (strBytes "x") 0
      = (some { key := strBytes "x",
                entry := { meta := 0, dense_index := 0 } },
         (intern (intern_table_create Nat slice_eqv)
            (strBytes "x") 0).2)
    ∧ (intern_list (intern_table_create Nat slice_eqv)
          [(strBytes "a", 0), (strBytes "ab", 1)]).records
        = recordsFrom [(strBytes "a", 0), (strBytes "ab", 1)] 0 :=
  ⟨c7_interner_guarantees.1 Nat (intern_table_create Nat slice_eqv)
      (strBytes "x") (strBytes "x") 0 0
      { key := strBytes "x", entry := { meta := 0, dense_index := 0 } }
      ((intern (intern_table_create Nat slice_eqv) (strBytes "x") 0).2)
      (fun a b => by
        show (a == b) = (b == a)
        by_cases h : a = b
        · subst h; rfl
        · rw [beq_eq_false_iff_ne.mpr h,
              beq_eq_false_iff_ne.mpr (Ne.symm h)])
      (fun a b c hab hbc => by
        simp only [intern_table_create, slice_eqv, beq_iff_eq] at *
        exact hab.trans hbc)
      (by decide) (by decide) rfl,
   (c7_interner_guarantees.2 Nat slice_eqv
      [(strBytes "a", 0), (strBytes "ab", 1)]
      (by decide)
      (by decide)).1⟩


/-! ## Proof of the parser diagnostic discipline -/
theorem cpe_facts (st : PSt) (m : String) (t : Option Token) :
    (cpe st m t).cur = st.cur
    ∧ (cpe st m t).errs = st.errs ++ [{ message := m, tok := t }] :=
  ⟨rfl, rfl⟩

theorem setPrev_facts (st : PSt) :
    (setPrev st).cur = st.cur ∧ (setPrev st).errs = st.errs := ⟨rfl, rfl⟩

theorem noeof_refl (tokens : List Token) (a : Nat) :
    NoEofRange tokens a a := by
  intro j h1 h2
  omega

theorem noeof_trans {tokens : List Token} {a b c : Nat}
    (h1 : NoEofRange tokens a b) (h2 : NoEofRange tokens b c) :
    NoEofRange tokens a c := by
  intro j hj1 hj2 t ht
  by_cases hb : j < b
  · exact h1 j hj1 hb t ht
  · exact h2 j (by omega) hj2 t ht

theorem noeof_single {tokens : List Token} {a : Nat} {t : Token}
    (h : tokens.get? a = some t) (ht : t.type ≠ .tEof) :
    NoEofRange tokens a (a + 1) := by
  intro j hj1 hj2 u hu
  have : j = a := by omega
  subst this
  rw [h] at hu
  injection hu with hu
  subst hu
  exact ht

theorem cur_tok_lt {tokens : List Token} {st : PSt} {t : Token}
    (h : cur_tok tokens st = some t) : st.cur < tokens.length := by
  have := List.get?_eq_some.mp h
  exact this.1

theorem consumeT_snd_none {tokens : List Token} {st : PSt}
    {e : TokenType} (hg : tokens.get? st.cur = none) :
    consumeT tokens st e = (none, st) := by
  simp only [consumeT, hg]

theorem consumeT_snd_hit {tokens : List Token} {st : PSt}
    {e : TokenType} {tok : Token} (hg : tokens.get? st.cur = some tok)
    (ht : tok.type = e) :
    consumeT tokens st e
      = (some tok, { st with cur := st.cur + 1 }) := by
  simp only [consumeT, hg, if_pos ht]

theorem consumeT_snd_miss {tokens : List Token} {st : PSt}
    {e : TokenType} {tok : Token} (hg : tokens.get? st.cur = some tok)
    (ht : ¬ tok.type = e) :
    consumeT tokens st e = (none, st) := by
  simp only [consumeT, hg, if_neg ht]

theorem consumeT_nofail (tokens : List Token) (st : PSt)
    (e : TokenType) (he : e ≠ .tEof) (hcur : st.cur ≤ tokens.length) :
    (consumeT tokens st e).2.errs = st.errs
    ∧ st.cur ≤ (consumeT tokens st e).2.cur
    ∧ (consumeT tokens st e).2.cur ≤ tokens.length
    ∧ NoEofRange tokens st.cur (consumeT tokens st e).2.cur
    ∧ (consumeT tokens st e).2.cur ≤ st.cur + 1 := by
  cases hg : tokens.get? st.cur with
  | none =>
    rw [consumeT_snd_none hg]
    dsimp only
    exact ⟨rfl, le_refl _, hcur, noeof_refl _ _, by omega⟩
  | some tok =>
    by_cases ht : tok.type = e
    · have hlt : st.cur < tokens.length := (List.get?_eq_some.mp hg).1
      rw [consumeT_snd_hit hg ht]
      dsimp only
      refine ⟨rfl, by omega, by omega, ?_, by omega⟩
      exact noeof_single hg (by rw [ht]; exact he)
    · rw [consumeT_snd_miss hg ht]
      dsimp only
      exact ⟨rfl, le_refl _, hcur, noeof_refl _ _, by omega⟩

theorem consumeT_some {tokens : List Token} {st : PSt} {e : TokenType}
    {k : Token} (h : (consumeT tokens st e).1 = some k) :
    (consumeT tokens st e).2 = { st with cur := st.cur + 1 }
    ∧ tokens.get? st.cur = some k ∧ k.type = e
    ∧ st.cur < tokens.length := by
  cases hg : tokens.get? st.cur with
  | none => rw [consumeT_snd_none hg] at h; exact absurd h (by simp)
  | some t0 =>
    by_cases ht : t0.type = e
    · rw [consumeT_snd_hit hg ht] at h ⊢
      injection h with h
      subst h
      exact ⟨rfl, rfl, ht, (List.get?_eq_some.mp hg).1⟩
    · rw [consumeT_snd_miss hg ht] at h
      exact absurd h (by simp)

theorem consumeT_none {tokens : List Token} {st : PSt} {e : TokenType}
    (h : (consumeT tokens st e).1 = none) :
    (consumeT tokens st e).2 = st := by
  cases hg : tokens.get? st.cur with
  | none => rw [consumeT_snd_none hg]
  | some t0 =>
    by_cases ht : t0.type = e
    · rw [consumeT_snd_hit hg ht] at h; exact absurd h (by simp)
    · rw [consumeT_snd_miss hg ht]

theorem match_t_eq_none {tokens : List Token} {st : PSt}
    {e : TokenType} (hg : tokens.get? st.cur = none) :
    match_t tokens st e = (false, st) := by
  simp only [match_t, hg]

theorem match_t_eq_hit {tokens : List Token} {st : PSt}
    {e : TokenType} {tok : Token} (hg : tokens.get? st.cur = some tok)
    (ht : tok.type = e) :
    match_t tokens st e = (true, { st with cur := st.cur + 1 }) := by
  simp only [match_t, hg, if_pos ht]

theorem match_t_eq_miss {tokens : List Token} {st : PSt}
    {e : TokenType} {tok : Token} (hg : tokens.get? st.cur = some tok)
    (ht : ¬ tok.type = e) :
    match_t tokens st e = (false, st) := by
  simp only [match_t, hg, if_neg ht]

theorem match_t_facts (tokens : List Token) (st : PSt) (e : TokenType)
    (he : e ≠ .tEof) (hcur : st.cur ≤ tokens.length) :
    (match_t tokens st e).2.errs = st.errs
    ∧ st.cur ≤ (match_t tokens st e).2.cur
    ∧ (match_t tokens st e).2.cur ≤ tokens.length
    ∧ NoEofRange tokens st.cur (match_t tokens st e).2.cur := by
  cases hg : tokens.get? st.cur with
  | none =>
    rw [match_t_eq_none hg]
    exact ⟨rfl, le_refl _, hcur, noeof_refl _ _⟩
  | some tok =>
    by_cases ht : tok.type = e
    · have hlt : st.cur < tokens.length := (List.get?_eq_some.mp hg).1
      rw [match_t_eq_hit hg ht]
      dsimp only
      exact ⟨rfl, by omega, by omega,
        noeof_single hg (by rw [ht]; exact he)⟩
    · rw [match_t_eq_miss hg ht]
      exact ⟨rfl, le_refl _, hcur, noeof_refl _ _⟩

theorem pstep_fail_cpe {tokens : List Token} {st u : PSt}
    (h1 : u.errs = []) (h2 : st.cur ≤ u.cur)
    (h3 : u.cur ≤ tokens.length)
    (h4 : NoEofRange tokens st.cur u.cur)
    (m : String) (t : Option Token) :
    PStep tokens st (.fail, cpe u m t) := by
  refine ⟨?_, h2, h3, ?_⟩
  · simp [cpe, h1]
  · show NoEofRange tokens st.cur (cpe u m t).cur
    exact h4

theorem pstep_fail_noerr {tokens : List Token} {st u : PSt}
    (h1 : u.errs = []) (h2 : st.cur ≤ u.cur)
    (h3 : u.cur ≤ tokens.length)
    (h4 : NoEofRange tokens st.cur u.cur) :
    PStep tokens st (.fail, u) := by
  refine ⟨?_, h2, h3, h4⟩
  simp [h1]

theorem pstep_ok {tokens : List Token} {st u : PSt}
    (h1 : u.errs = []) (h2 : st.cur ≤ u.cur)
    (h3 : u.cur ≤ tokens.length)
    (h4 : NoEofRange tokens st.cur u.cur) (v : PVal) :
    PStep tokens st (.ok v, u) :=
  ⟨h1, h2, h3, h4⟩

theorem pstep_compose {tokens : List Token} {st st1 : PSt}
    {y : PRes × PSt}
    (he : st1.errs = []) (h2 : st.cur ≤ st1.cur)
    (h3 : st1.cur ≤ tokens.length)
    (h4 : NoEofRange tokens st.cur st1.cur)
    (hy : PStep tokens st1 y) : PStep tokens st y := by
  obtain ⟨res, st2⟩ := y
  cases res with
  | fuelOut => trivial
  | ok v =>
    obtain ⟨g1, g2, g3, g4⟩ := hy
    exact ⟨g1, by omega, g3, noeof_trans h4 g4⟩
  | fail =>
    obtain ⟨g1, g2, g3, g4⟩ := hy
    exact ⟨g1, by omega, g3, noeof_trans h4 g4⟩

theorem pbindN_pstep {tokens : List Token} {st : PSt}
    {x : PRes × PSt} {k : AstNode → PSt → PRes × PSt}
    (hx : PStep tokens st x)
    (hk : ∀ n st1, x = (.ok (.node n), st1) → st1.errs = [] →
        st1.cur ≤ tokens.length → PStep tokens st1 (k n st1)) :
    PStep tokens st (pbindN x k) := by
  obtain ⟨res, st1⟩ := x
  cases res with
  | fuelOut => trivial
  | fail => exact hx
  | ok v =>
    cases v with
    | node n =>
      obtain ⟨g1, g2, g3, g4⟩ := hx
      exact pstep_compose g1 g2 g3 g4 (hk n st1 rfl g1 g3)
    | nodes l => trivial
    | irec r => trivial

theorem pbindL_pstep {tokens : List Token} {st : PSt}
    {x : PRes × PSt} {k : List AstNode → PSt → PRes × PSt}
    (hx : PStep tokens st x)
    (hk : ∀ l st1, x = (.ok (.nodes l), st1) → st1.errs = [] →
        st1.cur ≤ tokens.length → PStep tokens st1 (k l st1)) :
    PStep tokens st (pbindL x k) := by
  obtain ⟨res, st1⟩ := x
  cases res with
  | fuelOut => trivial
  | fail => exact hx
  | ok v =>
    cases v with
    | nodes l =>
      obtain ⟨g1, g2, g3, g4⟩ := hx
      exact pstep_compose g1 g2 g3 g4 (hk l st1 rfl g1 g3)
    | node n => trivial
    | irec r => trivial

theorem setPrev_errs (st : PSt) : (setPrev st).errs = st.errs := rfl

theorem setPrev_cur (st : PSt) : (setPrev st).cur = st.cur := rfl

theorem cpe_cur (st : PSt) (m : String) (t : Option Token) :
    (cpe st m t).cur = st.cur := rfl

theorem cpe_len {st : PSt} (h : st.errs = []) (m : String)
    (t : Option Token) : (cpe st m t).errs.length = 1 := by
  simp [cpe, h]

theorem consumeT_some_facts {tokens : List Token} {st : PSt}
    {e : TokenType} {tok : Token}
    (h : (consumeT tokens st e).1 = some tok) (he : e ≠ .tEof) :
    (consumeT tokens st e).2.errs = st.errs
    ∧ (consumeT tokens st e).2.cur = st.cur + 1
    ∧ st.cur < tokens.length
    ∧ NoEofRange tokens st.cur (consumeT tokens st e).2.cur
    ∧ tokens.get? st.cur = some tok ∧ tok.type = e := by
  obtain ⟨h2, hg, ht, hlt⟩ := consumeT_some h
  refine ⟨by rw [h2], by rw [h2], hlt, ?_, hg, ht⟩
  rw [h2]
  exact noeof_single hg (by rw [ht]; exact he)

theorem consumeT_none_facts {tokens : List Token} {st : PSt}
    {e : TokenType} (h : (consumeT tokens st e).1 = none) :
    (consumeT tokens st e).2.errs = st.errs
    ∧ (consumeT tokens st e).2.cur = st.cur := by
  rw [consumeT_none h]
  exact ⟨rfl, rfl⟩
theorem isPrefixOpTok_ne_eof {t : TokenType}
    (h : isPrefixOpTok t = true) : t ≠ .tEof := by
  intro he
  subst he
  exact absurd h (by decide)

theorem is_assignment_op_ne_eof {t : TokenType}
    (h : is_assignment_op t = true) : t ≠ .tEof := by
  intro he
  subst he
  exact absurd h (by decide)

theorem map_binary_op_eof : ∀ lvl, map_binary_op lvl .tEof = .opNull := by
  intro lvl
  rcases lvl with _ | _ | _ | _ | _ | n <;> rfl

theorem prun_pstep (tokens : List Token) :
    ∀ fuel job st, job ≠ .decl → st.errs = [] →
      st.cur ≤ tokens.length →
      PStep tokens st (prun tokens fuel job st) := by
  intro fuel
  induction fuel with
  | zero => intro job st hj h1 h2; exact trivial
  | succ fuel ih =>
    intro job st hjob herrs hcur
    cases job with
    | decl => exact absurd rfl hjob
    | declStmt =>
      simp only [prun]
      refine pbindN_pstep (ih .varDecl st (by intro h; cases h) herrs hcur) ?_
      intro d st1 hx h1 h2
      cases hc : (consumeT tokens st1 .tSemicolon).1 with
      | none =>
        obtain ⟨hN1, hN2⟩ := consumeT_none_facts hc
        refine pstep_fail_cpe (u := setPrev (consumeT tokens st1 .tSemicolon).2)
          (by rw [setPrev_errs]; exact hN1.trans h1)
          (by rw [setPrev_cur]; omega) (by rw [setPrev_cur]; omega) ?_ _ _
        rw [setPrev_cur, hN2]
        exact noeof_refl _ _
      | some semi =>
        obtain ⟨hS1, hS2, hS3, hS4, hS5, hS6⟩ :=
          consumeT_some_facts hc (by decide)
        exact pstep_ok (hS1.trans h1) (by omega) (by omega) hS4 _
    | varDecl =>
      simp only [prun]
      cases hct : cur_tok tokens st with
      | none =>
        exact pstep_fail_cpe herrs (le_refl _) hcur (noeof_refl _ _) _ _
      | some tok =>
        have hmain : ∀ stA : PSt, stA.errs = [] → st.cur ≤ stA.cur →
            stA.cur ≤ tokens.length → NoEofRange tokens st.cur stA.cur →
            ∀ (sp1f : Token → Span) (isConst : Bool),
            PStep tokens st
              (match (consumeT tokens stA .tIdentifier).1 with
               | none =>
                 (.fail, cpe (consumeT tokens stA .tIdentifier).2
                   "expected identifier in variable declaration"
                   (cur_tok tokens (consumeT tokens stA .tIdentifier).2))
               | some name_tok =>
                 match (consumeT tokens
                     (consumeT tokens stA .tIdentifier).2 .tColon).1 with
                 | none =>
                   (.fail, cpe (consumeT tokens
                       (consumeT tokens stA .tIdentifier).2 .tColon).2
                     "expected colon after variable name"
                     (cur_tok tokens (consumeT tokens
                       (consumeT tokens stA .tIdentifier).2 .tColon).2))
                 | some _ =>
                   pbindN (prun tokens fuel .typeJ
                       (consumeT tokens
                         (consumeT tokens stA .tIdentifier).2 .tColon).2)
                     (fun tyN st2 =>
                       if (match_t tokens st2 .tAssign).1 = true then
                         pbindN
                           (if (match cur_tok tokens
                                 (consumeT tokens
                                   (match_t tokens st2 .tAssign).2
                                   .tAssign).2 with
                               | some t => t.type == TokenType.tLBrace
                               | none => false) = true then
                             prun tokens fuel .initList
                               (consumeT tokens
                                 (match_t tokens st2 .tAssign).2
                                 .tAssign).2
                            else
                             prun tokens fuel .exprJ
                               (consumeT tokens
                                 (match_t tokens st2 .tAssign).2
                                 .tAssign).2)
                           (fun ini st4 =>
                             (.ok (.node (mkNode (span_join (sp1f name_tok) ini.span)
                               (.variableDeclaration (some tyN)
                                 name_tok.record isConst (some ini)))),
                              st4))
                       else
                         (.ok (.node (mkNode (span_join (sp1f name_tok) tyN.span)
                           (.variableDeclaration (some tyN) name_tok.record
                             isConst none))),
                          (match_t tokens st2 .tAssign).2))) := by
          intro stA hA1 hA2 hA3 hA4 sp1f isConst
          cases hcN : (consumeT tokens stA .tIdentifier).1 with
          | none =>
            obtain ⟨hN1, hN2⟩ := consumeT_none_facts hcN
            exact pstep_fail_cpe (hN1.trans hA1) (by omega) (by omega)
              (by rw [hN2]; exact hA4) _ _
          | some name_tok =>
            obtain ⟨hN1, hN2, hN3, hN4, hN5, hN6⟩ :=
              consumeT_some_facts hcN (by decide)
            cases hcC : (consumeT tokens
                (consumeT tokens stA .tIdentifier).2 .tColon).1 with
            | none =>
              obtain ⟨hC1, hC2⟩ := consumeT_none_facts hcC
              exact pstep_fail_cpe (hC1.trans (hN1.trans hA1)) (by omega)
                (by omega) (by rw [hC2]; exact noeof_trans hA4 hN4) _ _
            | some _ =>
              obtain ⟨hC1, hC2, hC3, hC4, hC5, hC6⟩ :=
                consumeT_some_facts hcC (by decide)
              refine pstep_compose (hC1.trans (hN1.trans hA1)) (by omega)
                (by omega) (noeof_trans hA4 (noeof_trans hN4 hC4)) ?_
              refine pbindN_pstep (ih .typeJ _ (by intro h; cases h)
                (hC1.trans (hN1.trans hA1)) (by omega)) ?_
              intro tyN st2 hxeq h2errs h2cur
              obtain ⟨hM1, hM2, hM3, hM4⟩ :=
                match_t_facts tokens (st2) .tAssign
                  (by decide) h2cur
              split
              · obtain ⟨hD1, hD2, hD3, hD4, hD5⟩ :=
                  consumeT_nofail tokens
                    ((match_t tokens st2 .tAssign).2) .tAssign
                    (by decide) hM3
                refine pbindN_pstep ?_ ?_
                · refine pstep_compose (hD1.trans (hM1.trans h2errs))
                    (by omega) (by omega) (noeof_trans hM4 hD4) ?_
                  split
                  · exact ih .initList _ (by intro h; cases h)
                      (hD1.trans (hM1.trans h2errs)) (by omega)
                  · exact ih .exprJ _ (by intro h; cases h)
                      (hD1.trans (hM1.trans h2errs)) (by omega)
                · intro ini st4 hx2 h4errs h4cur
                  exact pstep_ok h4errs (le_refl _) h4cur
                    (noeof_refl _ _) _
              · exact pstep_ok (hM1.trans h2errs) hM2 hM3 hM4 _
        by_cases hconst : tok.type = .tConst
        · simp only [if_pos hconst]
          obtain ⟨hK1, hK2, hK3, hK4, hK5⟩ :=
            consumeT_nofail tokens (st) .tConst (by decide) hcur
          exact hmain _ (hK1.trans herrs) hK2 hK3 hK4 _ _
        · simp only [if_neg hconst]
          exact hmain st herrs (le_refl _) hcur (noeof_refl _ _) _ _
    | typeJ =>
      simp only [prun]
      refine pbindN_pstep (ih .typeAtom st (by intro h; cases h)
        herrs hcur) ?_
      intro n st1 hx h1 h2
      exact ih _ st1 (by intro h; cases h) h1 h2
    | typePre base =>
      simp only [prun]
      cases hct : cur_tok tokens st with
      | none => exact ih _ st (by intro h; cases h) herrs hcur
      | some t =>
        by_cases h1 : t.type = .tStar
        · simp only [if_pos h1]
          cases hc : (consumeT tokens st .tStar).1 with
          | none =>
            obtain ⟨he2, hk2⟩ := consumeT_none_facts hc
            exact pstep_fail_cpe (he2.trans herrs) (by omega) (by omega)
              (by rw [hk2]; exact noeof_refl _ _) _ _
          | some star =>
            obtain ⟨he2, hk2, hlt2, hno2, hg2, ht2⟩ :=
              consumeT_some_facts hc (by decide)
            exact pstep_compose (he2.trans herrs) (by omega) (by omega)
              hno2 (ih _ _ (by intro h; cases h) (he2.trans herrs)
                (by omega))
        · simp only [if_neg h1]
          exact ih _ st (by intro h; cases h) herrs hcur
    | typeSuf base =>
      simp only [prun]
      cases hct : cur_tok tokens st with
      | none => exact pstep_ok herrs (le_refl _) hcur (noeof_refl _ _) _
      | some t =>
        by_cases h1 : t.type = .tStar
        · simp only [if_pos h1]
          cases hc : (consumeT tokens st .tStar).1 with
          | none =>
            obtain ⟨he2, hk2⟩ := consumeT_none_facts hc
            exact pstep_fail_cpe (he2.trans herrs) (by omega) (by omega)
              (by rw [hk2]; exact noeof_refl _ _) _ _
          | some star =>
            obtain ⟨he2, hk2, hlt2, hno2, hg2, ht2⟩ :=
              consumeT_some_facts hc (by decide)
            exact pstep_compose (he2.trans herrs) (by omega) (by omega)
              hno2 (ih _ _ (by intro h; cases h) (he2.trans herrs)
                (by omega))
        · simp only [if_neg h1]
          exact pstep_ok herrs (le_refl _) hcur (noeof_refl _ _) _
    | forStmt =>
      simp only [prun]
      exact pstep_fail_cpe herrs (le_refl _) hcur (noeof_refl _ _) _ _
    | breakStmt =>
      simp only [prun]
      cases hc : (consumeT tokens st .tBreak).1 with
      | none =>
        obtain ⟨he2, hk2⟩ := consumeT_none_facts hc
        exact pstep_fail_cpe (he2.trans herrs) (by omega) (by omega)
          (by rw [hk2]; exact noeof_refl _ _) _ _
      | some break_tok =>
        obtain ⟨he2, hk2, hlt2, hno2, hg2, ht2⟩ :=
          consumeT_some_facts hc (by decide)
        cases hc3 : (consumeT tokens (consumeT tokens st .tBreak).2
            .tSemicolon).1 with
        | none =>
          obtain ⟨he4, hk4⟩ := consumeT_none_facts hc3
          refine pstep_fail_cpe (he4.trans (he2.trans herrs)) (by omega)
            (by omega) ?_ _ _
          rw [hk4]
          exact hno2
        | some semi =>
          obtain ⟨he4, hk4, hlt4, hno4, hg4, ht4⟩ :=
            consumeT_some_facts hc3 (by decide)
          exact pstep_ok (he4.trans (he2.trans herrs)) (by omega)
            (by omega) (noeof_trans hno2 hno4) _
    | continueStmt =>
      simp only [prun]
      cases hc : (consumeT tokens st .tContinue).1 with
      | none =>
        obtain ⟨he2, hk2⟩ := consumeT_none_facts hc
        exact pstep_fail_cpe (he2.trans herrs) (by omega) (by omega)
          (by rw [hk2]; exact noeof_refl _ _) _ _
      | some cont_tok =>
        obtain ⟨he2, hk2, hlt2, hno2, hg2, ht2⟩ :=
          consumeT_some_facts hc (by decide)
        cases hc3 : (consumeT tokens (consumeT tokens st .tContinue).2
            .tSemicolon).1 with
        | none =>
          obtain ⟨he4, hk4⟩ := consumeT_none_facts hc3
          refine pstep_fail_cpe (he4.trans (he2.trans herrs)) (by omega)
            (by omega) ?_ _ _
          rw [hk4]
          exact hno2
        | some semi =>
          obtain ⟨he4, hk4, hlt4, hno4, hg4, ht4⟩ :=
            consumeT_some_facts hc3 (by decide)
          exact pstep_ok (he4.trans (he2.trans herrs)) (by omega)
            (by omega) (noeof_trans hno2 hno4) _
    | funcDecl =>
      simp only [prun]
      cases hcF : (consumeT tokens st .tFn).1 with
      | none =>
        obtain ⟨h1, h2⟩ := consumeT_none_facts hcF
        exact pstep_fail_cpe (h1.trans herrs) (by omega) (by omega)
          (by rw [h2]; exact noeof_refl _ _) _ _
      | some fn_tok =>
        obtain ⟨hF1, hF2, hF3, hF4, hF5, hF6⟩ :=
          consumeT_some_facts hcF (by decide)
        cases hcN : (consumeT tokens (consumeT tokens st .tFn).2
            .tIdentifier).1 with
        | none =>
          obtain ⟨h1, h2⟩ := consumeT_none_facts hcN
          exact pstep_fail_cpe (h1.trans (hF1.trans herrs)) (by omega)
            (by omega) (by rw [h2]; exact hF4) _ _
        | some name_tok =>
          obtain ⟨hN1, hN2, hN3, hN4, hN5, hN6⟩ :=
            consumeT_some_facts hcN (by decide)
          cases hcL : (consumeT tokens (consumeT tokens
              (consumeT tokens st .tFn).2 .tIdentifier).2 .tLParen).1 with
          | none =>
            obtain ⟨h1, h2⟩ := consumeT_none_facts hcL
            exact pstep_fail_cpe (h1.trans (hN1.trans (hF1.trans herrs)))
              (by omega) (by omega)
              (by rw [h2]; exact noeof_trans hF4 hN4) _ _
          | some lpar =>
            obtain ⟨hL1, hL2, hL3, hL4, hL5, hL6⟩ :=
              consumeT_some_facts hcL (by decide)
            refine pstep_compose
              (hL1.trans (hN1.trans (hF1.trans herrs))) (by omega)
              (by omega) (noeof_trans hF4 (noeof_trans hN4 hL4)) ?_
            refine pbindL_pstep (ih .paramList _ (by intro h; cases h)
              (hL1.trans (hN1.trans (hF1.trans herrs))) (by omega)) ?_
            intro params st2 hx h2errs h2cur
            cases hcR : (consumeT tokens st2 .tRParen).1 with
            | none =>
              obtain ⟨h1, h2⟩ := consumeT_none_facts hcR
              exact pstep_fail_cpe (h1.trans h2errs) (by omega) (by omega)
                (by rw [h2]; exact noeof_refl _ _) _ _
            | some rpar =>
              obtain ⟨hR1, hR2, hR3, hR4, hR5, hR6⟩ :=
                consumeT_some_facts hcR (by decide)
              dsimp only
              split
              · obtain ⟨hA1, hA2, hA3, hA4, hA5⟩ :=
                  consumeT_nofail tokens
                    ((consumeT tokens st2 .tRParen).2) .tArrow
                    (by decide) (by omega)
                refine pbindN_pstep (pstep_compose
                  (hA1.trans (hR1.trans h2errs)) (by omega) (by omega)
                  (noeof_trans hR4 hA4)
                  (ih .typeJ _ (by intro h; cases h)
                    (hA1.trans (hR1.trans h2errs)) (by omega))) ?_
                intro rt st3 hx3 h3errs h3cur
                refine pbindN_pstep (ih .blockJ st3 (by intro h; cases h)
                  h3errs h3cur) ?_
                intro body st4 hx4 h4errs h4cur
                exact pstep_ok h4errs (le_refl _) h4cur (noeof_refl _ _) _
              · refine pbindN_pstep (pstep_compose (hR1.trans h2errs)
                  (by omega) (by omega) hR4
                  (ih .blockJ _ (by intro h; cases h) (hR1.trans h2errs)
                    (by omega))) ?_
                intro body st4 hx4 h4errs h4cur
                exact pstep_ok h4errs (le_refl _) h4cur (noeof_refl _ _) _
    | paramList =>
      simp only [prun]
      cases hct : cur_tok tokens st with
      | none =>
        exact pstep_fail_cpe herrs (le_refl _) hcur (noeof_refl _ _) _ _
      | some tok =>
        dsimp only
        split
        · exact pstep_ok herrs (le_refl _) hcur (noeof_refl _ _) _
        · exact ih _ st (by intro h; cases h) herrs hcur
    | paramLoop acc =>
      simp only [prun]
      cases hct : cur_tok tokens st with
      | none =>
        exact pstep_fail_cpe herrs (le_refl _) hcur (noeof_refl _ _) _ _
      | some tok =>
        dsimp only
        split
        · exact pstep_fail_cpe herrs (le_refl _) hcur (noeof_refl _ _) _ _
        · obtain ⟨hI1, hI2, hI3, hI4, hI5⟩ :=
            consumeT_nofail tokens (st) .tIdentifier (by decide) hcur
          cases hcC : (consumeT tokens
              (consumeT tokens st .tIdentifier).2 .tColon).1 with
          | none =>
            obtain ⟨h1, h2⟩ := consumeT_none_facts hcC
            exact pstep_fail_cpe (h1.trans (hI1.trans herrs)) (by omega)
              (by omega) (by rw [h2]; exact hI4) _ _
          | some _ =>
            obtain ⟨hC1, hC2, hC3, hC4, hC5, hC6⟩ :=
              consumeT_some_facts hcC (by decide)
            refine pbindN_pstep (pstep_compose
              (hC1.trans (hI1.trans herrs)) (by omega) (by omega)
              (noeof_trans hI4 hC4)
              (ih .typeJ _ (by intro h; cases h)
                (hC1.trans (hI1.trans herrs)) (by omega))) ?_
            intro ty st2 hx h2errs h2cur
            cases hct2 : cur_tok tokens st2 with
            | none =>
              exact pstep_fail_cpe h2errs (le_refl _) h2cur
                (noeof_refl _ _) _ _
            | some tok2 =>
              dsimp only
              split
              · exact pstep_ok h2errs (le_refl _) h2cur (noeof_refl _ _) _
              · cases hcM : (consumeT tokens st2 .tComma).1 with
                | none =>
                  obtain ⟨h1, h2⟩ := consumeT_none_facts hcM
                  exact pstep_fail_cpe (h1.trans h2errs) (by omega)
                    (by omega) (by rw [h2]; exact noeof_refl _ _) _ _
                | some _ =>
                  obtain ⟨hM1, hM2, hM3, hM4, hM5, hM6⟩ :=
                    consumeT_some_facts hcM (by decide)
                  exact pstep_compose (hM1.trans h2errs) (by omega)
                    (by omega) hM4
                    (ih _ _ (by intro h; cases h) (hM1.trans h2errs)
                      (by omega))
    | typeAtom =>
      simp only [prun]
      cases hct : cur_tok tokens st with
      | none =>
        exact pstep_fail_cpe herrs (le_refl _) hcur (noeof_refl _ _) _ _
      | some tok =>
        by_cases h1 : tok.type = .tLParen
        · simp only [if_pos h1]
          cases hcL : (consumeT tokens st .tLParen).1 with
          | none => exact trivial
          | some lpar =>
            obtain ⟨hL1, hL2, hL3, hL4, hL5, hL6⟩ :=
              consumeT_some_facts hcL (by decide)
            refine pbindN_pstep (pstep_compose (hL1.trans herrs)
              (by omega) (by omega) hL4
              (ih .typeJ _ (by intro h; cases h) (hL1.trans herrs)
                (by omega))) ?_
            intro inner st2 hx h2errs h2cur
            cases hcR : (consumeT tokens st2 .tRParen).1 with
            | none =>
              obtain ⟨h2a, h2b⟩ := consumeT_none_facts hcR
              exact pstep_fail_cpe (h2a.trans h2errs) (by omega)
                (by omega) (by rw [h2b]; exact noeof_refl _ _) _ _
            | some rparen =>
              obtain ⟨hR1, hR2, hR3, hR4, hR5, hR6⟩ :=
                consumeT_some_facts hcR (by decide)
              exact pstep_ok (hR1.trans h2errs) (by omega) (by omega)
                hR4 _
        · simp only [if_neg h1]
          by_cases h2 : tok.type = .tFn
          · simp only [if_pos h2]
            exact ih .funcType st (by intro h; cases h) herrs hcur
          · simp only [if_neg h2]
            have hbt := ih .baseTypeJ st (by intro h; cases h) herrs hcur
            cases hres : prun tokens fuel .baseTypeJ st with
            | mk res st2 =>
              rw [hres] at hbt
              cases res with
              | fuelOut => exact trivial
              | fail => exact hbt
              | ok v =>
                cases v with
                | irec r =>
                  exact pstep_ok hbt.1 hbt.2.1 hbt.2.2.1 hbt.2.2.2 _
                | node n => exact trivial
                | nodes l => exact trivial
    | baseTypeJ =>
      simp only [prun]
      cases hct : cur_tok tokens st with
      | none =>
        exact pstep_fail_cpe herrs (le_refl _) hcur (noeof_refl _ _) _ _
      | some tok =>
        by_cases h1 : tok.type.toNat < TokenType.tI32.toNat
            ∨ TokenType.tChar.toNat < tok.type.toNat
        · simp only [if_pos h1]
          exact pstep_fail_cpe herrs (le_refl _) hcur
            (noeof_refl _ _) _ _
        · simp only [if_neg h1]
          have hne : tok.type ≠ .tEof := by
            intro he
            exact h1 (Or.inr (by rw [he]; decide))
          obtain ⟨hK1, hK2, hK3, hK4, hK5⟩ :=
            consumeT_nofail tokens (st) tok.type hne hcur
          cases htr : tok.record with
          | some r =>
            exact pstep_ok (hK1.trans herrs) hK2 hK3 hK4 _
          | none =>
            exact pstep_fail_noerr (hK1.trans herrs) hK2 hK3 hK4
    | typeArr base =>
      simp only [prun]
      cases hct : cur_tok tokens st with
      | none => exact ih _ st (by intro h; cases h) herrs hcur
      | some t =>
        by_cases h1 : t.type = .tLBracket
        · simp only [if_pos h1]
          cases hcL : (consumeT tokens st .tLBracket).1 with
          | none =>
            obtain ⟨h2a, h2b⟩ := consumeT_none_facts hcL
            exact pstep_fail_cpe (h2a.trans herrs) (by omega) (by omega)
              (by rw [h2b]; exact noeof_refl _ _) _ _
          | some _ =>
            obtain ⟨hL1, hL2, hL3, hL4, hL5, hL6⟩ :=
              consumeT_some_facts hcL (by decide)
            have hcont : ∀ (stE : PSt) (oSe : Option AstNode),
                stE.errs = [] → st.cur ≤ stE.cur →
                stE.cur ≤ tokens.length → NoEofRange tokens st.cur stE.cur →
                PStep tokens st
                  (match (consumeT tokens stE .tRBracket).1 with
                   | none =>
                     (.fail,
                      cpe (setPrev (consumeT tokens stE .tRBracket).2)
                        "expected rbracket after array size expression"
                        (cur_tok tokens
                          (setPrev (consumeT tokens stE .tRBracket).2)))
                   | some rbr =>
                     prun tokens fuel
                       (.typeArr (mkNode Span.zero
                         (.typeArray (span_join base.span rbr.span)
                           base oSe)))
                       (consumeT tokens stE .tRBracket).2) := by
              intro stE oSe hE1 hE2 hE3 hE4
              cases hcR : (consumeT tokens stE .tRBracket).1 with
              | none =>
                obtain ⟨h3a, h3b⟩ := consumeT_none_facts hcR
                refine pstep_fail_cpe
                  (u := setPrev (consumeT tokens stE .tRBracket).2)
                  (by rw [setPrev_errs]; exact h3a.trans hE1)
                  (by rw [setPrev_cur]; omega)
                  (by rw [setPrev_cur]; omega) ?_ _ _
                rw [setPrev_cur, h3b]
                exact hE4
              | some rbr =>
                obtain ⟨hR1, hR2, hR3, hR4, hR5, hR6⟩ :=
                  consumeT_some_facts hcR (by decide)
                exact pstep_compose (hR1.trans hE1) (by omega) (by omega)
                  (noeof_trans hE4 hR4)
                  (ih _ _ (by intro h; cases h) (hR1.trans hE1)
                    (by omega))
            by_cases hne : (match cur_tok tokens
                (consumeT tokens st .tLBracket).2 with
              | some pk => pk.type != TokenType.tRBracket
              | none => false) = true
            · simp only [if_pos hne]
              have hE := ih .exprJ _ (by intro h; cases h)
                (hL1.trans herrs) (by omega)
              cases hres : prun tokens fuel .exprJ
                  (consumeT tokens st .tLBracket).2 with
              | mk res stE =>
                rw [hres] at hE
                cases res with
                | fuelOut => exact trivial
                | ok v =>
                  cases v with
                  | node se =>
                    exact hcont stE (some se) hE.1
                      (by have := hE.2.1; omega) hE.2.2.1
                      (noeof_trans hL4 hE.2.2.2)
                  | nodes l => exact trivial
                  | irec r => exact trivial
                | fail =>
                  by_cases hemp : (!stE.errs.isEmpty) = true
                  · simp only [if_pos hemp]
                    exact pstep_compose (hL1.trans herrs) (by omega)
                      (by omega) hL4 hE
                  · simp only [if_neg hemp]
                    have hemp2 : stE.errs = [] := by simpa using hemp
                    exact hcont stE none hemp2
                      (by have := hE.2.1; omega) hE.2.2.1
                      (noeof_trans hL4 hE.2.2.2)
            · simp only [if_neg hne]
              exact hcont _ none (hL1.trans herrs) (by omega) (by omega)
                hL4
        · simp only [if_neg h1]
          exact ih _ st (by intro h; cases h) herrs hcur
    | funcType =>
      simp only [prun]
      cases hcF : (consumeT tokens st .tFn).1 with
      | none =>
        obtain ⟨h1, h2⟩ := consumeT_none_facts hcF
        exact pstep_fail_cpe (h1.trans herrs) (by omega) (by omega)
          (by rw [h2]; exact noeof_refl _ _) _ _
      | some fn_tok =>
        obtain ⟨hF1, hF2, hF3, hF4, hF5, hF6⟩ :=
          consumeT_some_facts hcF (by decide)
        cases hcL : (consumeT tokens (consumeT tokens st .tFn).2
            .tLParen).1 with
        | none =>
          obtain ⟨h1, h2⟩ := consumeT_none_facts hcL
          exact pstep_fail_cpe (h1.trans (hF1.trans herrs)) (by omega)
            (by omega) (by rw [h2]; exact hF4) _ _
        | some _ =>
          obtain ⟨hL1, hL2, hL3, hL4, hL5, hL6⟩ :=
            consumeT_some_facts hcL (by decide)
          dsimp only
          split
          · cases hcR : (consumeT tokens (consumeT tokens
                (consumeT tokens st .tFn).2 .tLParen).2 .tRParen).1 with
            | none => exact trivial
            | some r =>
              obtain ⟨hR1, hR2, hR3, hR4, hR5, hR6⟩ :=
                consumeT_some_facts hcR (by decide)
              dsimp only
              split
              · obtain ⟨hA1, hA2, hA3, hA4, hA5⟩ :=
                  consumeT_nofail tokens
                    ((consumeT tokens (consumeT tokens
                      (consumeT tokens st .tFn).2 .tLParen).2
                        .tRParen).2) .tArrow (by decide) (by omega)
                refine pbindN_pstep (pstep_compose
                  (hA1.trans (hR1.trans (hL1.trans (hF1.trans herrs))))
                  (by omega) (by omega)
                  (noeof_trans hF4 (noeof_trans hL4
                    (noeof_trans hR4 hA4)))
                  (ih .typeJ _ (by intro h; cases h)
                    (hA1.trans (hR1.trans (hL1.trans (hF1.trans herrs))))
                    (by omega))) ?_
                intro ret st4 hx4 h4errs h4cur
                exact pstep_ok h4errs (le_refl _) h4cur (noeof_refl _ _) _
              · exact pstep_ok
                  (hR1.trans (hL1.trans (hF1.trans herrs))) (by omega)
                  (by omega)
                  (noeof_trans hF4 (noeof_trans hL4 hR4)) _
          · refine pbindN_pstep (pstep_compose
              (hL1.trans (hF1.trans herrs)) (by omega) (by omega)
              (noeof_trans hF4 hL4)
              (ih .typeJ _ (by intro h; cases h)
                (hL1.trans (hF1.trans herrs)) (by omega))) ?_
            intro p1 st2 hx h2errs h2cur
            refine pbindL_pstep (ih (.funcTypeParams [p1]) st2
              (by intro h; cases h) h2errs h2cur) ?_
            intro params st3 hx3 h3errs h3cur
            cases hcR : (consumeT tokens st3 .tRParen).1 with
            | none =>
              obtain ⟨h1, h2⟩ := consumeT_none_facts hcR
              exact pstep_fail_cpe (h1.trans h3errs) (by omega)
                (by omega) (by rw [h2]; exact noeof_refl _ _) _ _
            | some rparen =>
              obtain ⟨hR1, hR2, hR3, hR4, hR5, hR6⟩ :=
                consumeT_some_facts hcR (by decide)
              dsimp only
              split
              · obtain ⟨hA1, hA2, hA3, hA4, hA5⟩ :=
                  consumeT_nofail tokens
                    ((consumeT tokens st3 .tRParen).2) .tArrow
                    (by decide) (by omega)
                refine pbindN_pstep (pstep_compose
                  (hA1.trans (hR1.trans h3errs)) (by omega) (by omega)
                  (noeof_trans hR4 hA4)
                  (ih .typeJ _ (by intro h; cases h)
                    (hA1.trans (hR1.trans h3errs)) (by omega))) ?_
                intro ret st4 hx4 h4errs h4cur
                exact pstep_ok h4errs (le_refl _) h4cur (noeof_refl _ _) _
              · exact pstep_ok (hR1.trans h3errs) (by omega) (by omega)
                  hR4 _
    | funcTypeParams acc =>
      simp only [prun]
      cases hct : cur_tok tokens st with
      | none => exact pstep_ok herrs (le_refl _) hcur (noeof_refl _ _) _
      | some sep =>
        by_cases h1 : sep.type = .tComma
        · simp only [if_pos h1]
          obtain ⟨hM1, hM2, hM3, hM4, hM5⟩ :=
            consumeT_nofail tokens (st) .tComma
              (by decide) hcur
          refine pbindN_pstep (pstep_compose (hM1.trans herrs) hM2 hM3
            hM4 (ih .typeJ _ (by intro h; cases h) (hM1.trans herrs)
              hM3)) ?_
          intro p st2 hx h2errs h2cur
          exact ih _ st2 (by intro h; cases h) h2errs h2cur
        · simp only [if_neg h1]
          exact pstep_ok herrs (le_refl _) hcur (noeof_refl _ _) _
    | exprJ =>
      simp only [prun]
      refine pbindN_pstep (ih (.binLevel 0) st (by intro h; cases h)
        herrs hcur) ?_
      intro lhs st1 hx h1 h2
      split
      · exact ih _ st1 (by intro h; cases h) h1 h2
      · exact pstep_ok h1 (le_refl _) h2 (noeof_refl _ _) _
    | binLevel lvl =>
      simp only [prun]
      refine pbindN_pstep (ih _ st
        (by split <;> exact fun h => PJob.noConfusion h) herrs hcur) ?_
      intro lhs st1 hx h1 h2
      exact ih _ st1 (by intro h; cases h) h1 h2
    | binLoop lvl lhs =>
      simp only [prun]
      cases hct : cur_tok tokens st with
      | none => exact pstep_ok herrs (le_refl _) hcur (noeof_refl _ _) _
      | some token =>
        by_cases hop : map_binary_op lvl token.type = .opNull
        · simp only [if_pos hop]
          exact pstep_ok herrs (le_refl _) hcur (noeof_refl _ _) _
        · simp only [if_neg hop]
          have hne : token.type ≠ .tEof := by
            intro he
            exact hop (by rw [he]; exact map_binary_op_eof lvl)
          obtain ⟨hC1, hC2, hC3, hC4, hC5⟩ :=
            consumeT_nofail tokens (st) token.type
              hne hcur
          refine pbindN_pstep (pstep_compose (hC1.trans herrs) hC2 hC3
            hC4 (ih _ _
              (by split <;> exact fun h => PJob.noConfusion h)
              (hC1.trans herrs) hC3)) ?_
          intro rhs st2 hx h2errs h2cur
          exact ih _ st2 (by intro h; cases h) h2errs h2cur
    | assignJ lhs =>
      simp only [prun]
      split
      · exact pstep_fail_cpe herrs (le_refl _) hcur (noeof_refl _ _) _ _
      · cases hct : cur_tok tokens st with
        | none =>
          exact pstep_fail_cpe herrs (le_refl _) hcur (noeof_refl _ _) _ _
        | some op_tok =>
          dsimp only
          split
          · exact pstep_fail_cpe herrs (le_refl _) hcur
              (noeof_refl _ _) _ _
          · rename_i hassign
            have hassign2 : is_assignment_op op_tok.type = true := by
              simpa using hassign
            have hne : op_tok.type ≠ .tEof :=
              is_assignment_op_ne_eof hassign2
            obtain ⟨hC1, hC2, hC3, hC4, hC5⟩ :=
              consumeT_nofail tokens (st) op_tok.type
                hne hcur
            refine pbindN_pstep (pstep_compose (hC1.trans herrs) hC2 hC3
              hC4 (ih .exprJ _ (by intro h; cases h) (hC1.trans herrs)
                hC3)) ?_
            intro rhs st2 hx h2errs h2cur
            exact pstep_ok h2errs (le_refl _) h2cur (noeof_refl _ _) _
    | unaryJ =>
      simp only [prun]
      cases hct : cur_tok tokens st with
      | none => exact ih .postfixJ st (by intro h; cases h) herrs hcur
      | some token =>
        dsimp only
        by_cases h1 : isPrefixOpTok token.type = true
        · rw [if_pos h1]
          cases hc : (consumeT tokens st token.type).1 with
          | none =>
            obtain ⟨he2, hk2⟩ := consumeT_none_facts hc
            exact pstep_fail_cpe (he2.trans herrs) (by omega) (by omega)
              (by rw [hk2]; exact noeof_refl _ _) _ _
          | some op_token =>
            obtain ⟨he2, hk2, hlt2, hno2, hg2, ht2⟩ :=
              consumeT_some_facts hc (isPrefixOpTok_ne_eof h1)
            refine pbindN_pstep (pstep_compose (he2.trans herrs)
              (by omega) (by omega) hno2
              (ih .unaryJ _ (by intro h; cases h) (he2.trans herrs)
                (by omega))) ?_
            intro operand st2 hx h2errs h2cur
            exact pstep_ok h2errs (le_refl _) h2cur (noeof_refl _ _) _
        · rw [if_neg h1]
          exact ih .postfixJ st (by intro h; cases h) herrs hcur
    | postfixJ =>
      simp only [prun]
      refine pbindN_pstep (ih .primaryJ st (by intro h; cases h)
        herrs hcur) ?_
      intro primary st1 hx h1 h2
      exact ih _ st1 (by intro h; cases h) h1 h2
    | postfixLoop primary =>
      simp only [prun]
      cases hct : cur_tok tokens st with
      | none => exact pstep_ok herrs (le_refl _) hcur (noeof_refl _ _) _
      | some token =>
        dsimp only
        by_cases h1 : token.type = .tPlusPlus ∨ token.type = .tMinusMinus
        · simp only [if_pos h1]
          have hne : token.type ≠ .tEof := by
            rcases h1 with h | h <;> rw [h] <;> decide
          obtain ⟨hC1, hC2, hC3, hC4, hC5⟩ :=
            consumeT_nofail tokens (st) token.type
              hne hcur
          exact pstep_compose (hC1.trans herrs) hC2 hC3 hC4
            (ih _ _ (by intro h; cases h) (hC1.trans herrs) hC3)
        · simp only [if_neg h1]
          by_cases h2 : token.type = .tLBracket
          · simp only [if_pos h2]
            obtain ⟨hL1, hL2, hL3, hL4, hL5⟩ :=
              consumeT_nofail tokens (st) .tLBracket
                (by decide) hcur
            refine pbindN_pstep (pstep_compose (hL1.trans herrs) hL2 hL3
              hL4 (ih .exprJ _ (by intro h; cases h) (hL1.trans herrs)
                hL3)) ?_
            intro index st2 hx h2errs h2cur
            cases hcR : (consumeT tokens st2 .tRBracket).1 with
            | none =>
              obtain ⟨h3a, h3b⟩ := consumeT_none_facts hcR
              exact pstep_fail_cpe (h3a.trans h2errs) (by omega)
                (by omega) (by rw [h3b]; exact noeof_refl _ _) _ _
            | some rbr =>
              obtain ⟨hR1, hR2, hR3, hR4, hR5, hR6⟩ :=
                consumeT_some_facts hcR (by decide)
              exact pstep_compose (hR1.trans h2errs) (by omega)
                (by omega) hR4
                (ih _ _ (by intro h; cases h) (hR1.trans h2errs)
                  (by omega))
          · simp only [if_neg h2]
            by_cases h3 : token.type = .tLParen
            · simp only [if_pos h3]
              obtain ⟨hL1, hL2, hL3, hL4, hL5⟩ :=
                consumeT_nofail tokens (st) .tLParen
                  (by decide) hcur
              refine pbindL_pstep (pstep_compose (hL1.trans herrs) hL2
                hL3 hL4 (ih .argList _ (by intro h; cases h)
                  (hL1.trans herrs) hL3)) ?_
              intro args st2 hx h2errs h2cur
              cases hcR : (consumeT tokens st2 .tRParen).1 with
              | none =>
                obtain ⟨h3a, h3b⟩ := consumeT_none_facts hcR
                exact pstep_fail_cpe (h3a.trans h2errs) (by omega)
                  (by omega) (by rw [h3b]; exact noeof_refl _ _) _ _
              | some rparen =>
                obtain ⟨hR1, hR2, hR3, hR4, hR5, hR6⟩ :=
                  consumeT_some_facts hcR (by decide)
                exact pstep_compose (hR1.trans h2errs) (by omega)
                  (by omega) hR4
                  (ih _ _ (by intro h; cases h) (hR1.trans h2errs)
                    (by omega))
            · simp only [if_neg h3]
              exact pstep_ok herrs (le_refl _) hcur (noeof_refl _ _) _
    | primaryJ =>
      simp only [prun]
      cases hct : cur_tok tokens st with
      | none =>
        exact pstep_fail_cpe herrs (le_refl _) hcur (noeof_refl _ _) _ _
      | some token =>
        dsimp only
        cases htt : token.type
        case tIntLit =>
          cases hpi : parse_int_lit token.slice with
          | some v =>
            obtain ⟨hC1, hC2, hC3, hC4, hC5⟩ :=
              consumeT_nofail tokens (st) .tIntLit
                (by decide) hcur
            exact pstep_ok (hC1.trans herrs) hC2 hC3 hC4 _
          | none =>
            exact pstep_fail_cpe herrs (le_refl _) hcur
              (noeof_refl _ _) _ _
        case tFloatLit =>
          cases hpf : parse_float_lit token.slice with
          | some v =>
            obtain ⟨hC1, hC2, hC3, hC4, hC5⟩ :=
              consumeT_nofail tokens (st) .tFloatLit
                (by decide) hcur
            exact pstep_ok (hC1.trans herrs) hC2 hC3 hC4 _
          | none =>
            exact pstep_fail_cpe herrs (le_refl _) hcur
              (noeof_refl _ _) _ _
        case tTrue =>
          obtain ⟨hC1, hC2, hC3, hC4, hC5⟩ :=
            consumeT_nofail tokens (st) .tTrue
              (by decide) hcur
          exact pstep_ok (hC1.trans herrs) hC2 hC3 hC4 _
        case tFalse =>
          obtain ⟨hC1, hC2, hC3, hC4, hC5⟩ :=
            consumeT_nofail tokens (st) .tFalse
              (by decide) hcur
          exact pstep_ok (hC1.trans herrs) hC2 hC3 hC4 _
        case tCharLit =>
          obtain ⟨hC1, hC2, hC3, hC4, hC5⟩ :=
            consumeT_nofail tokens (st) .tCharLit
              (by decide) hcur
          exact pstep_ok (hC1.trans herrs) hC2 hC3 hC4 _
        case tStringLit =>
          obtain ⟨hC1, hC2, hC3, hC4, hC5⟩ :=
            consumeT_nofail tokens (st) .tStringLit
              (by decide) hcur
          exact pstep_ok (hC1.trans herrs) hC2 hC3 hC4 _
        case tIdentifier =>
          obtain ⟨hC1, hC2, hC3, hC4, hC5⟩ :=
            consumeT_nofail tokens (st) .tIdentifier
              (by decide) hcur
          exact pstep_ok (hC1.trans herrs) hC2 hC3 hC4 _
        case tLParen =>
          cases hcL : (consumeT tokens st .tLParen).1 with
          | none => exact trivial
          | some lpar =>
            obtain ⟨hL1, hL2, hL3, hL4, hL5, hL6⟩ :=
              consumeT_some_facts hcL (by decide)
            refine pbindN_pstep (pstep_compose (hL1.trans herrs)
              (by omega) (by omega) hL4
              (ih .exprJ _ (by intro h; cases h) (hL1.trans herrs)
                (by omega))) ?_
            intro e st2 hx h2errs h2cur
            cases hcR : (consumeT tokens st2 .tRParen).1 with
            | none =>
              obtain ⟨h3a, h3b⟩ := consumeT_none_facts hcR
              refine pstep_fail_cpe
                (u := setPrev (consumeT tokens st2 .tRParen).2)
                (by rw [setPrev_errs]; exact h3a.trans h2errs)
                (by rw [setPrev_cur]; omega)
                (by rw [setPrev_cur]; omega) ?_ _ _
              rw [setPrev_cur, h3b]
              exact noeof_refl _ _
            | some r =>
              obtain ⟨hR1, hR2, hR3, hR4, hR5, hR6⟩ :=
                consumeT_some_facts hcR (by decide)
              exact pstep_ok (hR1.trans h2errs) (by omega) (by omega)
                hR4 _
        all_goals
          refine pstep_fail_cpe (u := setPrev st)
            (by rw [setPrev_errs]; exact herrs)
            (by rw [setPrev_cur]) (by rw [setPrev_cur]; exact hcur)
            (by rw [setPrev_cur]; exact noeof_refl _ _) _ _
    | argList =>
      simp only [prun]
      cases hct : cur_tok tokens st with
      | none =>
        exact pstep_fail_cpe herrs (le_refl _) hcur (noeof_refl _ _) _ _
      | some tok =>
        dsimp only
        split
        · exact pstep_ok herrs (le_refl _) hcur (noeof_refl _ _) _
        · exact ih _ st (by intro h; cases h) herrs hcur
    | argLoop acc =>
      simp only [prun]
      cases hct : cur_tok tokens st with
      | none =>
        exact pstep_fail_cpe herrs (le_refl _) hcur (noeof_refl _ _) _ _
      | some tok =>
        dsimp only
        refine pbindN_pstep ?_ ?_
        · split
          · exact ih .initList st (by intro h; cases h) herrs hcur
          · exact ih .exprJ st (by intro h; cases h) herrs hcur
        · intro arg st2 hx h2errs h2cur
          cases hct2 : cur_tok tokens st2 with
          | none =>
            exact pstep_fail_cpe h2errs (le_refl _) h2cur
              (noeof_refl _ _) _ _
          | some tok2 =>
            dsimp only
            split
            · exact pstep_ok h2errs (le_refl _) h2cur (noeof_refl _ _) _
            · cases hcM : (consumeT tokens st2 .tComma).1 with
              | none =>
                obtain ⟨h3a, h3b⟩ := consumeT_none_facts hcM
                exact pstep_fail_cpe (h3a.trans h2errs) (by omega)
                  (by omega) (by rw [h3b]; exact noeof_refl _ _) _ _
              | some _ =>
                obtain ⟨hM1, hM2, hM3, hM4, hM5, hM6⟩ :=
                  consumeT_some_facts hcM (by decide)
                exact pstep_compose (hM1.trans h2errs) (by omega)
                  (by omega) hM4
                  (ih _ _ (by intro h; cases h) (hM1.trans h2errs)
                    (by omega))
    | initList =>
      simp only [prun]
      cases hcB : (consumeT tokens st .tLBrace).1 with
      | none =>
        obtain ⟨h1, h2⟩ := consumeT_none_facts hcB
        exact pstep_fail_cpe (h1.trans herrs) (by omega) (by omega)
          (by rw [h2]; exact noeof_refl _ _) _ _
      | some start_tok =>
        obtain ⟨hB1, hB2, hB3, hB4, hB5, hB6⟩ :=
          consumeT_some_facts hcB (by decide)
        cases hct2 : cur_tok tokens (consumeT tokens st .tLBrace).2 with
        | none =>
          exact pstep_fail_cpe (hB1.trans herrs) (by omega) (by omega)
            hB4 _ _
        | some tok =>
          dsimp only
          split
          · cases hcR : (consumeT tokens
                (consumeT tokens st .tLBrace).2 .tRBrace).1 with
            | none => exact trivial
            | some rbrace =>
              obtain ⟨hR1, hR2, hR3, hR4, hR5, hR6⟩ :=
                consumeT_some_facts hcR (by decide)
              exact pstep_ok (hR1.trans (hB1.trans herrs)) (by omega)
                (by omega) (noeof_trans hB4 hR4) _
          · exact pstep_compose (hB1.trans herrs) (by omega) (by omega)
              hB4 (ih _ _ (by intro h; cases h) (hB1.trans herrs)
                (by omega))
    | initLoop acc startSpan =>
      simp only [prun]
      cases hct : cur_tok tokens st with
      | none =>
        exact pstep_fail_cpe herrs (le_refl _) hcur (noeof_refl _ _) _ _
      | some tok =>
        dsimp only
        refine pbindN_pstep ?_ ?_
        · split
          · exact ih .initList st (by intro h; cases h) herrs hcur
          · exact ih .exprJ st (by intro h; cases h) herrs hcur
        · intro element st2 hx h2errs h2cur
          cases hct2 : cur_tok tokens st2 with
          | none =>
            exact pstep_fail_cpe h2errs (le_refl _) h2cur
              (noeof_refl _ _) _ _
          | some tok2 =>
            dsimp only
            by_cases hcm : tok2.type = .tComma
            · simp only [if_pos hcm]
              obtain ⟨hM1, hM2, hM3, hM4, hM5⟩ :=
                consumeT_nofail tokens (st2) .tComma
                  (by decide) h2cur
              cases hct3 : cur_tok tokens
                  (consumeT tokens st2 .tComma).2 with
              | none =>
                exact pstep_fail_cpe (hM1.trans h2errs) hM2 hM3 hM4 _ _
              | some tok3 =>
                dsimp only
                split
                · refine pstep_fail_cpe
                    (u := setPrev (consumeT tokens st2 .tComma).2)
                    (by rw [setPrev_errs]; exact hM1.trans h2errs)
                    (by rw [setPrev_cur]; exact hM2)
                    (by rw [setPrev_cur]; exact hM3) ?_ _ _
                  rw [setPrev_cur]
                  exact hM4
                · exact pstep_compose (hM1.trans h2errs) hM2 hM3 hM4
                    (ih _ _ (by intro h; cases h) (hM1.trans h2errs)
                      hM3)
            · simp only [if_neg hcm]
              by_cases hrb : tok2.type = .tRBrace
              · simp only [if_pos hrb]
                cases hcR : (consumeT tokens st2 .tRBrace).1 with
                | none => exact trivial
                | some rbrace =>
                  obtain ⟨hR1, hR2, hR3, hR4, hR5, hR6⟩ :=
                    consumeT_some_facts hcR (by decide)
                  exact pstep_ok (hR1.trans h2errs) (by omega) (by omega)
                    hR4 _
              · simp only [if_neg hrb]
                exact pstep_fail_cpe (u := setPrev st2)
                  (by rw [setPrev_errs]; exact h2errs)
                  (by rw [setPrev_cur]) (by rw [setPrev_cur]; exact h2cur)
                  (by rw [setPrev_cur]; exact noeof_refl _ _) _ _
    | blockJ =>
      simp only [prun]
      cases hcB : (consumeT tokens st .tLBrace).1 with
      | none =>
        obtain ⟨h1, h2⟩ := consumeT_none_facts hcB
        exact pstep_fail_cpe (h1.trans herrs) (by omega) (by omega)
          (by rw [h2]; exact noeof_refl _ _) _ _
      | some lbrace =>
        obtain ⟨hB1, hB2, hB3, hB4, hB5, hB6⟩ :=
          consumeT_some_facts hcB (by decide)
        exact pstep_compose (hB1.trans herrs) (by omega) (by omega) hB4
          (ih _ _ (by intro h; cases h) (hB1.trans herrs) (by omega))
    | blockLoop acc startSpan =>
      simp only [prun]
      cases hct : cur_tok tokens st with
      | none =>
        exact pstep_fail_cpe (u := setPrev st)
          (by rw [setPrev_errs]; exact herrs)
          (by rw [setPrev_cur]) (by rw [setPrev_cur]; exact hcur)
          (by rw [setPrev_cur]; exact noeof_refl _ _) _ _
      | some current =>
        dsimp only
        split
        · exact pstep_fail_cpe herrs (le_refl _) hcur
            (noeof_refl _ _) _ _
        · split
          · cases hcR : (consumeT tokens st .tRBrace).1 with
            | none => exact trivial
            | some rbrace =>
              obtain ⟨hR1, hR2, hR3, hR4, hR5, hR6⟩ :=
                consumeT_some_facts hcR (by decide)
              exact pstep_ok (hR1.trans herrs) (by omega) (by omega)
                hR4 _
          · refine pbindN_pstep (ih .stmtJ st (by intro h; cases h)
              herrs hcur) ?_
            intro stmt st2 hx h2errs h2cur
            exact ih _ st2 (by intro h; cases h) h2errs h2cur
    | stmtJ =>
      simp only [prun]
      cases hct : cur_tok tokens st with
      | none =>
        exact pstep_fail_cpe herrs (le_refl _) hcur (noeof_refl _ _) _ _
      | some tok =>
        dsimp only
        cases htt : tok.type
        case tIf => exact ih .ifStmt st (by intro h; cases h) herrs hcur
        case tWhile =>
          exact ih .whileStmt st (by intro h; cases h) herrs hcur
        case tFor => exact ih .forStmt st (by intro h; cases h) herrs hcur
        case tReturn =>
          exact ih .returnStmt st (by intro h; cases h) herrs hcur
        case tBreak =>
          exact ih .breakStmt st (by intro h; cases h) herrs hcur
        case tContinue =>
          exact ih .continueStmt st (by intro h; cases h) herrs hcur
        case tLBrace =>
          exact ih .blockJ st (by intro h; cases h) herrs hcur
        case tFn =>
          exact pstep_fail_cpe herrs (le_refl _) hcur (noeof_refl _ _) _ _
        case tIdentifier =>
          cases hpk : peek1 tokens st with
          | none =>
            exact pstep_fail_cpe herrs (le_refl _) hcur
              (noeof_refl _ _) _ _
          | some next =>
            dsimp only
            split
            · exact ih .declStmt st (by intro h; cases h) herrs hcur
            · exact ih .exprStmt st (by intro h; cases h) herrs hcur
        all_goals exact ih .exprStmt st (by intro h; cases h) herrs hcur
    | ifStmt =>
      simp only [prun]
      cases hcI : (consumeT tokens st .tIf).1 with
      | none =>
        obtain ⟨h1, h2⟩ := consumeT_none_facts hcI
        exact pstep_fail_cpe (h1.trans herrs) (by omega) (by omega)
          (by rw [h2]; exact noeof_refl _ _) _ _
      | some if_tok =>
        obtain ⟨hI1, hI2, hI3, hI4, hI5, hI6⟩ :=
          consumeT_some_facts hcI (by decide)
        refine pbindN_pstep (pstep_compose (hI1.trans herrs) (by omega)
          (by omega) hI4 (ih .exprJ _ (by intro h; cases h)
            (hI1.trans herrs) (by omega))) ?_
        intro cond st1 hx h1errs h1cur
        refine pbindN_pstep (ih .blockJ st1 (by intro h; cases h)
          h1errs h1cur) ?_
        intro thenB st2 hx2 h2errs h2cur
        cases hcE : (consumeT tokens st2 .tElse).1 with
        | none =>
          obtain ⟨h3a, h3b⟩ := consumeT_none_facts hcE
          exact pstep_ok (h3a.trans h2errs) (by omega) (by omega)
            (by rw [h3b]; exact noeof_refl _ _) _
        | some _ =>
          obtain ⟨hE1, hE2, hE3, hE4, hE5, hE6⟩ :=
            consumeT_some_facts hcE (by decide)
          cases hct3 : cur_tok tokens
              (consumeT tokens st2 .tElse).2 with
          | none =>
            exact pstep_fail_cpe (hE1.trans h2errs) (by omega)
              (by omega) hE4 _ _
          | some next =>
            dsimp only
            split
            · refine pbindN_pstep (pstep_compose (hE1.trans h2errs)
                (by omega) (by omega) hE4
                (ih .ifStmt _ (by intro h; cases h) (hE1.trans h2errs)
                  (by omega))) ?_
              intro elseIf st3 hx3 h3errs h3cur
              exact pstep_ok h3errs (le_refl _) h3cur (noeof_refl _ _) _
            · refine pbindN_pstep (pstep_compose (hE1.trans h2errs)
                (by omega) (by omega) hE4
                (ih .blockJ _ (by intro h; cases h) (hE1.trans h2errs)
                  (by omega))) ?_
              intro elseB st3 hx3 h3errs h3cur
              exact pstep_ok h3errs (le_refl _) h3cur (noeof_refl _ _) _
    | whileStmt =>
      simp only [prun]
      cases hcW : (consumeT tokens st .tWhile).1 with
      | none =>
        obtain ⟨h1, h2⟩ := consumeT_none_facts hcW
        exact pstep_fail_cpe (h1.trans herrs) (by omega) (by omega)
          (by rw [h2]; exact noeof_refl _ _) _ _
      | some while_tok =>
        obtain ⟨hW1, hW2, hW3, hW4, hW5, hW6⟩ :=
          consumeT_some_facts hcW (by decide)
        refine pbindN_pstep (pstep_compose (hW1.trans herrs) (by omega)
          (by omega) hW4 (ih .exprJ _ (by intro h; cases h)
            (hW1.trans herrs) (by omega))) ?_
        intro cond st1 hx h1errs h1cur
        refine pbindN_pstep (ih .blockJ st1 (by intro h; cases h)
          h1errs h1cur) ?_
        intro body st2 hx2 h2errs h2cur
        exact pstep_ok h2errs (le_refl _) h2cur (noeof_refl _ _) _
    | returnStmt =>
      simp only [prun]
      cases hcR : (consumeT tokens st .tReturn).1 with
      | none =>
        obtain ⟨h1, h2⟩ := consumeT_none_facts hcR
        exact pstep_fail_cpe (h1.trans herrs) (by omega) (by omega)
          (by rw [h2]; exact noeof_refl _ _) _ _
      | some return_tok =>
        obtain ⟨hR1, hR2, hR3, hR4, hR5, hR6⟩ :=
          consumeT_some_facts hcR (by decide)
        dsimp only
        split
        · cases hcS : (consumeT tokens
              (consumeT tokens st .tReturn).2 .tSemicolon).1 with
          | none =>
            obtain ⟨h3a, h3b⟩ := consumeT_none_facts hcS
            exact pstep_fail_cpe (h3a.trans (hR1.trans herrs))
              (by omega) (by omega) (by rw [h3b]; exact hR4) _ _
          | some semi =>
            obtain ⟨hS1, hS2, hS3, hS4, hS5, hS6⟩ :=
              consumeT_some_facts hcS (by decide)
            exact pstep_ok (hS1.trans (hR1.trans herrs)) (by omega)
              (by omega) (noeof_trans hR4 hS4) _
        · refine pbindN_pstep (pstep_compose (hR1.trans herrs)
            (by omega) (by omega) hR4
            (ih .exprJ _ (by intro h; cases h) (hR1.trans herrs)
              (by omega))) ?_
          intro e st2 hx h2errs h2cur
          cases hcS : (consumeT tokens st2 .tSemicolon).1 with
          | none =>
            obtain ⟨h3a, h3b⟩ := consumeT_none_facts hcS
            exact pstep_fail_cpe (h3a.trans h2errs) (by omega)
              (by omega) (by rw [h3b]; exact noeof_refl _ _) _ _
          | some semi =>
            obtain ⟨hS1, hS2, hS3, hS4, hS5, hS6⟩ :=
              consumeT_some_facts hcS (by decide)
            exact pstep_ok (hS1.trans h2errs) (by omega) (by omega)
              hS4 _
    | exprStmt =>
      simp only [prun]
      refine pbindN_pstep (ih .exprJ st (by intro h; cases h)
        herrs hcur) ?_
      intro e st1 hx h1errs h1cur
      cases hcS : (consumeT tokens st1 .tSemicolon).1 with
      | none =>
        obtain ⟨h3a, h3b⟩ := consumeT_none_facts hcS
        refine pstep_fail_cpe
          (u := setPrev (consumeT tokens st1 .tSemicolon).2)
          (by rw [setPrev_errs]; exact h3a.trans h1errs)
          (by rw [setPrev_cur]; omega)
          (by rw [setPrev_cur]; omega) ?_ _ _
        rw [setPrev_cur, h3b]
        exact noeof_refl _ _
      | some _ =>
        obtain ⟨hS1, hS2, hS3, hS4, hS5, hS6⟩ :=
          consumeT_some_facts hcS (by decide)
        exact pstep_ok (hS1.trans h1errs) (by omega) (by omega) hS4 _

theorem pstep_to_declStep {tokens : List Token} {st : PSt}
    {y : PRes × PSt} (h : PStep tokens st y) :
    DeclStep tokens st y := by
  obtain ⟨res, st1⟩ := y
  cases res with
  | fuelOut => exact trivial
  | ok v => exact h
  | fail =>
    obtain ⟨g1, g2, g3, g4⟩ := h
    refine ⟨g2, g3, ?_⟩
    cases herr : st1.errs with
    | nil => exact Or.inl rfl
    | cons a t =>
      refine Or.inr ⟨?_, g4⟩
      rw [herr] at g1
      simp only [List.length_cons] at g1 ⊢
      omega

theorem prun_decl_pstep (tokens : List Token) :
    ∀ fuel st, st.errs = [] → st.cur ≤ tokens.length →
      DeclStep tokens st (prun tokens fuel .decl st) := by
  intro fuel st herrs hcur
  cases fuel with
  | zero => exact trivial
  | succ fuel =>
    simp only [prun]
    cases hct : cur_tok tokens st with
    | none =>
      exact ⟨le_refl _, hcur, Or.inr ⟨cpe_len herrs _ _, noeof_refl _ _⟩⟩
    | some cur =>
      by_cases h1 : cur.type = .tEof
      · simp only [if_pos h1]
        have hg : tokens.get? st.cur = some cur := hct
        obtain ⟨hc2, hg2, ht2, hlt2⟩ :=
          consumeT_some (k := cur) (e := .tEof)
            (by rw [consumeT_snd_hit hg h1])
        refine ⟨?_, ?_, Or.inl ?_⟩
        · rw [hc2]; dsimp only; omega
        · rw [hc2]; dsimp only; omega
        · rw [hc2]; exact herrs
      · simp only [if_neg h1]
        by_cases h2 : cur.type = .tFn
        · simp only [if_pos h2]
          exact pstep_to_declStep (prun_pstep tokens fuel .funcDecl st
            (by intro h; cases h) herrs hcur)
        · simp only [if_neg h2]
          by_cases h3 : cur.type = .tConst ∨ cur.type = .tIdentifier
          · simp only [if_pos h3]
            exact pstep_to_declStep (prun_pstep tokens fuel .declStmt st
              (by intro h; cases h) herrs hcur)
          · simp only [if_neg h3]
            exact ⟨le_refl _, hcur,
              Or.inr ⟨cpe_len herrs _ _, noeof_refl _ _⟩⟩

theorem parse_program_loop_inv (tokens : List Token) :
    ∀ fuel st acc spans, st.errs = [] → st.cur ≤ tokens.length →
      NoEofRange tokens 0 st.cur →
      match parse_program_loop tokens fuel st acc spans with
      | (.done _ _, st2) =>
        st2.cur ≤ tokens.length ∧
        (st2.errs = []
         ∨ (st2.errs.length = 1 ∧ NoEofRange tokens 0 st2.cur))
      | (.stopped, _) => False
      | (.fuelOut, _) => True := by
  intro fuel
  induction fuel with
  | zero => intro st acc spans h1 h2 h0; exact trivial
  | succ fuel ih =>
    intro st acc spans herrs hcur h0
    simp only [parse_program_loop, herrs, List.isEmpty_nil,
      Bool.not_true, Bool.false_eq_true, if_false]
    have hd := prun_decl_pstep tokens fuel st herrs hcur
    cases hres : prun tokens fuel .decl st with
    | mk res st1 =>
      rw [hres] at hd
      cases res with
      | fuelOut => exact trivial
      | fail =>
        obtain ⟨g1, g2, g3⟩ := hd
        refine ⟨g2, ?_⟩
        cases g3 with
        | inl h => exact Or.inl h
        | inr h => exact Or.inr ⟨h.1, noeof_trans h0 h.2⟩
      | ok v =>
        cases v with
        | node d =>
          exact ih st1 (acc ++ [d]) _ hd.1 hd.2.2.1
            (noeof_trans h0 hd.2.2.2)
        | nodes l => exact trivial
        | irec r => exact trivial
/-- C6: for a token stream ending in EOF, the whole parse leaves zero
diagnostics when it yields an AST, and exactly one diagnostic when it
yields NULL — the first syntactic failure records one diagnostic, every
enclosing production propagates the NULL return unchanged, and no later
production overwrites the original diagnostic. -/
theorem c6_parse_first_error_wins :
    ∀ (tokens : List Token) (fuel : Nat) (te : Token),
      tokens.get? (tokens.length - 1) = some te → te.type = .tEof →
      (∀ v st, parse_program_x tokens fuel = (.ok v, st) →
          st.errs = [])
      ∧ (∀ st, parse_program_x tokens fuel = (.fail, st) →
          st.errs.length = 1) := by
  intro tokens fuel te hte hty
  have hpos : 0 < tokens.length := by
    have := (List.get?_eq_some.mp hte).1
    omega
  have hloop := parse_program_loop_inv tokens fuel
    { cur := 0, errs := [], use_prev := false } [] none rfl
    (Nat.zero_le _)
    (by intro j hj1 hj2 u hu; exact (Nat.not_lt_zero j hj2).elim)
  constructor
  · intro v st hok
    simp only [parse_program_x] at hok
    cases hres : parse_program_loop tokens fuel
        { cur := 0, errs := [], use_prev := false } [] none with
    | mk lr st1 =>
      rw [hres] at hok hloop
      cases lr with
      | fuelOut => exact absurd hok (by simp)
      | stopped => exact hloop.elim
      | done decls spans =>
        obtain ⟨hub, hdisj⟩ := hloop
        dsimp only at hok
        by_cases hlt2 : st1.cur < tokens.length
        · rw [if_pos hlt2] at hok
          exact absurd hok (by simp)
        · rw [if_neg hlt2] at hok
          have h2 : st1 = st := congrArg Prod.snd hok
          cases hdisj with
          | inl h => rw [← h2]; exact h
          | inr h =>
            exfalso
            have hcur_eq : st1.cur = tokens.length := by omega
            exact h.2 (tokens.length - 1) (by omega) (by omega) te hte
              hty
  · intro st hfail
    simp only [parse_program_x] at hfail
    cases hres : parse_program_loop tokens fuel
        { cur := 0, errs := [], use_prev := false } [] none with
    | mk lr st1 =>
      rw [hres] at hfail hloop
      cases lr with
      | fuelOut => exact absurd hfail (by simp)
      | stopped => exact hloop.elim
      | done decls spans =>
        obtain ⟨hub, hdisj⟩ := hloop
        dsimp only at hfail
        by_cases hlt2 : st1.cur < tokens.length
        · rw [if_pos hlt2] at hfail
          have h2 : (if st1.errs.isEmpty then
              cpe st1 "trailing tokens after program end"
                (cur_tok tokens st1) else st1) = st :=
            congrArg Prod.snd hfail
          cases hdisj with
          | inl h =>
            rw [← h2, if_pos (by rw [h]; rfl)]
            exact cpe_len h _ _
          | inr h =>
            have hne : st1.errs.isEmpty = false := by
              cases herr : st1.errs with
              | nil => rw [herr] at h; exact absurd h.1 (by simp)
              | cons a t => rfl
            rw [← h2, if_neg (by rw [hne]; exact Bool.false_ne_true)]
            exact h.1
        · rw [if_neg hlt2] at hfail
          exact absurd hfail (by simp)

/-- C6 (witness): parsing `+ <eof>` fails with exactly one diagnostic. -/
theorem c6_parse_first_error_wins_witness :
    c6Toks.get? (c6Toks.length - 1) = some (mkTok .tEof "" 2 none)
    ∧ (parse_program_x c6Toks 10).2.errs.length = 1 :=
  ⟨rfl, (c6_parse_first_error_wins c6Toks 10 (mkTok .tEof "" 2 none)
      rfl rfl).2 (parse_program_x c6Toks 10).2 rfl⟩

end CompilerV3
